import Mathlib

/-!
The durable store-and-forward core of messagebridge.

A shallow embedding of the message store (`storage/sqlite.go`), the retry
worker (`worker/worker.go`), the ingest handler (`handler/handler.go`) and the
webhook endpoint (`server/server.go`).

Modelling conventions.

* The `messages` table is a list of rows in insertion order.  `id` is the
  primary key, so a table of the database has pairwise distinct ids
  (`UniqueIds`); every operation below preserves this.
* An instant is an integer number of whole seconds (the resolution of the SQL
  `datetime` function).  Each operation reads the clock once; the reading is
  the explicit argument `now`.
* The database keeps a `time.Time` as the text of its local date and time
  followed by its zone offset, and compares such texts as texts.  The local
  time zone of the process is the explicit argument `zone`; years lie between
  0000 and 9999, so that the date and time part has a fixed width.
* A Go `error` result is an `Option String`: `none` is `nil`, `some e` is an
  error whose text is `e`.
* A sink (Kafka producer, HTTP client) is an external collaborator; it is a
  function from the message to the outcome of `SendMessage`.  Calls made to
  collaborators are recorded in a trace of `Call`s.
* Database statements are taken to execute without an I/O fault unless a fault
  is passed in explicitly (`dbErr`).
-/

namespace MessageBridge

/-! ## models/message.go -/

/-- Wall-clock instant in whole seconds since the Unix epoch. -/
abbrev Time := Int

/-- The Go zero value of `time.Time` (0001-01-01T00:00:00Z) in Unix seconds. -/
def zeroTime : Time := -62135596800

/-- Seconds in `time.Minute`. -/
abbrev minute : Int := 60

/-- Seconds in a day. -/
abbrev day : Int := 86400

/-- Go `[]byte`. -/
abbrev Bytes := List UInt8

/-- Go `type MessageStatus string`. -/
abbrev MessageStatus := String

abbrev StatusPending : MessageStatus := "pending"
abbrev StatusSent : MessageStatus := "sent"
abbrev StatusFailed : MessageStatus := "failed"
abbrev StatusRetrying : MessageStatus := "retrying"

/-- Go `type TargetType string`. -/
abbrev TargetType := String

abbrev TargetKafka : TargetType := "kafka"
abbrev TargetRemoteURL : TargetType := "remote_url"

/-- Go `map[string]string`, as an association list with at most one entry per key. -/
abbrev StringMap := List (String × String)

/-- Map assignment `m[k] = v`. -/
def StringMap.set (m : StringMap) (k v : String) : StringMap :=
  (k, v) :: m.filter (fun e => e.1 ≠ k)

/-- Map lookup `v, ok := m[k]`. -/
def StringMap.get? (m : StringMap) (k : String) : Option String :=
  (m.find? (fun e => e.1 = k)).map Prod.snd

/-- The struct `models.WebhookMessage`. -/
structure WebhookMessage where
  ID : String
  Path : String
  Queue : String
  Body : Bytes
  Headers : StringMap
  Timestamp : Time
  Retries : Int
  Status : MessageStatus
  Error : String
  CreatedAt : Time
  UpdatedAt : Time
  deriving DecidableEq, Repr

/-- The struct `models.PendingMessage`: an embedded message and `NextRetryAt`. -/
structure PendingMessage extends WebhookMessage where
  NextRetryAt : Time
  deriving DecidableEq, Repr

/-- The struct `models.DeliveryTarget`; the field `Type` is written `Type_`. -/
structure DeliveryTarget where
  Type_ : TargetType
  Topic : String := ""
  URL : String := ""
  deriving DecidableEq, Repr

/-! ## config/config.go (the structures) -/

structure ServerConfig where
  Host : String
  Port : Int
  deriving DecidableEq, Repr

structure RouteConfig where
  Path : String
  Queue : String
  deriving DecidableEq, Repr

/-- Durations are in nanoseconds, as in Go. -/
structure KafkaConfig where
  Brokers : List String
  SecurityProtocol : String
  SASLMechanism : String
  SASLUsername : String
  SASLPassword : String
  TLSEnabled : Bool
  RetryMax : Int
  RetryBackoff : Int
  BatchSize : Int
  Timeout : Int
  deriving DecidableEq, Repr

structure RedisConfig where
  Address : String
  Password : String
  Database : Int
  deriving DecidableEq, Repr

structure SQLiteConfig where
  DatabasePath : String
  deriving DecidableEq, Repr

structure RemoteURLConfig where
  URL : String
  Timeout : Int
  Retries : Int
  deriving DecidableEq, Repr

structure WorkerConfig where
  RetryInterval : Int
  BatchSize : Int
  MaxRetries : Int
  deriving DecidableEq, Repr

structure NginxConfig where
  Domain : String
  SSLCertificate : String
  SSLCertificateKey : String
  deriving DecidableEq, Repr

/-- The struct `config.Config`; a nil pointer field is `none`. -/
structure Config where
  Server : ServerConfig
  Routes : List RouteConfig
  Kafka : Option KafkaConfig
  Redis : Option RedisConfig
  SQLite : Option SQLiteConfig
  RemoteURL : Option RemoteURLConfig
  Worker : WorkerConfig
  Nginx : Option NginxConfig
  deriving DecidableEq, Repr

/-! ## storage/sqlite.go -/

/-- One row of the table `messages`: the message columns and the nullable
column `next_retry_at`. -/
structure Row extends WebhookMessage where
  next_retry_at : Option Time
  deriving DecidableEq, Repr

/-- The contents of the table `messages`, in insertion order. -/
abbrev Store := List Row

/-- The primary-key constraint of the table: no two rows share an id. -/
def UniqueIds (s : Store) : Prop := (s.map (fun r => r.ID)).Nodup

instance (s : Store) : Decidable (UniqueIds s) := by
  unfold UniqueIds; infer_instance

/-- The local time zone of the process: the offset from UTC, in seconds east,
that is in force at each instant.  Every `time.Time` the program stores comes
from `time.Now()` and is in this zone. -/
abbrev Zone := Time → Int

/-- Coordinated universal time. -/
def utc : Zone := fun _ => 0

/-- The key by which SQLite orders a stored `time.Time`.  The driver writes the
value as the text `2006-01-02 15:04:05-07:00`: its local date and time followed
by its zone offset in hours and minutes (Go divides the offset by 60, rounding
towards zero, and prints the sign of the quotient).  SQLite compares two such
texts character by character: by the local date and time, then by the sign of
the offset (`+` sorts before `-`), then by its hours and minutes. -/
def storedKey (zone : Zone) (t : Time) : Int × Nat × Nat :=
  let offsetMinutes := Int.tdiv (zone t) 60
  (t + zone t, if offsetMinutes < 0 then 1 else 0, offsetMinutes.natAbs)

/-- SQL `a <= b` on two stored `time.Time` values: the comparison of their
texts. -/
def storedLe (zone : Zone) (a b : Time) : Bool :=
  let ka := storedKey zone a
  let kb := storedKey zone b
  decide (ka.1 < kb.1) ||
    (decide (ka.1 = kb.1) &&
      (decide (ka.2.1 < kb.2.1) || (decide (ka.2.1 = kb.2.1) && decide (ka.2.2 ≤ kb.2.2))))

/-- SQL `a < c` for a stored `time.Time` `a` and the result `c` of the SQL
function `datetime`, which is the text `2006-01-02 15:04:05` of a date and time
in UTC.  The text of `a` is longer, so it is smaller only when its local date
and time are. -/
def storedBefore (zone : Zone) (a : Time) (c : Time) : Bool :=
  decide (a + zone a < c)

/-- Go `int` arithmetic: a result outside the 64-bit range wraps around. -/
def wrapInt64 (x : Int) : Int := (x + 2 ^ 63) % 2 ^ 64 - 2 ^ 63

/-- Go `time.Duration(retries*2) * time.Minute`, a 64-bit count of
nanoseconds, in whole seconds. -/
def retryDelay (retries : Int) : Int :=
  wrapInt64 (wrapInt64 (retries * 2) * (60 * 1000000000)) / 1000000000

/-- The number SQLite reads from the text made of the sign `+` and the decimal
text of `n`: `n` itself when `n` is not negative, and 0 for a text `+-n`, which
does not begin with a number. -/
def plusTextToNumber (n : Int) : Int :=
  if 0 ≤ n then n else 0

/-- The modifier that `UpdateMessageStatus` passes to `datetime`: the SQL
expression `'+' || (retries + 1) * 2 || ' minutes'`.  The operator `||` binds
tighter than `*`, so the expression is the product of the two texts
`'+' || (retries + 1)` and `2 || ' minutes'`, each read as a number: its value
is a number, not a text of the form `+N minutes`. -/
def retryModifier (retries : Int) : Int :=
  plusTextToNumber (retries + 1) * 2

/-- SQL `datetime('now', m)` for a modifier `m` that is a number.  A modifier
is a text such as `+4 minutes`; the text of a bare number is not one, and the
function yields NULL. -/
def datetimeNumberModifier (_now : Time) (_m : Int) : Option Time :=
  none

/-- SQL `datetime('now', '-' || n || ' days')`, an instant of UTC; NULL for a
negative `n`. -/
def datetimeMinusDays (now : Time) (n : Int) : Option Time :=
  if 0 ≤ n then some (now - n * day) else none

/-- `SQLiteStorage.SaveMessage`: INSERT OR REPLACE of all twelve columns. -/
def SaveMessage (s : Store) (now : Time) (msg : WebhookMessage) : Store :=
  let nextRetryAt : Option Time :=
    if msg.Status = StatusRetrying then some (now + retryDelay msg.Retries) else none
  s.filter (fun r => r.ID ≠ msg.ID) ++ [{ toWebhookMessage := msg, next_retry_at := nextRetryAt }]

/-- The WHERE clause of `GetPendingMessages`:
`status IN (pending, retrying) AND (next_retry_at IS NULL OR next_retry_at <= now)`,
where `now` is bound as a `time.Time`. -/
def eligible (zone : Zone) (now : Time) (r : Row) : Bool :=
  (r.Status == StatusPending || r.Status == StatusRetrying) &&
    (match r.next_retry_at with
     | none => true
     | some t => storedLe zone t now)

/-- SQL `ORDER BY created_at ASC` (ties keep table order): the order of the
stored texts. -/
def orderByCreatedAt (zone : Zone) (rows : List Row) : List Row :=
  rows.insertionSort (fun a b => storedLe zone a.CreatedAt b.CreatedAt = true)

/-- SQL `LIMIT n`: a negative `n` means no limit. -/
def sqlLimit {α : Type} (n : Int) (rows : List α) : List α :=
  if n < 0 then rows else rows.take n.toNat

/-- The rows selected by the query of `GetPendingMessages`. -/
def pendingRows (zone : Zone) (s : Store) (now : Time) (limit : Int) : List Row :=
  sqlLimit limit (orderByCreatedAt zone (s.filter (eligible zone now)))

/-- The body of the `rows.Next()` loop: scan one row into a `PendingMessage`;
`NextRetryAt` stays the zero time when the column is NULL. -/
def scanRow (r : Row) : PendingMessage :=
  { toWebhookMessage := r.toWebhookMessage,
    NextRetryAt := match r.next_retry_at with
      | some t => t
      | none => zeroTime }

/-- `SQLiteStorage.GetPendingMessages`. -/
def GetPendingMessages (zone : Zone) (s : Store) (now : Time) (limit : Int) :
    List PendingMessage :=
  (pendingRows zone s now limit).map scanRow

/-- The SET clause of `UpdateMessageStatus` applied to one row; the right-hand
sides read the old `retries`. -/
def updateRow (now : Time) (status : MessageStatus) (error : String) (r : Row) : Row :=
  { r with
    Status := status,
    Error := error,
    UpdatedAt := now,
    Retries := r.Retries + 1,
    next_retry_at :=
      if status = "retrying" then datetimeNumberModifier now (retryModifier r.Retries)
      else none }

/-- `SQLiteStorage.UpdateMessageStatus`: UPDATE ... WHERE id = ?. -/
def UpdateMessageStatus (s : Store) (now : Time) (id : String) (status : MessageStatus)
    (error : String) : Store :=
  s.map (fun r => if r.ID = id then updateRow now status error r else r)

/-- `SQLiteStorage.DeleteMessage`: DELETE ... WHERE id = ?. -/
def DeleteMessage (s : Store) (id : String) : Store :=
  s.filter (fun r => r.ID ≠ id)

/-- `SQLiteStorage.Cleanup`:
DELETE ... WHERE status = sent AND created_at < datetime(now, -retentionDays days). -/
def Cleanup (zone : Zone) (s : Store) (now : Time) (retentionDays : Int) : Store :=
  match datetimeMinusDays now retentionDays with
  | none => s
  | some cutoff =>
    s.filter (fun r => !(r.Status == StatusSent && storedBefore zone r.CreatedAt cutoff))

/-- Go `map[string]int` holding row counts, as an association list with at
most one entry per key. -/
abbrev CountMap := List (String × Nat)

/-- Map assignment `m[k] = v`. -/
def CountMap.set (m : CountMap) (k : String) (v : Nat) : CountMap :=
  (k, v) :: m.filter (fun e => e.1 ≠ k)

/-- Map lookup `v, ok := m[k]`. -/
def CountMap.get? (m : CountMap) (k : String) : Option Nat :=
  (m.find? (fun e => e.1 = k)).map Prod.snd

/-- The result rows of `SELECT status, COUNT(*) FROM messages GROUP BY status`:
one row per status that occurs, with the number of rows carrying it. -/
def groupByStatus (s : Store) : List (String × Nat) :=
  ((s.map (fun r => r.Status)).dedup).map
    (fun status => (status, (s.map (fun r => r.Status)).count status))

/-- `SQLiteStorage.GetMessageStats`: the loop `stats[status] = count` over the
result rows. -/
def GetMessageStats (s : Store) : CountMap :=
  (groupByStatus s).foldl (fun stats row => stats.set row.1 row.2) []

/-- Tables that the store operations can produce from the empty table. -/
inductive StoreReachable : Store → Prop where
  | empty : StoreReachable []
  | save (s : Store) (now : Time) (msg : WebhookMessage) :
      StoreReachable s → StoreReachable (SaveMessage s now msg)
  | update (s : Store) (now : Time) (id : String) (status : MessageStatus) (error : String) :
      StoreReachable s → StoreReachable (UpdateMessageStatus s now id status error)
  | delete (s : Store) (id : String) :
      StoreReachable s → StoreReachable (DeleteMessage s id)
  | cleanup (zone : Zone) (s : Store) (now : Time) (retentionDays : Int) :
      StoreReachable s → StoreReachable (Cleanup zone s now retentionDays)

/-! ## Collaborators and call traces -/

/-- A sink client: the outcome of one `SendMessage` call on a message. -/
abbrev Sink := WebhookMessage → Option String

/-- A call made to the store, to a sink or to the webhook handler. -/
inductive Call where
  | KafkaSendMessage (msg : WebhookMessage)
  | HTTPSendMessage (msg : WebhookMessage)
  | ProcessWebhook (msg : WebhookMessage)
  | SaveMessage (msg : WebhookMessage)
  | GetPendingMessages (limit : Int)
  | UpdateMessageStatus (id : String) (status : MessageStatus) (error : String)
  | DeleteMessage (id : String)
  deriving DecidableEq, Repr

/-- A call that is a sink transmission of the message with the given id. -/
def Call.isSendOf (id : String) : Call → Bool
  | .KafkaSendMessage msg => msg.ID == id
  | .HTTPSendMessage msg => msg.ID == id
  | _ => false

/-- A call that is a sink transmission. -/
def Call.isSend : Call → Bool
  | .KafkaSendMessage _ => true
  | .HTTPSendMessage _ => true
  | _ => false

/-- A call that is an invocation of the webhook handler. -/
def Call.isProcessWebhook : Call → Bool
  | .ProcessWebhook _ => true
  | _ => false

/-! ## worker/worker.go -/

/-- The struct `worker.Worker`; a nil client is `none`.  The storage it points
to is passed to each operation as the current table. -/
structure Worker where
  kafkaProducer : Option Sink
  httpClient : Option Sink
  config : Config

/-- `Worker.sendToKafka`: the error result and the sink calls made. -/
def Worker.sendToKafka (w : Worker) (msg : WebhookMessage) : Option String × List Call :=
  match w.kafkaProducer with
  | none => (some "Kafka producer not available", [])
  | some producer => (producer msg, [Call.KafkaSendMessage msg])

/-- `Worker.sendToRemoteURL`: the error result and the sink calls made. -/
def Worker.sendToRemoteURL (w : Worker) (msg : WebhookMessage) : Option String × List Call :=
  match w.httpClient with
  | none => (some "HTTP client not available", [])
  | some client => (client msg, [Call.HTTPSendMessage msg])

/-- `Worker.getDeliveryTarget`. -/
def Worker.getDeliveryTarget (w : Worker) : DeliveryTarget :=
  match w.config.RemoteURL with
  | some remote =>
    if remote.URL ≠ "" then { Type_ := TargetRemoteURL, URL := remote.URL }
    else { Type_ := TargetKafka }
  | none => { Type_ := TargetKafka }

/-- The `switch target.Type` of `processMessage`. -/
def Worker.send (w : Worker) (msg : WebhookMessage) : Option String × List Call :=
  let target := w.getDeliveryTarget
  if target.Type_ = TargetKafka then w.sendToKafka msg
  else if target.Type_ = TargetRemoteURL then w.sendToRemoteURL msg
  else w.sendToKafka msg

/-- `Worker.processMessage`: the table afterwards and the calls made, in order. -/
def Worker.processMessage (w : Worker) (now : Time) (msg : PendingMessage) (s : Store) :
    Store × List Call :=
  if 0 < w.config.Worker.MaxRetries ∧ w.config.Worker.MaxRetries ≤ msg.Retries then
    (UpdateMessageStatus s now msg.ID StatusFailed "Exceeded max retries",
     [Call.UpdateMessageStatus msg.ID StatusFailed "Exceeded max retries"])
  else
    let sent := w.send msg.toWebhookMessage
    match sent.1 with
    | some e =>
      (UpdateMessageStatus s now msg.ID StatusRetrying e,
       sent.2 ++ [Call.UpdateMessageStatus msg.ID StatusRetrying e])
    | none =>
      (DeleteMessage s msg.ID, sent.2 ++ [Call.DeleteMessage msg.ID])

/-- The `for _, msg := range messages` loop of `processRetries`. -/
def Worker.processBatch (w : Worker) (now : Time) :
    List PendingMessage → Store → Store × List Call
  | [], s => (s, [])
  | msg :: rest, s =>
    let first := w.processMessage now msg s
    let others := Worker.processBatch w now rest first.1
    (others.1, first.2 ++ others.2)

/-- `Worker.processRetries`: one scheduler tick. -/
def Worker.processRetries (w : Worker) (zone : Zone) (now : Time) (s : Store) :
    Store × List Call :=
  let messages := GetPendingMessages zone s now w.config.Worker.BatchSize
  let done := w.processBatch now messages s
  (done.1, Call.GetPendingMessages w.config.Worker.BatchSize :: done.2)

/-- `Worker.Cleanup`: the retention sweep with a window of 7 days. -/
def Worker.Cleanup (_w : Worker) (zone : Zone) (now : Time) (s : Store) : Store :=
  MessageBridge.Cleanup zone s now 7

/-- Successive scheduler ticks at the given instants. -/
def Worker.ticks (w : Worker) (zone : Zone) : List Time → Store → Store
  | [], s => s
  | t :: ts, s => Worker.ticks w zone ts (w.processRetries zone t s).1

/-! ## handler/handler.go -/

/-- The struct `handler.MessageHandler`; a nil client is `none`.  Its storage
pointer is passed to each operation: `none` is nil, `some s` is the table. -/
structure MessageHandler where
  config : Config
  kafkaProducer : Option Sink
  httpClient : Option Sink

/-- The outcome of `ProcessWebhook`. -/
structure ProcessResult where
  err : Option String
  storage : Option Store
  calls : List Call

/-- `MessageHandler.ProcessWebhook`.  `dbErr` is the error of the INSERT
statement, `none` when it executes. -/
def MessageHandler.ProcessWebhook (_h : MessageHandler) (storage : Option Store)
    (dbErr : Option String) (now : Time) (msg : WebhookMessage) : ProcessResult :=
  match storage with
  | none => { err := some "storage is not configured", storage := none, calls := [] }
  | some s =>
    let msg1 := { msg with Status := StatusPending }
    match dbErr with
    | some e =>
      { err := some ("failed to save message to storage: " ++ e), storage := some s,
        calls := [Call.SaveMessage msg1] }
    | none =>
      { err := none, storage := some (SaveMessage s now msg1), calls := [Call.SaveMessage msg1] }

/-! ## server/server.go -/

/-- The parts of `http.Request` that `webhookHandler` reads.  `Body` is the
result of `io.ReadAll`: the bytes, or `none` on a read error. -/
structure Request where
  Path : String
  Header : List (String × List String)
  Body : Option Bytes

/-- The struct `server.Server` (configuration and route map). -/
structure Server where
  config : Config
  routeMap : StringMap

/-- The route map built by `NewServer`. -/
def buildRouteMap (routes : List RouteConfig) : StringMap :=
  routes.foldl (fun m route => m.set route.Path route.Queue) []

/-- `NewServer` (the fields used by the handlers; the routes it registers
through `setupRoutes` are `Server.setupRoutes` below). -/
def NewServer (cfg : Config) : Server :=
  { config := cfg, routeMap := buildRouteMap cfg.Routes }

/-- The header-extraction loop of `webhookHandler`: the first value of each
header that has one. -/
def extractHeaders (header : List (String × List String)) : StringMap :=
  header.foldl
    (fun m kv => match kv.2 with
      | [] => m
      | v :: _ => m.set kv.1 v)
    []

/-- What `webhookHandler` writes and does. -/
structure HandlerResult where
  StatusCode : Nat
  message_id : Option String
  storage : Option Store
  calls : List Call

/-- `Server.webhookHandler` with the `MessageHandler` as its handler.
`idDraw` is the result of `generateID` (`none` when the entropy read fails). -/
def Server.webhookHandler (srv : Server) (h : MessageHandler) (storage : Option Store)
    (dbErr : Option String) (idDraw : Option String) (now : Time) (r : Request) :
    HandlerResult :=
  match idDraw with
  | none => { StatusCode := 500, message_id := none, storage := storage, calls := [] }
  | some msgID =>
    match r.Body with
    | none => { StatusCode := 400, message_id := none, storage := storage, calls := [] }
    | some body =>
      let headers := extractHeaders r.Header
      match srv.routeMap.get? r.Path with
      | none => { StatusCode := 404, message_id := none, storage := storage, calls := [] }
      | some queue =>
        let msg : WebhookMessage :=
          { ID := msgID, Path := r.Path, Queue := queue, Body := body, Headers := headers,
            Timestamp := now, Retries := 0, Status := StatusPending, Error := "",
            CreatedAt := now, UpdatedAt := now }
        let res := h.ProcessWebhook storage dbErr now msg
        match res.err with
        | some _ =>
          { StatusCode := 500, message_id := none, storage := res.storage,
            calls := Call.ProcessWebhook msg :: res.calls }
        | none =>
          { StatusCode := 200, message_id := some msgID, storage := res.storage,
            calls := Call.ProcessWebhook msg :: res.calls }

/-- The registrations of `webhookHandler` made by `setupRoutes`: the path
template of each configured route, for the method POST. -/
def Server.setupRoutes (srv : Server) : List (String × String) :=
  srv.config.Routes.map (fun route => (route.Path, "POST"))

/-- The router in front of `webhookHandler`.  `matcher template path` is the
path matching of `mux.Router`.  A request whose method and path match a
registration of `setupRoutes` is handed to `webhookHandler`; any other request
is answered without it (by the health or status handler, or by the router with
404 or 405): `none`. -/
def Server.serve (srv : Server) (matcher : String → String → Bool) (h : MessageHandler)
    (storage : Option Store) (dbErr : Option String) (idDraw : Option String) (now : Time)
    (method : String) (r : Request) : Option HandlerResult :=
  if srv.setupRoutes.any (fun reg => matcher reg.1 r.Path && reg.2 == method) then
    some (srv.webhookHandler h storage dbErr idDraw now r)
  else none

/-- The segments of a path: the texts between its slashes. -/
def pathSegments : List Char → List (List Char)
  | [] => [[]]
  | c :: cs =>
    if c = '/' then [] :: pathSegments cs
    else
      match pathSegments cs with
      | [] => [[c]]
      | seg :: rest => (c :: seg) :: rest

/-- A template segment is a variable when it is a name between braces, without
a pattern of its own. -/
def isVariable (seg : List Char) : Bool :=
  seg.head? == some (Char.ofNat 123) && seg.getLast? == some (Char.ofNat 125) &&
    ((seg.drop 1).dropLast).all
      (fun c => c != Char.ofNat 123 && c != Char.ofNat 125 && c != ':')

/-- A variable matches every segment that is not empty; any other template
segment matches itself. -/
def segmentMatches (t p : List Char) : Bool :=
  if isVariable t then !p.isEmpty else t == p

/-- The path matching of `mux.Router` on a template whose segments are literal
texts and variables: the path has as many segments as the template, and each
matches. -/
def muxMatch (template path : String) : Bool :=
  let ts := pathSegments template.toList
  let ps := pathSegments path.toList
  ts.length == ps.length && (List.zipWith segmentMatches ts ps).all id

/-! ## The system as a transition system over the table -/

/-- Tables reachable from the empty table by Ingest steps (`webhookHandler`
with `ProcessWebhook`) and Scheduler steps (`processMessage`). -/
inductive Reachable : Store → Prop where
  | empty : Reachable []
  | ingest (s s1 : Store) (srv : Server) (h : MessageHandler) (dbErr idDraw : Option String)
      (now : Time) (r : Request) :
      Reachable s →
      (srv.webhookHandler h (some s) dbErr idDraw now r).storage = some s1 →
      Reachable s1
  | schedule (s : Store) (w : Worker) (now : Time) (msg : PendingMessage) :
      Reachable s → Reachable (w.processMessage now msg s).1

/-! ## Sample data used by the closed statements -/

/-- A freshly ingested message. -/
def sampleMsg (id : String) (created : Time) : WebhookMessage :=
  { ID := id, Path := "/hook/a", Queue := "q1", Body := [], Headers := [],
    Timestamp := created, Retries := 0, Status := StatusPending, Error := "",
    CreatedAt := created, UpdatedAt := created }

/-- The row `SaveMessage` writes for a freshly ingested message. -/
def sampleRow (id : String) (created : Time) : Row :=
  { toWebhookMessage := sampleMsg id created, next_retry_at := none }

/-- The row of `sampleMsg id created` after scheduler updates. -/
def sampleRowAt (id : String) (created : Time) (retries : Int) (status error : String)
    (updated : Time) (next : Option Time) : Row :=
  { toWebhookMessage :=
      { ID := id, Path := "/hook/a", Queue := "q1", Body := [], Headers := [],
        Timestamp := created, Retries := retries, Status := status, Error := error,
        CreatedAt := created, UpdatedAt := updated },
    next_retry_at := next }

/-- A worker configuration with the given retry ceiling and batch size 50. -/
def sampleConfig (maxRetries : Int) (remote : Option RemoteURLConfig) : Config :=
  { Server := { Host := "0.0.0.0", Port := 8080 },
    Routes := [{ Path := "/hook/a", Queue := "q1" }],
    Kafka := none, Redis := none, SQLite := some { DatabasePath := "messages.db" },
    RemoteURL := remote,
    Worker := { RetryInterval := 300000000000, BatchSize := 50, MaxRetries := maxRetries },
    Nginx := none }

/-- A configuration whose one route is the template `/hook/` followed by a
variable. -/
def templateConfig : Config :=
  { sampleConfig 0 none with Routes := [{ Path := "/hook/\x7bname\x7d", Queue := "q1" }] }

/-- The zone of Asia/Tokyo: nine hours east of UTC at every instant. -/
def tokyo : Zone := fun _ => 32400

/-- The zone of America/New_York around the end of daylight saving time on
2 November 2025: four hours west of UTC before 06:00:00 UTC of that day, five
hours west from then on. -/
def newYork : Zone := fun t => if t < 1762063200 then -14400 else -18000

/-- A sink whose every send fails with a 503 diagnostic. -/
def failingSink : Sink := fun _ => some "HTTP request failed with status 503: "

/-- A sink whose every send succeeds. -/
def acceptingSink : Sink := fun _ => none

/-- A worker that delivers to Kafka (no remote URL configured). -/
def sampleWorker (maxRetries : Int) (producer : Option Sink) : Worker :=
  { kafkaProducer := producer, httpClient := none, config := sampleConfig maxRetries none }

/-- A handler and a server for the sample configuration. -/
def sampleHandler : MessageHandler :=
  { config := sampleConfig 0 none, kafkaProducer := none, httpClient := none }

/-- A POST on the configured path `/hook/a` with an empty body. -/
def sampleRequest : Request :=
  { Path := "/hook/a", Header := [], Body := some [] }

/-- An id as `generateID` produces it: 16 bytes in hexadecimal. -/
def sampleID : String := "000102030405060708090a0b0c0d0e0f"

/-- Another generated id. -/
def otherID : String := "f0e0d0c0b0a090807060504030201000"

/-! ## Eligibility in the words of the specification -/

/-- A row is due: its status is pending or retrying and its `next_retry_at`
is null or, as the database compares stored times, not after `now`. -/
def Due (zone : Zone) (now : Time) (r : Row) : Prop :=
  (r.Status = "pending" ∨ r.Status = "retrying") ∧
    ∀ t ∈ r.next_retry_at, storedLe zone t now = true

instance (zone : Zone) (now : Time) (r : Row) : Decidable (Due zone now r) := by
  unfold Due; infer_instance

/-! ## Scheduler attempts on one message -/

/-- The row stored under an id. -/
def lookup (s : Store) (id : String) : Option Row :=
  s.find? (fun r => r.ID = id)

/-- One scheduler attempt on the message stored under `id`: when its row
passes the WHERE clause of `GetPendingMessages` at `now`, the scanned row is
handed to `processMessage`; otherwise the message is not claimed and nothing
happens to it. -/
def Worker.attempt (w : Worker) (zone : Zone) (now : Time) (id : String) (s : Store) :
    Store × List Call :=
  match lookup s id with
  | some r => if eligible zone now r then w.processMessage now (scanRow r) s else (s, [])
  | none => (s, [])

/-- Successive attempts on one message at the given instants. -/
def Worker.attempts (w : Worker) (zone : Zone) (id : String) :
    List Time → Store → Store × List Call
  | [], s => (s, [])
  | t :: ts, s =>
    let first := w.attempt zone t id s
    let others := Worker.attempts w zone id ts first.1
    (others.1, first.2 ++ others.2)

/-- The row stored under `id` after `k` failed deliveries: it carries `k`
retries and a null `next_retry_at`; with no failure yet it is pending,
otherwise it is retrying. -/
def AfterFailures (s : Store) (id : String) (k : Int) : Prop :=
  ∃ r, lookup s id = some r ∧ r.Retries = k ∧ 0 ≤ k ∧ r.next_retry_at = none ∧
    ((k = 0 ∧ r.Status = "pending") ∨ (0 < k ∧ r.Status = "retrying"))

/-- The scheduler invariant on a table: retries are never negative, every
`next_retry_at` is null, and a pending row has no retries. -/
def LifecycleInvariant (s : Store) : Prop :=
  ∀ r ∈ s, 0 ≤ r.Retries ∧ r.next_retry_at = none ∧ (r.Status = "pending" → r.Retries = 0)

/-! ## The frame of UpdateMessageStatus -/

/-- `UpdateMessageStatus` with its error result.  `dbErr` is the error of
`db.Exec`: `none` when the statement executes, whatever the number of rows it
matched. -/
def UpdateMessageStatusExec (dbErr : Option String) (s : Store) (now : Time) (id : String)
    (status : MessageStatus) (error : String) : Option String × Store :=
  match dbErr with
  | some e => (some e, s)
  | none => (none, UpdateMessageStatus s now id status error)

/-- The columns that `UpdateMessageStatus` does not assign agree on two rows. -/
def SameFrame (r r1 : Row) : Prop :=
  r1.ID = r.ID ∧ r1.Path = r.Path ∧ r1.Queue = r.Queue ∧ r1.Body = r.Body ∧
    r1.Headers = r.Headers ∧ r1.Timestamp = r.Timestamp ∧ r1.CreatedAt = r.CreatedAt

/-! ## config/config.go (validation and defaults) -/

/-- The loop over the routes in `Validate`, from index `i` on: the error of the
first route that lacks a path or a queue. -/
def validateRoutes : Nat → List RouteConfig → Option String
  | _, [] => none
  | i, route :: rest =>
    if route.Path = "" then some ("route[" ++ toString i ++ "].path is required")
    else if route.Queue = "" then some ("route[" ++ toString i ++ "].queue is required")
    else validateRoutes (i + 1) rest

/-- `Config.Validate`: `none` is a nil error. -/
def Config.Validate (c : Config) : Option String :=
  if c.Server.Host = "" then some "server.host is required"
  else if c.Server.Port = 0 then some "server.port is required"
  else if c.Routes.length = 0 then some "at least one route must be configured"
  else
    match validateRoutes 0 c.Routes with
    | some e => some e
    | none =>
      if c.RemoteURL ≠ none ∧ c.SQLite = none then
        some "sqlite configuration is required when remote_url is specified"
      else none

/-- Nanoseconds in `time.Second`. -/
abbrev second : Int := 1000000000

/-- The Kafka block of `setDefaults`. -/
def KafkaConfig.setDefaults (k : KafkaConfig) : KafkaConfig :=
  { k with
    RetryMax := if k.RetryMax = 0 then 3 else k.RetryMax,
    RetryBackoff := if k.RetryBackoff = 0 then second * 2 else k.RetryBackoff,
    BatchSize := if k.BatchSize = 0 then 100 else k.BatchSize,
    Timeout := if k.Timeout = 0 then second * 30 else k.Timeout }

/-- The remote URL block of `setDefaults`. -/
def RemoteURLConfig.setDefaults (r : RemoteURLConfig) : RemoteURLConfig :=
  { r with
    Timeout := if r.Timeout = 0 then second * 30 else r.Timeout,
    Retries := if r.Retries = 0 then 3 else r.Retries }

/-- The worker block of `setDefaults`. -/
def WorkerConfig.setDefaults (w : WorkerConfig) : WorkerConfig :=
  { w with
    RetryInterval := if w.RetryInterval = 0 then 60 * second * 5 else w.RetryInterval,
    BatchSize := if w.BatchSize = 0 then 50 else w.BatchSize }

/-- `Config.setDefaults`. -/
def Config.setDefaults (c : Config) : Config :=
  { c with
    Kafka := c.Kafka.map KafkaConfig.setDefaults,
    RemoteURL := c.RemoteURL.map RemoteURLConfig.setDefaults,
    Worker := c.Worker.setDefaults }

/-- A route has a path and a queue. -/
def RouteConfig.Complete (route : RouteConfig) : Prop :=
  route.Path ≠ "" ∧ route.Queue ≠ ""

/-- The configuration of the test case "valid config", with the given routes
and blocks. -/
def testConfig (host : String) (port : Int) (routes : List RouteConfig)
    (sqlite : Option SQLiteConfig) (remote : Option RemoteURLConfig) : Config :=
  { Server := { Host := host, Port := port }, Routes := routes, Kafka := none, Redis := none,
    SQLite := sqlite, RemoteURL := remote,
    Worker := { RetryInterval := 0, BatchSize := 0, MaxRetries := 0 }, Nginx := none }

/-! ## httpclient/client.go -/

/-- The request handed to the HTTP transport.  `Header` is the `http.Header`
of the request; every header is written with `Set`, so a name has one value. -/
structure HTTPRequest where
  Method : String
  URL : String
  Body : Bytes
  Header : StringMap
  deriving DecidableEq, Repr

/-- The response of the transport: the status code and the body that
`io.ReadAll` returned, as `string(body)`. -/
structure HTTPResponse where
  StatusCode : Int
  Body : String
  deriving DecidableEq, Repr

/-- Library functions the client calls: the canonical form of a header name,
which `Header.Set` and `Header.Get` apply to their key, and
`Time.Format(time.RFC3339)`. -/
structure HTTPLibrary where
  canonicalKey : String → String
  formatRFC3339 : Time → String

/-- The struct `httpclient.Client`. -/
structure Client where
  config : RemoteURLConfig

/-- `req.Header.Set(key, value)`. -/
def HTTPLibrary.headerSet (lib : HTTPLibrary) (h : StringMap) (key value : String) : StringMap :=
  h.set (lib.canonicalKey key) value

/-- `req.Header.Get(key)`: the value, or the empty string when there is none. -/
def HTTPLibrary.headerGet (lib : HTTPLibrary) (h : StringMap) (key : String) : String :=
  match h.get? (lib.canonicalKey key) with
  | some v => v
  | none => ""

/-- The request `Client.SendMessage` builds before it calls the transport. -/
def Client.buildRequest (c : Client) (lib : HTTPLibrary) (msg : WebhookMessage) : HTTPRequest :=
  let h0 := msg.Headers.foldl (fun h kv => lib.headerSet h kv.1 kv.2) []
  let h1 := lib.headerSet h0 "X-Webhook-ID" msg.ID
  let h2 := lib.headerSet h1 "X-Webhook-Path" msg.Path
  let h3 := lib.headerSet h2 "X-Webhook-Queue" msg.Queue
  let h4 := lib.headerSet h3 "X-Webhook-Timestamp" (lib.formatRFC3339 msg.Timestamp)
  let h5 :=
    if lib.headerGet h4 "Content-Type" = "" then
      lib.headerSet h4 "Content-Type" "application/json"
    else h4
  { Method := "POST", URL := c.config.URL, Body := msg.Body, Header := h5 }

/-- `Client.SendMessage`.  `newRequestErr` is the error of `http.NewRequest`
(`none` when the request is created) and `transport` is `client.Do`: an error
text or the response. -/
def Client.SendMessage (c : Client) (lib : HTTPLibrary) (newRequestErr : Option String)
    (transport : HTTPRequest → Except String HTTPResponse) (msg : WebhookMessage) :
    Option String :=
  match newRequestErr with
  | some e => some ("failed to create HTTP request: " ++ e)
  | none =>
    match transport (c.buildRequest lib msg) with
    | Except.error e => some ("failed to send HTTP request: " ++ e)
    | Except.ok resp =>
      if resp.StatusCode < 200 ∨ resp.StatusCode ≥ 300 then
        some ("HTTP request failed with status " ++ toString resp.StatusCode ++ ": " ++ resp.Body)
      else none

/-- A library for the closed statements: it leaves header names as they are
and prints an instant as its number of seconds. -/
def sampleLibrary : HTTPLibrary :=
  { canonicalKey := fun k => k, formatRFC3339 := fun t => toString t }

/-- A client for the remote URL of the closed statements. -/
def sampleClient : Client :=
  { config := { URL := "http://remote/hook", Timeout := 30000000000, Retries := 3 } }

/-! ## kafka/producer.go -/

/-- The fields of `sarama.ProducerMessage` that `SendMessage` sets; a record
header is a pair of key and value. -/
structure ProducerMessage where
  Topic : String
  Key : String
  Value : Bytes
  Headers : List (String × String)
  Timestamp : Time
  deriving DecidableEq, Repr

/-- The record `Producer.SendMessage` builds: the loop appends one record
header per original header, then the two metadata headers are appended. -/
def buildProducerMessage (msg : WebhookMessage) : ProducerMessage :=
  let original := msg.Headers.foldl (fun hs kv => hs ++ [(kv.1, kv.2)]) []
  { Topic := msg.Queue, Key := msg.ID, Value := msg.Body,
    Headers := original ++ [("X-Webhook-ID", msg.ID), ("X-Webhook-Path", msg.Path)],
    Timestamp := msg.Timestamp }

/-- `Producer.SendMessage`; `syncSend` is the `SendMessage` of the sarama
producer (`none` when the record is acknowledged). -/
def producerSendMessage (syncSend : ProducerMessage → Option String) (msg : WebhookMessage) :
    Option String :=
  match syncSend (buildProducerMessage msg) with
  | some e => some ("failed to send message to Kafka: " ++ e)
  | none => none

/-! ## handler/handler.go (the health report) -/

/-- One component of the health report: its status, the error text when
unhealthy, and the message statistics of a healthy storage. -/
structure ComponentHealth where
  status : String
  error : Option String
  stats : Option CountMap
  deriving DecidableEq, Repr

/-- Go `map[string]interface{}` holding the component reports. -/
abbrev HealthMap := List (String × ComponentHealth)

/-- Map assignment `m[k] = v`. -/
def HealthMap.set (m : HealthMap) (k : String) (v : ComponentHealth) : HealthMap :=
  (k, v) :: m.filter (fun e => e.1 ≠ k)

/-- Map lookup `v, ok := m[k]`. -/
def HealthMap.get? (m : HealthMap) (k : String) : Option ComponentHealth :=
  (m.find? (fun e => e.1 = k)).map Prod.snd

/-- The report of a client that is present, from the error of its probe. -/
def probeHealth (probe : Option String) (stats : Option CountMap) : ComponentHealth :=
  match probe with
  | some e => { status := "unhealthy", error := some e, stats := none }
  | none => { status := "healthy", error := none, stats := stats }

/-- The report of a component that is absent. -/
def notConfigured : ComponentHealth :=
  { status := "not_configured", error := none, stats := none }

/-- `MessageHandler.HealthCheck`.  `kafkaProbe` and `httpProbe` are the errors
of the `HealthCheck` of the two clients, `statsErr` the error of
`GetMessageStats` (`none` when the call succeeds). -/
def MessageHandler.HealthCheck (h : MessageHandler) (storage : Option Store)
    (kafkaProbe httpProbe statsErr : Option String) : HealthMap :=
  let health : HealthMap := []
  let health :=
    match h.kafkaProducer with
    | some _ => health.set "kafka" (probeHealth kafkaProbe none)
    | none => health.set "kafka" notConfigured
  let health :=
    match h.httpClient with
    | some _ => health.set "remote_url" (probeHealth httpProbe none)
    | none => health.set "remote_url" notConfigured
  match storage with
  | some s => health.set "storage" (probeHealth statsErr (some (GetMessageStats s)))
  | none => health.set "storage" notConfigured

/-! ## internal/errors/errors.go -/

/-- A Go `error` value: nil, a `*ApplicationError` with its fields and cause,
or an error of any other type with its text and the error its `Unwrap` returns
(nil when it wraps nothing). -/
inductive GoError where
  | nil
  | application (type message details : String) (cause : GoError)
  | other (text : String) (cause : GoError)
  deriving DecidableEq, Repr

/-- The struct `errors.ApplicationError`. -/
structure ApplicationError where
  Type_ : String
  Message : String
  Details : String
  Cause : GoError
  deriving DecidableEq, Repr

/-- `As(err, &target)` for a target of type `*ApplicationError`: `some a` is
the result true with the target set to `a`, `none` is the result false. -/
def As : GoError → Option ApplicationError
  | GoError.nil => none
  | GoError.application type message details cause =>
    some { Type_ := type, Message := message, Details := details, Cause := cause }
  | GoError.other _ _ => none

/-- `IsType`. -/
def IsType (err : GoError) (errorType : String) : Bool :=
  match As err with
  | some appErr => appErr.Type_ == errorType
  | none => false

/-- What the documentation of `As` names, the library `errors.As` for a target
of type `*ApplicationError`: the first `*ApplicationError` in the Unwrap chain
of the error. -/
def errorsAs : GoError → Option ApplicationError
  | GoError.nil => none
  | GoError.application type message details cause =>
    some { Type_ := type, Message := message, Details := details, Cause := cause }
  | GoError.other _ cause => errorsAs cause

/-- The error `fmt.Errorf("failed to save: %w", NewStorageError("disk full", nil))`. -/
def wrappedStorageError : GoError :=
  GoError.other "failed to save: [STORAGE] disk full"
    (GoError.application "STORAGE" "disk full" "" GoError.nil)

/-! # Theorems -/

/-! ## Basic facts about the store operations -/

theorem eligible_iff_due (zone : Zone) (now : Time) (r : Row) :
    eligible zone now r = true ↔ Due zone now r := by
  unfold eligible Due
  cases h : r.next_retry_at <;> simp

theorem orderByCreatedAt_perm (zone : Zone) (rows : List Row) :
    (orderByCreatedAt zone rows).Perm rows :=
  List.perm_insertionSort _ rows

theorem sqlLimit_of_nonneg {α : Type} (n : Int) (rows : List α) (h : 0 ≤ n) :
    sqlLimit n rows = rows.take n.toNat := by
  unfold sqlLimit
  rw [if_neg (not_lt.mpr h)]

theorem sqlLimit_sublist {α : Type} (n : Int) (rows : List α) :
    (sqlLimit n rows).Sublist rows := by
  unfold sqlLimit
  split
  · exact List.Sublist.refl rows
  · exact List.take_sublist _ rows

theorem mem_pendingRows {zone : Zone} {s : Store} {now : Time} {limit : Int} {r : Row}
    (h : r ∈ pendingRows zone s now limit) : r ∈ s ∧ eligible zone now r = true := by
  have h1 : r ∈ orderByCreatedAt zone (s.filter (eligible zone now)) :=
    (sqlLimit_sublist limit _).subset h
  have h2 : r ∈ s.filter (eligible zone now) := (orderByCreatedAt_perm zone _).mem_iff.mp h1
  exact List.mem_filter.mp h2

/-! ## C2: GetPendingMessages -/

theorem filter_due_eq (zone : Zone) (s : Store) (now : Time) :
    s.filter (fun r => decide (Due zone now r)) = s.filter (eligible zone now) := by
  apply List.filter_congr
  intro r _
  by_cases hd : Due zone now r
  · simp [hd, (eligible_iff_due zone now r).mpr hd]
  · have : eligible zone now r = false := by
      cases he : eligible zone now r
      · rfl
      · exact absurd ((eligible_iff_due zone now r).mp he) hd
    simp [hd, this]

/-- What GetPendingMessages returns for a limit that is not negative: the scan
of a list of rows that, followed by the due rows left out, is a rearrangement
of exactly the due rows of the table; the number returned is the minimum of the
limit and the number of due rows, and every returned row is a due row of the
table. -/
theorem GetPendingMessages_due_rows (zone : Zone) (s : Store) (now : Time) (limit : Int)
    (hlimit : 0 ≤ limit) :
    ∃ rows rest : List Row,
      GetPendingMessages zone s now limit = rows.map scanRow ∧
      (rows ++ rest).Perm (s.filter (fun r => decide (Due zone now r))) ∧
      rows.length = min limit.toNat (s.filter (fun r => decide (Due zone now r))).length ∧
      (rows.length : Int) ≤ limit ∧
      (∀ r ∈ rows, r ∈ s ∧ Due zone now r) ∧
      (∀ r ∈ s, Due zone now r → r ∉ rows → r ∈ rest) := by
  have hfilter := filter_due_eq zone s now
  set sorted := orderByCreatedAt zone (s.filter (eligible zone now)) with hsorted
  refine ⟨sorted.take limit.toNat, sorted.drop limit.toNat, ?_, ?_, ?_, ?_, ?_, ?_⟩
  · simp [GetPendingMessages, pendingRows, sqlLimit_of_nonneg _ _ hlimit, hsorted]
  · rw [List.take_append_drop, hfilter]
    exact orderByCreatedAt_perm zone _
  · rw [List.length_take, hfilter,
      ← (orderByCreatedAt_perm zone (s.filter (eligible zone now))).length_eq]
  · rw [List.length_take]
    have h1 : min limit.toNat sorted.length ≤ limit.toNat := Nat.min_le_left _ _
    have h2 : (limit.toNat : Int) = limit := Int.toNat_of_nonneg hlimit
    have h3 : ((min limit.toNat sorted.length : Nat) : Int) ≤ (limit.toNat : Int) :=
      Int.ofNat_le.mpr h1
    rw [h2] at h3
    exact h3
  · intro r hr
    have hmem : r ∈ sorted := List.mem_of_mem_take hr
    have h2 : r ∈ s.filter (eligible zone now) := (orderByCreatedAt_perm zone _).mem_iff.mp hmem
    have h3 := List.mem_filter.mp h2
    exact ⟨h3.1, (eligible_iff_due zone now r).mp h3.2⟩
  · intro r hr hdue hnot
    have h2 : r ∈ s.filter (eligible zone now) :=
      List.mem_filter.mpr ⟨hr, (eligible_iff_due zone now r).mpr hdue⟩
    have hmem : r ∈ sorted := (orderByCreatedAt_perm zone _).mem_iff.mpr h2
    rw [← List.take_append_drop limit.toNat sorted] at hmem
    rcases List.mem_append.mp hmem with h | h
    · exact absurd h hnot
    · exact h

/-- C2, where the code departs from the claim.  In the zone of New York a
pending row a is created at 01:30 local time, half an hour before daylight
saving time ends, and a pending row b forty minutes later, at 01:10 local time
of the repeated hour.  Ten minutes after that both rows are due, and
GetPendingMessages with limit 1 returns b, the row created later: the stored
text of its created_at is the smaller one.  With no limit the rows come back
with b before a. -/
theorem GetPendingMessages_later_row_first :
    (sampleRow "a" 1762061400).CreatedAt < (sampleRow "b" 1762063800).CreatedAt ∧
    Due newYork 1762064400 (sampleRow "a" 1762061400) ∧
    Due newYork 1762064400 (sampleRow "b" 1762063800) ∧
    storedKey newYork 1762061400 = (1762047000, 1, 240) ∧
    storedKey newYork 1762063800 = (1762045800, 1, 300) ∧
    GetPendingMessages newYork [sampleRow "a" 1762061400, sampleRow "b" 1762063800]
        1762064400 1 =
      [scanRow (sampleRow "b" 1762063800)] ∧
    GetPendingMessages newYork [sampleRow "a" 1762061400, sampleRow "b" 1762063800]
        1762064400 (-1) =
      [scanRow (sampleRow "b" 1762063800), scanRow (sampleRow "a" 1762061400)] := by
  decide

/-! ## The primary key -/

theorem map_ID_UpdateMessageStatus (s : Store) (now : Time) (id : String)
    (status : MessageStatus) (error : String) :
    (UpdateMessageStatus s now id status error).map (fun r => r.ID) = s.map (fun r => r.ID) := by
  unfold UpdateMessageStatus
  rw [List.map_map]
  apply List.map_congr_left
  intro r _
  by_cases h : r.ID = id <;> simp [h, updateRow]

theorem uniqueIds_eq {s : Store} (hu : UniqueIds s) {a b : Row} (ha : a ∈ s) (hb : b ∈ s)
    (h : a.ID = b.ID) : a = b :=
  List.inj_on_of_nodup_map hu ha hb h

theorem uniqueIds_sublist {s t : Store} (h : t.Sublist s) (hu : UniqueIds s) : UniqueIds t :=
  List.Nodup.sublist (h.map _) hu

theorem uniqueIds_UpdateMessageStatus {s : Store} (hu : UniqueIds s) (now : Time) (id : String)
    (status : MessageStatus) (error : String) :
    UniqueIds (UpdateMessageStatus s now id status error) := by
  unfold UniqueIds
  rw [map_ID_UpdateMessageStatus]
  exact hu

theorem uniqueIds_DeleteMessage {s : Store} (hu : UniqueIds s) (id : String) :
    UniqueIds (DeleteMessage s id) :=
  uniqueIds_sublist (List.filter_sublist s) hu

theorem uniqueIds_Cleanup {s : Store} (hu : UniqueIds s) (zone : Zone) (now : Time)
    (retentionDays : Int) : UniqueIds (Cleanup zone s now retentionDays) := by
  unfold Cleanup
  cases datetimeMinusDays now retentionDays with
  | none => exact hu
  | some cutoff => exact uniqueIds_sublist (List.filter_sublist s) hu

theorem uniqueIds_SaveMessage {s : Store} (hu : UniqueIds s) (now : Time) (msg : WebhookMessage) :
    UniqueIds (SaveMessage s now msg) := by
  have hsub : UniqueIds (s.filter (fun r => r.ID ≠ msg.ID)) :=
    uniqueIds_sublist (List.filter_sublist s) hu
  unfold UniqueIds at hsub ⊢
  simp only [SaveMessage, List.map_append, List.map_cons, List.map_nil]
  rw [List.nodup_append]
  refine ⟨hsub, List.nodup_singleton _, ?_⟩
  intro a ha hb
  rw [List.mem_singleton] at hb
  obtain ⟨r, hr, hra⟩ := List.mem_map.mp ha
  have hne := (List.mem_filter.mp hr).2
  simp only [ne_eq, decide_not, Bool.not_eq_true', decide_eq_false_iff_not] at hne
  exact hne (hra.trans hb)

theorem storeReachable_uniqueIds {s : Store} (h : StoreReachable s) : UniqueIds s := by
  induction h with
  | empty => exact List.nodup_nil
  | save s now msg _ ih => exact uniqueIds_SaveMessage ih now msg
  | update s now id status error _ ih => exact uniqueIds_UpdateMessageStatus ih now id status error
  | delete s id _ ih => exact uniqueIds_DeleteMessage ih id
  | cleanup zone s now retentionDays _ ih => exact uniqueIds_Cleanup ih zone now retentionDays

theorem mem_UpdateMessageStatus_of_mem {s : Store} {r : Row} (hr : r ∈ s) (now : Time)
    (id : String) (status : MessageStatus) (error : String) :
    (if r.ID = id then updateRow now status error r else r) ∈
      UpdateMessageStatus s now id status error :=
  List.mem_map.mpr ⟨r, hr, rfl⟩

theorem mem_UpdateMessageStatus {s : Store} {now : Time} {id : String} {status : MessageStatus}
    {error : String} {r1 : Row} (h : r1 ∈ UpdateMessageStatus s now id status error) :
    ∃ r ∈ s, r1 = if r.ID = id then updateRow now status error r else r := by
  obtain ⟨r, hr, hrr⟩ := List.mem_map.mp h
  exact ⟨r, hr, hrr.symm⟩

/-! ## C3: the retrying transition -/

theorem updateRow_next_retry_at (now : Time) (status : MessageStatus) (error : String)
    (r : Row) : (updateRow now status error r).next_retry_at = none := by
  simp [updateRow, datetimeNumberModifier]

/-- C3, where the code departs from the claim.  A freshly ingested row (no
retries) is marked retrying at time 100 after a failed send.  The row keeps its
id and is alone under it, with status retrying, the error of the send, one
retry and updated_at 100, as the claim says; but its next_retry_at is null and
not 100 + 2 * 1 minutes = 220: the modifier handed to the SQL function datetime
is the number 2, not the text +2 minutes. -/
theorem UpdateMessageStatus_retrying_stores_null :
    UpdateMessageStatus [sampleRow "a" 10] 100 "a" "retrying"
        "HTTP request failed with status 503: " =
      [sampleRowAt "a" 10 1 "retrying" "HTTP request failed with status 503: " 100 none] ∧
    retryModifier (sampleRow "a" 10).Retries = 2 ∧
    (sampleRowAt "a" 10 1 "retrying" "HTTP request failed with status 503: " 100
        none).next_retry_at ≠ some (100 + 2 * ((sampleRow "a" 10).Retries + 1) * minute) := by
  decide

/-! ## C7: SaveMessage is an upsert -/

theorem filter_ne_filter_eq_nil (s : Store) (id : String) :
    (s.filter (fun r => r.ID ≠ id)).filter (fun r => r.ID = id) = [] := by
  rw [List.filter_filter, List.filter_eq_nil_iff]
  intro r _
  simp

theorem filter_ne_filter_ne (s : Store) (id : String) :
    (s.filter (fun r => r.ID ≠ id)).filter (fun r => r.ID ≠ id) =
      s.filter (fun r => r.ID ≠ id) := by
  rw [List.filter_filter]
  apply List.filter_congr
  intro r _
  simp

/-- C7. After SaveMessage(m) the table holds exactly one row with id m.ID; its
message columns (id, path, queue, body, headers, timestamp, retries, status,
error, created_at, updated_at) are those of m, whatever row was stored under
that id before, and its next_retry_at is null whenever m.status is not
retrying.  The rows with other ids are unchanged, the primary key is
preserved, and every table reachable through the store operations has at most
one row per id. -/
theorem SaveMessage_upsert (s : Store) (now : Time) (m : WebhookMessage) :
    (∃ next : Option Time,
      (SaveMessage s now m).filter (fun r => r.ID = m.ID) =
        [{ toWebhookMessage := m, next_retry_at := next }] ∧
      (m.Status ≠ "retrying" → next = none)) ∧
    (SaveMessage s now m).filter (fun r => r.ID ≠ m.ID) = s.filter (fun r => r.ID ≠ m.ID) ∧
    (UniqueIds s → UniqueIds (SaveMessage s now m)) ∧
    (∀ t : Store, StoreReachable t → UniqueIds t) := by
  refine ⟨⟨if m.Status = StatusRetrying then some (now + retryDelay m.Retries) else none,
    ?_, ?_⟩, ?_, fun hu => uniqueIds_SaveMessage hu now m, fun t ht => storeReachable_uniqueIds ht⟩
  · simp only [SaveMessage, List.filter_append, filter_ne_filter_eq_nil]
    simp
  · intro hne
    rw [if_neg hne]
  · simp only [SaveMessage, List.filter_append, filter_ne_filter_ne]
    simp

/-- C7, at a concrete table: saving a pending message over a retrying row with
the same id replaces that row and leaves the other row alone. -/
theorem SaveMessage_upsert_witness :
    SaveMessage
        [{ toWebhookMessage := { sampleMsg "a" 10 with Retries := 3, Status := "retrying" },
           next_retry_at := none }, sampleRow "b" 20] 1000 (sampleMsg "a" 30) =
      [sampleRow "b" 20, sampleRow "a" 30] ∧
    (sampleMsg "a" 30).Status ≠ "retrying" ∧
    UniqueIds (SaveMessage [sampleRow "a" 10] 1000 (sampleMsg "a" 30)) ∧
    UniqueIds (SaveMessage [] 1000 (sampleMsg "a" 30)) :=
  ⟨by decide, by decide,
    (SaveMessage_upsert [sampleRow "a" 10] 1000 (sampleMsg "a" 30)).2.2.1 (by decide),
    (SaveMessage_upsert [] 0 (sampleMsg "a" 0)).2.2.2 _
      (StoreReachable.save [] 1000 (sampleMsg "a" 30) StoreReachable.empty)⟩

/-! ## C8: save, claim, mark retrying, claim again -/

theorem sqlLimit_of_covers {α : Type} (n : Int) (rows : List α)
    (h : n < 0 ∨ (rows.length : Int) ≤ n) : sqlLimit n rows = rows := by
  unfold sqlLimit
  split
  · rfl
  · rename_i hn
    rcases h with h | h
    · exact absurd h hn
    · apply List.take_of_length_le
      omega

theorem mem_GetPendingMessages_of_covers {zone : Zone} {s : Store} {now : Time} {limit : Int}
    {r : Row} (hr : r ∈ s) (hdue : Due zone now r)
    (hlimit : limit < 0 ∨
      ((s.filter (fun r => decide (Due zone now r))).length : Int) ≤ limit) :
    scanRow r ∈ GetPendingMessages zone s now limit := by
  rw [filter_due_eq] at hlimit
  have hlen : (orderByCreatedAt zone (s.filter (eligible zone now))).length =
      (s.filter (eligible zone now)).length := (orderByCreatedAt_perm zone _).length_eq
  unfold GetPendingMessages pendingRows
  rw [sqlLimit_of_covers _ _ (by rw [hlen]; exact hlimit)]
  apply List.mem_map_of_mem
  apply (orderByCreatedAt_perm zone _).mem_iff.mpr
  exact List.mem_filter.mpr ⟨hr, (eligible_iff_due zone now r).mpr hdue⟩

theorem mem_SaveMessage_self (s : Store) (now : Time) (m : WebhookMessage) :
    ({ toWebhookMessage := m,
       next_retry_at :=
         if m.Status = StatusRetrying then some (now + retryDelay m.Retries) else none } : Row)
      ∈ SaveMessage s now m := by
  simp [SaveMessage]

/-- C8 (as stated, refuted). A pending message saved into a table that already
holds an older due row is not returned by GetPendingMessages(1). -/
theorem GetPendingMessages_limit_hides_saved :
    (sampleMsg "b" 20).Status = "pending" ∧
    GetPendingMessages utc (SaveMessage [sampleRow "a" 10] 20 (sampleMsg "b" 20)) 100 1 =
      [scanRow (sampleRow "a" 10)] ∧
    ¬ ∃ p ∈ GetPendingMessages utc (SaveMessage [sampleRow "a" 10] 20 (sampleMsg "b" 20)) 100 1,
        p.ID = (sampleMsg "b" 20).ID := by
  decide

/-- C8 (amended). For a message m saved with status pending: a
GetPendingMessages call whose limit is negative or at least the number of due
rows returns m; and after UpdateMessageStatus(m.ID, retrying, e) at time t1, a
GetPendingMessages call at a time t2, whose limit is negative or at least the
number of due rows, returns the same message (same id, path, queue, body,
headers, timestamp and created_at) with retries m.retries + 1.  The time t2 is
any time, so also one at or after t1 + 2 * (m.retries + 1) minutes, when the
backoff has elapsed. -/
theorem save_claim_retry_claim (zone : Zone) (s : Store) (m : WebhookMessage)
    (t0 now t1 t2 : Time) (limit1 limit2 : Int) (e : String)
    (hpending : m.Status = "pending")
    (hlimit1 : limit1 < 0 ∨
      (((SaveMessage s t0 m).filter (fun r => decide (Due zone now r))).length : Int) ≤ limit1)
    (hlimit2 : limit2 < 0 ∨
      (((UpdateMessageStatus (SaveMessage s t0 m) t1 m.ID "retrying" e).filter
        (fun r => decide (Due zone t2 r))).length : Int) ≤ limit2) :
    (∃ p ∈ GetPendingMessages zone (SaveMessage s t0 m) now limit1, p.toWebhookMessage = m) ∧
    (∃ p ∈ GetPendingMessages zone
        (UpdateMessageStatus (SaveMessage s t0 m) t1 m.ID "retrying" e) t2 limit2,
      p.ID = m.ID ∧ p.Path = m.Path ∧ p.Queue = m.Queue ∧ p.Body = m.Body ∧
      p.Headers = m.Headers ∧ p.Timestamp = m.Timestamp ∧ p.CreatedAt = m.CreatedAt ∧
      p.Retries = m.Retries + 1) := by
  have hne : m.Status ≠ StatusRetrying := by
    rw [hpending]; decide
  have hself := mem_SaveMessage_self s t0 m
  rw [if_neg hne] at hself
  constructor
  · refine ⟨_, mem_GetPendingMessages_of_covers hself ?_ hlimit1, rfl⟩
    exact ⟨Or.inl hpending, by simp⟩
  · have hupd := mem_UpdateMessageStatus_of_mem hself t1 m.ID "retrying" e
    rw [if_pos rfl] at hupd
    refine ⟨_, mem_GetPendingMessages_of_covers hupd ?_ hlimit2,
      rfl, rfl, rfl, rfl, rfl, rfl, rfl, rfl⟩
    refine ⟨Or.inr rfl, ?_⟩
    intro t ht
    rw [updateRow_next_retry_at] at ht
    simp at ht

/-- C8 (amended), at a concrete table: the saved message is claimed, marked
retrying at time 100, and claimed again two minutes later with one retry and a
null next_retry_at, which scans as the zero time. -/
theorem save_claim_retry_claim_witness :
    (sampleMsg "b" 20).Status = "pending" ∧
    GetPendingMessages utc
        (UpdateMessageStatus (SaveMessage [sampleRow "a" 10] 20 (sampleMsg "b" 20)) 100 "b"
          "retrying" "boom") 220 50 =
      [scanRow (sampleRow "a" 10),
       { toWebhookMessage :=
           { sampleMsg "b" 20 with Retries := 1, Status := "retrying", Error := "boom",
                                   UpdatedAt := 100 },
         NextRetryAt := zeroTime }] ∧
    ((∃ p ∈ GetPendingMessages utc (SaveMessage [sampleRow "a" 10] 20 (sampleMsg "b" 20)) 30 50,
        p.toWebhookMessage = sampleMsg "b" 20) ∧
     (∃ p ∈ GetPendingMessages utc
          (UpdateMessageStatus (SaveMessage [sampleRow "a" 10] 20 (sampleMsg "b" 20)) 100
            (sampleMsg "b" 20).ID "retrying" "boom") 220 50,
        p.ID = (sampleMsg "b" 20).ID ∧ p.Path = (sampleMsg "b" 20).Path ∧
        p.Queue = (sampleMsg "b" 20).Queue ∧ p.Body = (sampleMsg "b" 20).Body ∧
        p.Headers = (sampleMsg "b" 20).Headers ∧ p.Timestamp = (sampleMsg "b" 20).Timestamp ∧
        p.CreatedAt = (sampleMsg "b" 20).CreatedAt ∧
        p.Retries = (sampleMsg "b" 20).Retries + 1)) :=
  ⟨by decide, by decide,
    save_claim_retry_claim utc [sampleRow "a" 10] (sampleMsg "b" 20) 20 30 100 220 50 50 "boom"
      (by decide) (by decide) (by decide)⟩

/-! ## Shared facts about processMessage -/

theorem mem_GetPendingMessages {zone : Zone} {s : Store} {now : Time} {limit : Int}
    {p : PendingMessage} (h : p ∈ GetPendingMessages zone s now limit) :
    ∃ r ∈ s, eligible zone now r = true ∧ p = scanRow r := by
  obtain ⟨r, hr, hp⟩ := List.mem_map.mp h
  exact ⟨r, (mem_pendingRows hr).1, (mem_pendingRows hr).2, hp.symm⟩

theorem send_calls (w : Worker) (msg : WebhookMessage) :
    ∀ c ∈ (w.send msg).2, c = Call.KafkaSendMessage msg ∨ c = Call.HTTPSendMessage msg := by
  intro c hc
  unfold Worker.send at hc
  have hk : ∀ c ∈ (w.sendToKafka msg).2, c = Call.KafkaSendMessage msg := by
    intro c hc
    unfold Worker.sendToKafka at hc
    cases hp : w.kafkaProducer <;> simp [hp] at hc
    exact hc
  have hh : ∀ c ∈ (w.sendToRemoteURL msg).2, c = Call.HTTPSendMessage msg := by
    intro c hc
    unfold Worker.sendToRemoteURL at hc
    cases hp : w.httpClient <;> simp [hp] at hc
    exact hc
  simp only at hc
  split at hc
  · exact Or.inl (hk c hc)
  · split at hc
    · exact Or.inr (hh c hc)
    · exact Or.inl (hk c hc)

theorem processMessage_cases (w : Worker) (now : Time) (msg : PendingMessage) (s : Store) :
    (0 < w.config.Worker.MaxRetries ∧ w.config.Worker.MaxRetries ≤ msg.Retries ∧
      w.processMessage now msg s =
        (UpdateMessageStatus s now msg.ID StatusFailed "Exceeded max retries",
         [Call.UpdateMessageStatus msg.ID StatusFailed "Exceeded max retries"])) ∨
    (¬ (0 < w.config.Worker.MaxRetries ∧ w.config.Worker.MaxRetries ≤ msg.Retries) ∧
      ∃ e, (w.send msg.toWebhookMessage).1 = some e ∧
        w.processMessage now msg s =
          (UpdateMessageStatus s now msg.ID StatusRetrying e,
           (w.send msg.toWebhookMessage).2 ++
             [Call.UpdateMessageStatus msg.ID StatusRetrying e])) ∨
    (¬ (0 < w.config.Worker.MaxRetries ∧ w.config.Worker.MaxRetries ≤ msg.Retries) ∧
      (w.send msg.toWebhookMessage).1 = none ∧
        w.processMessage now msg s =
          (DeleteMessage s msg.ID,
           (w.send msg.toWebhookMessage).2 ++ [Call.DeleteMessage msg.ID])) := by
  by_cases hcap : 0 < w.config.Worker.MaxRetries ∧ w.config.Worker.MaxRetries ≤ msg.Retries
  · left
    exact ⟨hcap.1, hcap.2, by simp [Worker.processMessage, hcap]⟩
  · right
    cases hs : (w.send msg.toWebhookMessage).1 with
    | some e =>
      left
      refine ⟨hcap, e, rfl, ?_⟩
      simp [Worker.processMessage, hcap, hs]
    | none =>
      right
      refine ⟨hcap, rfl, ?_⟩
      simp [Worker.processMessage, hcap, hs]

/-! ## C1: processMessage as a decision procedure -/

/-- C1 (as stated, refuted). A worker with no Kafka producer and no remote URL
processes a claimed message that is under the retry ceiling without calling any
sink: the only call it makes is UpdateMessageStatus(id, retrying, ...). -/
theorem processMessage_no_send_without_producer :
    ¬ (0 < (sampleConfig 3 none).Worker.MaxRetries ∧
        (sampleConfig 3 none).Worker.MaxRetries ≤ (scanRow (sampleRow "a" 10)).Retries) ∧
    ((Worker.processMessage
        { kafkaProducer := none, httpClient := none, config := sampleConfig 3 none }
        100 (scanRow (sampleRow "a" 10)) [sampleRow "a" 10]).2.filter Call.isSend).length ≠ 1 ∧
    (Worker.processMessage
        { kafkaProducer := none, httpClient := none, config := sampleConfig 3 none }
        100 (scanRow (sampleRow "a" 10)) [sampleRow "a" 10]).2 =
      [Call.UpdateMessageStatus "a" "retrying" "Kafka producer not available"] := by
  decide

theorem send_remote (w : Worker) (msg : WebhookMessage) (remote : RemoteURLConfig)
    (h : w.config.RemoteURL = some remote) (hurl : remote.URL ≠ "") :
    w.send msg = w.sendToRemoteURL msg := by
  have hne : TargetRemoteURL ≠ TargetKafka := by decide
  simp [Worker.send, Worker.getDeliveryTarget, h, hurl, hne]

theorem send_kafka (w : Worker) (msg : WebhookMessage)
    (h : ¬ ∃ remote, w.config.RemoteURL = some remote ∧ remote.URL ≠ "") :
    w.send msg = w.sendToKafka msg := by
  unfold Worker.send Worker.getDeliveryTarget
  cases hr : w.config.RemoteURL with
  | none => simp
  | some remote =>
    have hurl : remote.URL = "" := by
      by_contra hne
      exact h ⟨remote, hr, hne⟩
    simp [hurl]

/-- C1 (amended). processMessage is this decision procedure.  At the retry
ceiling (max_retries > 0 and retries >= max_retries) it calls
UpdateMessageStatus(id, failed, "Exceeded max retries") and nothing else.
Otherwise it selects the HTTP client when a remote URL with a non-empty URL is
configured and the Kafka producer if not; when the selected client is present
it calls that client SendMessage exactly once, deleting the row on success and
calling UpdateMessageStatus(id, retrying, e) without deleting on failure e;
when the selected client is absent no sink is called and the row is marked
retrying with the text "HTTP client not available" or "Kafka producer not
available".  In particular, when the send fails no DeleteMessage call is made
and the table keeps the same ids. -/
theorem processMessage_decision (w : Worker) (now : Time) (msg : PendingMessage) (s : Store) :
    (0 < w.config.Worker.MaxRetries ∧ w.config.Worker.MaxRetries ≤ msg.Retries →
      w.processMessage now msg s =
        (UpdateMessageStatus s now msg.ID "failed" "Exceeded max retries",
         [Call.UpdateMessageStatus msg.ID "failed" "Exceeded max retries"])) ∧
    (¬ (0 < w.config.Worker.MaxRetries ∧ w.config.Worker.MaxRetries ≤ msg.Retries) →
      ((∃ remote, w.config.RemoteURL = some remote ∧ remote.URL ≠ "") →
        (∀ client, w.httpClient = some client →
          (client msg.toWebhookMessage = none →
            w.processMessage now msg s =
              (DeleteMessage s msg.ID,
               [Call.HTTPSendMessage msg.toWebhookMessage, Call.DeleteMessage msg.ID])) ∧
          (∀ e, client msg.toWebhookMessage = some e →
            w.processMessage now msg s =
              (UpdateMessageStatus s now msg.ID "retrying" e,
               [Call.HTTPSendMessage msg.toWebhookMessage,
                Call.UpdateMessageStatus msg.ID "retrying" e]))) ∧
        (w.httpClient = none →
          w.processMessage now msg s =
            (UpdateMessageStatus s now msg.ID "retrying" "HTTP client not available",
             [Call.UpdateMessageStatus msg.ID "retrying" "HTTP client not available"]))) ∧
      ((¬ ∃ remote, w.config.RemoteURL = some remote ∧ remote.URL ≠ "") →
        (∀ producer, w.kafkaProducer = some producer →
          (producer msg.toWebhookMessage = none →
            w.processMessage now msg s =
              (DeleteMessage s msg.ID,
               [Call.KafkaSendMessage msg.toWebhookMessage, Call.DeleteMessage msg.ID])) ∧
          (∀ e, producer msg.toWebhookMessage = some e →
            w.processMessage now msg s =
              (UpdateMessageStatus s now msg.ID "retrying" e,
               [Call.KafkaSendMessage msg.toWebhookMessage,
                Call.UpdateMessageStatus msg.ID "retrying" e]))) ∧
        (w.kafkaProducer = none →
          w.processMessage now msg s =
            (UpdateMessageStatus s now msg.ID "retrying" "Kafka producer not available",
             [Call.UpdateMessageStatus msg.ID "retrying" "Kafka producer not available"])))) ∧
    (∀ e, (w.send msg.toWebhookMessage).1 = some e →
      (∀ id, Call.DeleteMessage id ∉ (w.processMessage now msg s).2) ∧
      (w.processMessage now msg s).1.map (fun r => r.ID) = s.map (fun r => r.ID)) := by
  refine ⟨fun hcap => ?_, fun hcap => ⟨fun hremote => ?_, fun hremote => ?_⟩, fun e he => ?_⟩
  · simp [Worker.processMessage, hcap]
  · obtain ⟨remote, hr, hurl⟩ := hremote
    have hsend := send_remote w msg.toWebhookMessage remote hr hurl
    refine ⟨fun client hc => ⟨fun hok => ?_, fun e he => ?_⟩, fun hnone => ?_⟩
    · simp [Worker.processMessage, hcap, hsend, Worker.sendToRemoteURL, hc, hok]
    · simp [Worker.processMessage, hcap, hsend, Worker.sendToRemoteURL, hc, he]
    · simp [Worker.processMessage, hcap, hsend, Worker.sendToRemoteURL, hnone]
  · have hsend := send_kafka w msg.toWebhookMessage hremote
    refine ⟨fun producer hp => ⟨fun hok => ?_, fun e he => ?_⟩, fun hnone => ?_⟩
    · simp [Worker.processMessage, hcap, hsend, Worker.sendToKafka, hp, hok]
    · simp [Worker.processMessage, hcap, hsend, Worker.sendToKafka, hp, he]
    · simp [Worker.processMessage, hcap, hsend, Worker.sendToKafka, hnone]
  · have hsendcalls : ∀ id, Call.DeleteMessage id ∉ (w.send msg.toWebhookMessage).2 := by
      intro id hmem
      rcases send_calls w msg.toWebhookMessage _ hmem with h | h <;> cases h
    rcases processMessage_cases w now msg s with h | h | h
    · rw [h.2.2]
      exact ⟨fun id => by simp, map_ID_UpdateMessageStatus _ _ _ _ _⟩
    · obtain ⟨_, e1, _, h⟩ := h
      rw [h]
      refine ⟨fun id hmem => ?_, map_ID_UpdateMessageStatus _ _ _ _ _⟩
      rcases List.mem_append.mp hmem with hm | hm
      · exact hsendcalls id hm
      · simp at hm
    · rw [h.2.1] at he
      cases he

/-- C1 (amended), at a worker whose Kafka producer rejects every message: one
SendMessage call, then UpdateMessageStatus(id, retrying, e), and no delete. -/
theorem processMessage_decision_witness :
    ¬ (0 < (sampleWorker 3 (some failingSink)).config.Worker.MaxRetries ∧
        (sampleWorker 3 (some failingSink)).config.Worker.MaxRetries ≤
          (scanRow (sampleRow "a" 10)).Retries) ∧
    (sampleWorker 3 (some failingSink)).processMessage 100 (scanRow (sampleRow "a" 10))
        [sampleRow "a" 10] =
      (UpdateMessageStatus [sampleRow "a" 10] 100 "a" "retrying"
          "HTTP request failed with status 503: ",
       [Call.KafkaSendMessage (sampleMsg "a" 10),
        Call.UpdateMessageStatus "a" "retrying" "HTTP request failed with status 503: "]) :=
  ⟨by decide,
    ((((processMessage_decision (sampleWorker 3 (some failingSink)) 100
        (scanRow (sampleRow "a" 10)) [sampleRow "a" 10]).2.1 (by decide)).2
      (by rintro ⟨remote, h, _⟩; cases h)).1 failingSink rfl).2
      "HTTP request failed with status 503: " rfl⟩

/-! ## C6: terminal rows are left alone -/

theorem processMessage_keeps_other (w : Worker) (now : Time) (msg : PendingMessage) (s : Store)
    (r : Row) (hr : r ∈ s) (hne : msg.ID ≠ r.ID) : r ∈ (w.processMessage now msg s).1 := by
  have hupd : ∀ status error, r ∈ UpdateMessageStatus s now msg.ID status error := by
    intro status error
    have h := mem_UpdateMessageStatus_of_mem hr now msg.ID status error
    rwa [if_neg (fun h => hne h.symm)] at h
  have hdel : r ∈ DeleteMessage s msg.ID := by
    apply List.mem_filter.mpr
    refine ⟨hr, ?_⟩
    simpa using fun h : r.ID = msg.ID => hne h.symm
  rcases processMessage_cases w now msg s with h | h | h
  · rw [h.2.2]; exact hupd _ _
  · obtain ⟨_, e, _, h⟩ := h
    rw [h]; exact hupd _ _
  · rw [h.2.2]; exact hdel

theorem processMessage_sends (w : Worker) (now : Time) (msg : PendingMessage) (s : Store)
    (id : String) (hne : msg.ID ≠ id) :
    ∀ c ∈ (w.processMessage now msg s).2, c.isSendOf id = false := by
  have hsend : ∀ c ∈ (w.send msg.toWebhookMessage).2, c.isSendOf id = false := by
    intro c hc
    rcases send_calls w msg.toWebhookMessage c hc with h | h <;>
      simp [h, Call.isSendOf, hne]
  intro c hc
  rcases processMessage_cases w now msg s with h | h | h
  · rw [h.2.2] at hc
    simp only [List.mem_singleton] at hc
    rw [hc]; rfl
  · obtain ⟨_, e, _, h⟩ := h
    rw [h] at hc
    rcases List.mem_append.mp hc with hc | hc
    · exact hsend c hc
    · simp only [List.mem_singleton] at hc
      rw [hc]; rfl
  · rw [h.2.2] at hc
    rcases List.mem_append.mp hc with hc | hc
    · exact hsend c hc
    · simp only [List.mem_singleton] at hc
      rw [hc]; rfl

theorem processBatch_keeps_other (w : Worker) (now : Time) (r : Row) :
    ∀ (msgs : List PendingMessage) (s : Store), r ∈ s → (∀ m ∈ msgs, m.ID ≠ r.ID) →
      r ∈ (w.processBatch now msgs s).1 ∧
      ∀ c ∈ (w.processBatch now msgs s).2, c.isSendOf r.ID = false := by
  intro msgs
  induction msgs with
  | nil =>
    intro s hr _
    exact ⟨hr, by simp [Worker.processBatch]⟩
  | cons m rest ih =>
    intro s hr hne
    have hm : m.ID ≠ r.ID := hne m (List.mem_cons_self _ _)
    have h1 := processMessage_keeps_other w now m s r hr hm
    have h2 := ih (w.processMessage now m s).1 h1
      (fun x hx => hne x (List.mem_cons_of_mem _ hx))
    refine ⟨h2.1, ?_⟩
    intro c hc
    simp only [Worker.processBatch] at hc
    rcases List.mem_append.mp hc with hc | hc
    · exact processMessage_sends w now m s r.ID hm c hc
    · exact h2.2 c hc

theorem terminal_not_eligible (zone : Zone) (now : Time) (r : Row)
    (h : r.Status = "sent" ∨ r.Status = "failed") : eligible zone now r = false := by
  unfold eligible
  rcases h with h | h <;> simp [h, StatusPending, StatusRetrying]

theorem terminal_not_claimed {s : Store} {r : Row} (hu : UniqueIds s) (hr : r ∈ s)
    (hterminal : r.Status = "sent" ∨ r.Status = "failed") (zone : Zone) (now : Time)
    (limit : Int) : ∀ p ∈ GetPendingMessages zone s now limit, p.ID ≠ r.ID := by
  intro p hp hid
  obtain ⟨r0, hr0, hel, hp0⟩ := mem_GetPendingMessages hp
  have hid0 : r0.ID = r.ID := by
    rw [← hid, hp0]; rfl
  have : r0 = r := uniqueIds_eq hu hr0 hr hid0
  rw [this, terminal_not_eligible zone now r hterminal] at hel
  exact Bool.noConfusion hel

theorem processRetries_keeps_unclaimed (w : Worker) (zone : Zone) (now : Time) (s : Store)
    (r : Row) (hr : r ∈ s)
    (hne : ∀ p ∈ GetPendingMessages zone s now w.config.Worker.BatchSize, p.ID ≠ r.ID) :
    r ∈ (w.processRetries zone now s).1 ∧
    ∀ c ∈ (w.processRetries zone now s).2, c.isSendOf r.ID = false := by
  have h := processBatch_keeps_other w now r
    (GetPendingMessages zone s now w.config.Worker.BatchSize) s hr hne
  refine ⟨h.1, ?_⟩
  intro c hc
  simp only [Worker.processRetries, List.mem_cons] at hc
  rcases hc with hc | hc
  · rw [hc]; rfl
  · exact h.2 c hc

/-- C6. In a table that satisfies its primary key, a scheduler tick
(processRetries), in whatever time zone the process runs, leaves every row
whose status is sent or failed in the table unchanged and makes no sink send
for its id; such a row is not among the messages GetPendingMessages hands to
the tick. -/
theorem processRetries_skips_terminal (w : Worker) (zone : Zone) (now : Time) (s : Store)
    (r : Row)
    (hu : UniqueIds s) (hr : r ∈ s) (hterminal : r.Status = "sent" ∨ r.Status = "failed") :
    r ∈ (w.processRetries zone now s).1 ∧
    (∀ c ∈ (w.processRetries zone now s).2, c.isSendOf r.ID = false) ∧
    (∀ limit, ∀ p ∈ GetPendingMessages zone s now limit, p.ID ≠ r.ID) := by
  have hbatch := terminal_not_claimed hu hr hterminal zone now
  have h := processRetries_keeps_unclaimed w zone now s r hr (hbatch _)
  exact ⟨h.1, h.2, hbatch⟩

/-- C6, at a concrete table: a tick that delivers the pending message keeps
the failed row and sends nothing for it. -/
theorem processRetries_skips_terminal_witness :
    (sampleWorker 0 (some acceptingSink)).processRetries utc 100
        [{ toWebhookMessage := { sampleMsg "a" 10 with Retries := 3, Status := "failed" },
           next_retry_at := none }, sampleRow "b" 20] =
      ([{ toWebhookMessage := { sampleMsg "a" 10 with Retries := 3, Status := "failed" },
          next_retry_at := none }],
       [Call.GetPendingMessages 50, Call.KafkaSendMessage (sampleMsg "b" 20),
        Call.DeleteMessage "b"]) ∧
    ({ toWebhookMessage := { sampleMsg "a" 10 with Retries := 3, Status := "failed" },
       next_retry_at := none } : Row) ∈
      ((sampleWorker 0 (some acceptingSink)).processRetries utc 100
        [{ toWebhookMessage := { sampleMsg "a" 10 with Retries := 3, Status := "failed" },
           next_retry_at := none }, sampleRow "b" 20]).1 :=
  ⟨by decide,
    (processRetries_skips_terminal (sampleWorker 0 (some acceptingSink)) utc 100
      [{ toWebhookMessage := { sampleMsg "a" 10 with Retries := 3, Status := "failed" },
         next_retry_at := none }, sampleRow "b" 20]
      { toWebhookMessage := { sampleMsg "a" 10 with Retries := 3, Status := "failed" },
        next_retry_at := none }
      (by decide) (by decide) (by decide)).1⟩

/-! ## Attempts on one message whose sends fail -/

theorem lookup_id {s : Store} {id : String} {r : Row} (h : lookup s id = some r) : r.ID = id := by
  have := List.find?_some h
  simpa using this

theorem lookup_mem {s : Store} {id : String} {r : Row} (h : lookup s id = some r) : r ∈ s :=
  List.mem_of_find?_eq_some h

theorem lookup_UpdateMessageStatus (s : Store) (now : Time) (id : String)
    (status : MessageStatus) (error : String) :
    lookup (UpdateMessageStatus s now id status error) id =
      (lookup s id).map (updateRow now status error) := by
  induction s with
  | nil => rfl
  | cons r s ih =>
    unfold lookup UpdateMessageStatus at ih ⊢
    by_cases h : r.ID = id
    · have h2 : (updateRow now status error r).ID = id := by simpa [updateRow] using h
      simp [List.find?_cons, h, h2]
    · simpa [List.find?_cons, h] using ih

theorem lookup_SaveMessage (s : Store) (now : Time) (m : WebhookMessage) :
    lookup (SaveMessage s now m) m.ID =
      some { toWebhookMessage := m,
             next_retry_at :=
               if m.Status = StatusRetrying then some (now + retryDelay m.Retries)
               else none } := by
  unfold lookup SaveMessage
  rw [List.find?_append]
  have hnone : (s.filter (fun r => r.ID ≠ m.ID)).find? (fun r => r.ID = m.ID) = none := by
    rw [List.find?_eq_none]
    intro r hr
    have := (List.mem_filter.mp hr).2
    simpa using this
  rw [hnone]
  simp

theorem lookup_of_mem {s : Store} (hu : UniqueIds s) {r : Row} (hr : r ∈ s) :
    lookup s r.ID = some r := by
  cases h : lookup s r.ID with
  | none =>
    have := List.find?_eq_none.mp h r hr
    simp at this
  | some r1 =>
    have hid : r1.ID = r.ID := lookup_id h
    rw [uniqueIds_eq hu (lookup_mem h) hr hid]

/-- Processing a message that GetPendingMessages returned is an attempt on its id. -/
theorem attempt_of_claimed (w : Worker) (zone : Zone) (now : Time) (s : Store) (limit : Int)
    (p : PendingMessage) (hu : UniqueIds s) (hp : p ∈ GetPendingMessages zone s now limit) :
    w.attempt zone now p.ID s = w.processMessage now p s := by
  obtain ⟨r, hr, hel, hpr⟩ := mem_GetPendingMessages hp
  subst hpr
  have hlook : lookup s (scanRow r).ID = some r := lookup_of_mem hu hr
  simp [Worker.attempt, hlook, hel]

/-- A row with a null next_retry_at that is pending or retrying passes the
WHERE clause of GetPendingMessages at every instant. -/
theorem afterFailures_eligible {k : Int} {r : Row} (zone : Zone) (t1 : Time)
    (hn : r.next_retry_at = none)
    (hst : (k = 0 ∧ r.Status = "pending") ∨ (0 < k ∧ r.Status = "retrying")) :
    eligible zone t1 r = true := by
  rw [eligible_iff_due]
  rcases hst with ⟨_, hp⟩ | ⟨_, hp⟩
  · exact ⟨Or.inl hp, by simp [hn]⟩
  · exact ⟨Or.inr hp, by simp [hn]⟩

theorem attempt_fails (w : Worker) (zone : Zone) (id : String) (s : Store) (k : Int)
    (t1 : Time)
    (hfail : ∀ msg, (w.send msg).1 ≠ none)
    (hstate : AfterFailures s id k)
    (hcap : ¬ (0 < w.config.Worker.MaxRetries ∧ w.config.Worker.MaxRetries ≤ k)) :
    AfterFailures (w.attempt zone t1 id s).1 id (k + 1) := by
  obtain ⟨r, hlook, hret, hk, hn, hst⟩ := hstate
  have hel := afterFailures_eligible zone t1 hn hst
  have hid : (scanRow r).ID = id := lookup_id hlook
  have hretries : (scanRow r).Retries = k := hret
  rcases processMessage_cases w t1 (scanRow r) s with h | h | h
  · exact absurd ⟨h.1, hretries ▸ h.2.1⟩ hcap
  · obtain ⟨_, e, _, h⟩ := h
    have hstore : (w.attempt zone t1 id s).1 = UpdateMessageStatus s t1 id StatusRetrying e := by
      simp [Worker.attempt, hlook, hel, h, hid]
    rw [hstore]
    refine ⟨updateRow t1 StatusRetrying e r, ?_, ?_, by omega,
      updateRow_next_retry_at _ _ _ _, Or.inr ⟨by omega, rfl⟩⟩
    · rw [lookup_UpdateMessageStatus, hlook]; rfl
    · simp [updateRow, hret]
  · exact absurd h.2.1 (hfail _)

theorem attempt_at_ceiling (w : Worker) (zone : Zone) (id : String) (s : Store) (k : Int)
    (t1 : Time)
    (hstate : AfterFailures s id k)
    (hcap : 0 < w.config.Worker.MaxRetries ∧ w.config.Worker.MaxRetries ≤ k) :
    w.attempt zone t1 id s =
      (UpdateMessageStatus s t1 id StatusFailed "Exceeded max retries",
       [Call.UpdateMessageStatus id StatusFailed "Exceeded max retries"]) ∧
    ∃ r, lookup (w.attempt zone t1 id s).1 id = some r ∧ r.Status = "failed" ∧
      r.Error = "Exceeded max retries" ∧ r.next_retry_at = none := by
  obtain ⟨r, hlook, hret, hk, hn, hst⟩ := hstate
  have hel := afterFailures_eligible zone t1 hn hst
  have hid : (scanRow r).ID = id := lookup_id hlook
  have hretries : (scanRow r).Retries = k := hret
  have hattempt : w.attempt zone t1 id s =
      (UpdateMessageStatus s t1 id StatusFailed "Exceeded max retries",
       [Call.UpdateMessageStatus id StatusFailed "Exceeded max retries"]) := by
    have hcap2 : 0 < w.config.Worker.MaxRetries ∧
        w.config.Worker.MaxRetries ≤ (scanRow r).Retries := by
      rw [hretries]; exact hcap
    simp only [Worker.attempt, hlook, hel, if_true, Worker.processMessage, if_pos hcap2, hid]
  refine ⟨hattempt, updateRow t1 StatusFailed "Exceeded max retries" r, ?_, rfl, rfl,
    updateRow_next_retry_at _ _ _ _⟩
  rw [hattempt, lookup_UpdateMessageStatus, hlook]; rfl

theorem attempts_failing (w : Worker) (zone : Zone) (id : String)
    (hfail : ∀ msg, (w.send msg).1 ≠ none) :
    ∀ (ts : List Time) (s : Store) (k : Int),
      AfterFailures s id k →
      (w.config.Worker.MaxRetries ≤ 0 ∨ k + ts.length ≤ w.config.Worker.MaxRetries) →
      AfterFailures (w.attempts zone id ts s).1 id (k + ts.length) := by
  intro ts
  induction ts with
  | nil =>
    intro s k hstate _
    simpa [Worker.attempts] using hstate
  | cons a ts ih =>
    intro s k hstate hcap
    have hlen : ((a :: ts).length : Int) = (ts.length : Int) + 1 := by
      simp
    have hcap1 : ¬ (0 < w.config.Worker.MaxRetries ∧ w.config.Worker.MaxRetries ≤ k) := by
      rintro ⟨h1, h2⟩
      rcases hcap with h | h
      · omega
      · rw [hlen] at h
        have : (0 : Int) ≤ (ts.length : Int) := Int.natCast_nonneg _
        omega
    have hstep := attempt_fails w zone id s k a hfail hstate hcap1
    have hcap2 : w.config.Worker.MaxRetries ≤ 0 ∨
        k + 1 + (ts.length : Int) ≤ w.config.Worker.MaxRetries := by
      rcases hcap with h | h
      · exact Or.inl h
      · right
        rw [hlen] at h
        omega
    have h1 := ih (w.attempt zone a id s).1 (k + 1) hstep hcap2
    have : k + ((a :: ts).length : Int) = k + 1 + (ts.length : Int) := by rw [hlen]; ring
    rw [this]
    simpa [Worker.attempts] using h1

theorem attempts_append (w : Worker) (zone : Zone) (id : String) :
    ∀ (ts rest : List Time) (s : Store),
      (w.attempts zone id (ts ++ rest) s).1 =
        (w.attempts zone id rest (w.attempts zone id ts s).1).1 := by
  intro ts
  induction ts with
  | nil => intro rest s; rfl
  | cons a ts ih =>
    intro rest s
    simp only [List.cons_append, Worker.attempts]
    exact ih rest _

theorem afterFailures_ingested (s : Store) (t0 : Time) (m : WebhookMessage)
    (hpending : m.Status = "pending") (hretries : m.Retries = 0) :
    AfterFailures (SaveMessage s t0 m) m.ID 0 := by
  have hne : m.Status ≠ StatusRetrying := by
    rw [hpending]; decide
  refine ⟨_, lookup_SaveMessage s t0 m, hretries, le_refl 0, ?_, Or.inl ⟨rfl, hpending⟩⟩
  rw [if_neg hne]

theorem uniqueIds_processMessage (w : Worker) (now : Time) (msg : PendingMessage) {s : Store}
    (hu : UniqueIds s) : UniqueIds (w.processMessage now msg s).1 := by
  rcases processMessage_cases w now msg s with h | h | h
  · rw [h.2.2]; exact uniqueIds_UpdateMessageStatus hu _ _ _ _
  · obtain ⟨_, e, _, h⟩ := h
    rw [h]; exact uniqueIds_UpdateMessageStatus hu _ _ _ _
  · rw [h.2.2]; exact uniqueIds_DeleteMessage hu _

theorem uniqueIds_attempt (w : Worker) (zone : Zone) (now : Time) (id : String) {s : Store}
    (hu : UniqueIds s) : UniqueIds (w.attempt zone now id s).1 := by
  unfold Worker.attempt
  cases lookup s id with
  | none => exact hu
  | some r =>
    by_cases h : eligible zone now r = true
    · simp only [h, if_true]; exact uniqueIds_processMessage w now _ hu
    · simp only [h]; exact hu

theorem uniqueIds_attempts (w : Worker) (zone : Zone) (id : String) :
    ∀ (ts : List Time) (s : Store), UniqueIds s → UniqueIds (w.attempts zone id ts s).1 := by
  intro ts
  induction ts with
  | nil => intro s hu; exact hu
  | cons a ts ih =>
    intro s hu
    simp only [Worker.attempts]
    exact ih _ (uniqueIds_attempt w zone a id hu)

/-! ## C4: the retry ceiling -/

/-- C4. Let max_retries = N > 0, let m be ingested with status pending and
retries 0 into a table that satisfies its primary key, and let every send
fail.  Consider N + 1 scheduler attempts on m, made at any instants (the row
has a null next_retry_at throughout, so it is due at each of them).  After each
of the first N attempts the row is retrying and its retries equal the number
of attempts made.  The attempt numbered N + 1 calls only
UpdateMessageStatus(id, failed, "Exceeded max retries") and leaves the row
failed with that error.  From then on no GetPendingMessages call returns the
message, an attempt on it does nothing, and no scheduler tick sends it. -/
theorem retry_ceiling (zone : Zone) (w : Worker) (s : Store) (m : WebhookMessage) (t0 : Time)
    (ts : List Time) (tlast : Time)
    (hu : UniqueIds s)
    (hlen : (ts.length : Int) = w.config.Worker.MaxRetries)
    (hpos : 0 < w.config.Worker.MaxRetries)
    (hfail : ∀ msg, (w.send msg).1 ≠ none)
    (hpending : m.Status = "pending") (hretries : m.Retries = 0) :
    (∀ k : Nat, 1 ≤ k → k ≤ ts.length →
      ∃ r, lookup (w.attempts zone m.ID (ts.take k) (SaveMessage s t0 m)).1 m.ID = some r ∧
        r.Status = "retrying" ∧ r.Retries = k) ∧
    w.attempt zone tlast m.ID (w.attempts zone m.ID ts (SaveMessage s t0 m)).1 =
      (UpdateMessageStatus (w.attempts zone m.ID ts (SaveMessage s t0 m)).1 tlast m.ID "failed"
          "Exceeded max retries",
       [Call.UpdateMessageStatus m.ID "failed" "Exceeded max retries"]) ∧
    (∃ r, lookup (w.attempts zone m.ID (ts ++ [tlast]) (SaveMessage s t0 m)).1 m.ID = some r ∧
      r.Status = "failed" ∧ r.Error = "Exceeded max retries") ∧
    (∀ now limit,
      ∀ p ∈ GetPendingMessages zone
          (w.attempts zone m.ID (ts ++ [tlast]) (SaveMessage s t0 m)).1 now limit,
        p.ID ≠ m.ID) ∧
    (∀ now,
      w.attempt zone now m.ID (w.attempts zone m.ID (ts ++ [tlast]) (SaveMessage s t0 m)).1 =
        ((w.attempts zone m.ID (ts ++ [tlast]) (SaveMessage s t0 m)).1, [])) ∧
    (∀ now, ∀ c ∈ (w.processRetries zone now
        (w.attempts zone m.ID (ts ++ [tlast]) (SaveMessage s t0 m)).1).2,
      c.isSendOf m.ID = false) := by
  have hstart := afterFailures_ingested s t0 m hpending hretries
  have hfirst : ∀ k : Nat, 1 ≤ k → k ≤ ts.length →
      ∃ r, lookup (w.attempts zone m.ID (ts.take k) (SaveMessage s t0 m)).1 m.ID = some r ∧
        r.Status = "retrying" ∧ r.Retries = k := by
    intro k hk1 hk2
    have htake : (ts.take k).length = k := by
      rw [List.length_take]; omega
    obtain ⟨r, hlook, hret, _, _, hst⟩ :=
      attempts_failing w zone m.ID hfail (ts.take k) (SaveMessage s t0 m) 0
        hstart (Or.inr (by rw [htake, ← hlen]; simp; exact hk2))
    rw [htake] at hret hst
    refine ⟨r, hlook, ?_, by simpa using hret⟩
    rcases hst with ⟨h0, _⟩ | ⟨_, hs⟩
    · have : (k : Int) = 0 := by simpa using h0
      omega
    · exact hs
  have hstate :=
    attempts_failing w zone m.ID hfail ts (SaveMessage s t0 m) 0 hstart
      (Or.inr (by rw [hlen]; simp))
  have hceil := attempt_at_ceiling w zone m.ID (w.attempts zone m.ID ts (SaveMessage s t0 m)).1
    (0 + (ts.length : Int)) tlast hstate ⟨hpos, by rw [hlen]; simp⟩
  have hfinal : (w.attempts zone m.ID (ts ++ [tlast]) (SaveMessage s t0 m)).1 =
      (w.attempt zone tlast m.ID (w.attempts zone m.ID ts (SaveMessage s t0 m)).1).1 := by
    rw [attempts_append]
    simp [Worker.attempts]
  obtain ⟨hcall, r, hlook, hfailed, herr, _⟩ := hceil
  rw [← hfinal] at hlook
  have hufinal : UniqueIds (w.attempts zone m.ID (ts ++ [tlast]) (SaveMessage s t0 m)).1 :=
    uniqueIds_attempts w zone m.ID _ _ (uniqueIds_SaveMessage hu t0 m)
  have hrid : r.ID = m.ID := lookup_id hlook
  have hclaim := terminal_not_claimed hufinal (lookup_mem hlook) (Or.inr hfailed) zone
  refine ⟨hfirst, hcall, ⟨r, hlook, hfailed, herr⟩, ?_, ?_, ?_⟩
  · intro now limit p hp
    rw [← hrid]
    exact hclaim now limit p hp
  · intro now
    have hel : eligible zone now r = false := terminal_not_eligible zone now r (Or.inr hfailed)
    simp [Worker.attempt, hlook, hel]
  · intro now c hc
    rw [← hrid]
    exact (processRetries_keeps_unclaimed w zone now _ r (lookup_mem hlook) (hclaim now _)).2 c hc

/-- C4, the scenario max_retries = 2 with a sink that always answers 503 and a
tick every five minutes: attempts 1 and 2 leave the row retrying with a null
next_retry_at, attempt 3 leaves it failed with error "Exceeded max retries". -/
theorem retry_ceiling_witness :
    ((sampleWorker 2 (some failingSink)).attempts utc "a" [100]
        (SaveMessage [] 10 (sampleMsg "a" 10))).1 =
      [sampleRowAt "a" 10 1 "retrying" "HTTP request failed with status 503: " 100 none] ∧
    ((sampleWorker 2 (some failingSink)).attempts utc "a" [100, 400]
        (SaveMessage [] 10 (sampleMsg "a" 10))).1 =
      [sampleRowAt "a" 10 2 "retrying" "HTTP request failed with status 503: " 400 none] ∧
    ((sampleWorker 2 (some failingSink)).attempts utc "a" [100, 400, 700]
        (SaveMessage [] 10 (sampleMsg "a" 10))).1 =
      [sampleRowAt "a" 10 3 "failed" "Exceeded max retries" 700 none] ∧
    (∃ r, lookup ((sampleWorker 2 (some failingSink)).attempts utc (sampleMsg "a" 10).ID
        ([100, 400] ++ [700]) (SaveMessage [] 10 (sampleMsg "a" 10))).1 (sampleMsg "a" 10).ID
          = some r ∧
      r.Status = "failed" ∧ r.Error = "Exceeded max retries") :=
  ⟨by decide, by decide, by decide,
    (retry_ceiling utc (sampleWorker 2 (some failingSink)) [] (sampleMsg "a" 10) 10 [100, 400]
      700 (by decide) (by decide) (by decide)
      (fun msg => by
        simp [sampleWorker, sampleConfig, Worker.send, Worker.getDeliveryTarget,
          Worker.sendToKafka, failingSink])
      (by decide) (by decide)).2.2.1⟩

/-! ## C5: unlimited retries -/

theorem processMessage_unlimited (w : Worker) (hzero : w.config.Worker.MaxRetries = 0)
    (now : Time) (msg : PendingMessage) (s : Store) :
    (∀ c ∈ (w.processMessage now msg s).2, ∀ id e, c ≠ Call.UpdateMessageStatus id "failed" e) ∧
    (∀ r ∈ (w.processMessage now msg s).1, r.Status = "failed" → r ∈ s) := by
  have hsend : ∀ c ∈ (w.send msg.toWebhookMessage).2,
      ∀ id e, c ≠ Call.UpdateMessageStatus id "failed" e := by
    intro c hc id e
    rcases send_calls w msg.toWebhookMessage c hc with h | h <;> simp [h]
  rcases processMessage_cases w now msg s with h | h | h
  · rw [hzero] at h
    exact absurd h.1 (lt_irrefl 0)
  · obtain ⟨_, e, _, h⟩ := h
    rw [h]
    constructor
    · intro c hc id e1
      rcases List.mem_append.mp hc with hc | hc
      · exact hsend c hc id e1
      · simp only [List.mem_singleton] at hc
        rw [hc]
        simp [StatusRetrying]
    · intro r hr hfailed
      obtain ⟨r0, hr0, hrr⟩ := mem_UpdateMessageStatus hr
      by_cases hid : r0.ID = msg.ID
      · rw [if_pos hid] at hrr
        rw [hrr] at hfailed
        simp [updateRow, StatusRetrying] at hfailed
      · rw [if_neg hid] at hrr
        rw [hrr]; exact hr0
  · rw [h.2.2]
    constructor
    · intro c hc id e1
      rcases List.mem_append.mp hc with hc | hc
      · exact hsend c hc id e1
      · simp only [List.mem_singleton] at hc
        rw [hc]
        simp
    · intro r hr _
      exact (List.mem_filter.mp hr).1

theorem processBatch_unlimited (w : Worker) (hzero : w.config.Worker.MaxRetries = 0)
    (now : Time) :
    ∀ (msgs : List PendingMessage) (s : Store),
      (∀ c ∈ (w.processBatch now msgs s).2, ∀ id e, c ≠ Call.UpdateMessageStatus id "failed" e) ∧
      (∀ r ∈ (w.processBatch now msgs s).1, r.Status = "failed" → r ∈ s) := by
  intro msgs
  induction msgs with
  | nil =>
    intro s
    exact ⟨by simp [Worker.processBatch], fun r hr _ => hr⟩
  | cons m rest ih =>
    intro s
    have h1 := processMessage_unlimited w hzero now m s
    have h2 := ih (w.processMessage now m s).1
    constructor
    · intro c hc
      simp only [Worker.processBatch] at hc
      rcases List.mem_append.mp hc with hc | hc
      · exact h1.1 c hc
      · exact h2.1 c hc
    · intro r hr hfailed
      simp only [Worker.processBatch] at hr
      exact h1.2 r (h2.2 r hr hfailed) hfailed

/-- C5. With max_retries = 0 no scheduler step marks a row failed: for every
table, message and sink behaviour, neither processMessage nor processRetries
calls UpdateMessageStatus with status failed, and every failed row of the table
afterwards was already a row of the table before.  A message ingested with
status pending and retries 0 whose sends all fail is, after any number k >= 1
of attempts, made at any instants, retrying with retries = k. -/
theorem unlimited_retries (w : Worker) (hzero : w.config.Worker.MaxRetries = 0) :
    (∀ (now : Time) (msg : PendingMessage) (s : Store),
      (∀ c ∈ (w.processMessage now msg s).2,
        ∀ id e, c ≠ Call.UpdateMessageStatus id "failed" e) ∧
      (∀ r ∈ (w.processMessage now msg s).1, r.Status = "failed" → r ∈ s)) ∧
    (∀ (zone : Zone) (now : Time) (s : Store),
      (∀ c ∈ (w.processRetries zone now s).2,
        ∀ id e, c ≠ Call.UpdateMessageStatus id "failed" e) ∧
      (∀ r ∈ (w.processRetries zone now s).1, r.Status = "failed" → r ∈ s)) ∧
    (∀ (zone : Zone) (s : Store) (m : WebhookMessage) (t0 : Time) (ts : List Time),
      (∀ msg, (w.send msg).1 ≠ none) → m.Status = "pending" → m.Retries = 0 → ts ≠ [] →
      ∃ r, lookup (w.attempts zone m.ID ts (SaveMessage s t0 m)).1 m.ID = some r ∧
        r.Status = "retrying" ∧ r.Retries = ts.length) := by
  refine ⟨fun now msg s => processMessage_unlimited w hzero now msg s, fun zone now s => ?_, ?_⟩
  · have h := processBatch_unlimited w hzero now
      (GetPendingMessages zone s now w.config.Worker.BatchSize) s
    refine ⟨?_, h.2⟩
    intro c hc id e
    simp only [Worker.processRetries, List.mem_cons] at hc
    rcases hc with hc | hc
    · rw [hc]; simp
    · exact h.1 c hc id e
  · intro zone s m t0 ts hfail hpending hretries hne
    have hstart := afterFailures_ingested s t0 m hpending hretries
    obtain ⟨r, hlook, hret, _, _, hst⟩ :=
      attempts_failing w zone m.ID hfail ts (SaveMessage s t0 m) 0 hstart
        (Or.inl (le_of_eq hzero))
    refine ⟨r, hlook, ?_, by simpa using hret⟩
    rcases hst with ⟨h0, _⟩ | ⟨_, hs⟩
    · have hlen : ts.length = 0 := by
        have : (ts.length : Int) = 0 := by simpa using h0
        exact_mod_cast this
      exact absurd (List.length_eq_zero.mp hlen) hne
    · exact hs

/-- C5, at a worker with max_retries = 0, a sink that always fails and a tick
every five minutes: after four attempts the message is still retrying, with
four retries and a null next_retry_at. -/
theorem unlimited_retries_witness :
    ((sampleWorker 0 (some failingSink)).attempts utc "a" [100, 400, 700, 1000]
        (SaveMessage [] 10 (sampleMsg "a" 10))).1 =
      [sampleRowAt "a" 10 4 "retrying" "HTTP request failed with status 503: " 1000 none] ∧
    (∃ r, lookup ((sampleWorker 0 (some failingSink)).attempts utc (sampleMsg "a" 10).ID
        [100, 400, 700, 1000] (SaveMessage [] 10 (sampleMsg "a" 10))).1 (sampleMsg "a" 10).ID
          = some r ∧
      r.Status = "retrying" ∧ r.Retries = ([100, 400, 700, 1000] : List Time).length) :=
  ⟨by decide,
    (unlimited_retries (sampleWorker 0 (some failingSink)) (by decide)).2.2 utc []
      (sampleMsg "a" 10) 10 [100, 400, 700, 1000]
      (fun msg => by
        simp [sampleWorker, sampleConfig, Worker.send, Worker.getDeliveryTarget,
          Worker.sendToKafka, failingSink])
      (by decide) (by decide) (by decide)⟩

/-! ## C9, C10: lifecycle invariants of reachable tables -/

theorem lifecycle_SaveMessage {s : Store} (hinv : LifecycleInvariant s) (now : Time)
    (m : WebhookMessage) (hpending : m.Status = "pending") (hretries : m.Retries = 0) :
    LifecycleInvariant (SaveMessage s now m) := by
  intro r hr
  have hne : m.Status ≠ StatusRetrying := by
    rw [hpending]; decide
  simp only [SaveMessage, if_neg hne, List.mem_append, List.mem_singleton] at hr
  rcases hr with hr | hr
  · exact hinv r (List.mem_filter.mp hr).1
  · subst hr
    exact ⟨le_of_eq hretries.symm, rfl, fun _ => hretries⟩

theorem lifecycle_UpdateMessageStatus {s : Store} (hinv : LifecycleInvariant s) (now : Time)
    (id : String) (status : MessageStatus) (error : String)
    (hstatus : status = "failed" ∨ status = "retrying") :
    LifecycleInvariant (UpdateMessageStatus s now id status error) := by
  intro r hr
  obtain ⟨r0, hr0, hrr⟩ := mem_UpdateMessageStatus hr
  by_cases hid : r0.ID = id
  · rw [if_pos hid] at hrr
    have h0 := (hinv r0 hr0).1
    subst hrr
    refine ⟨?_, updateRow_next_retry_at _ _ _ _, fun h => ?_⟩
    · show 0 ≤ r0.Retries + 1
      omega
    · have hp : status = "pending" := h
      rcases hstatus with hs | hs <;> rw [hs] at hp <;> exact absurd hp (by decide)
  · rw [if_neg hid] at hrr
    rw [hrr]; exact hinv r0 hr0

theorem lifecycle_DeleteMessage {s : Store} (hinv : LifecycleInvariant s) (id : String) :
    LifecycleInvariant (DeleteMessage s id) :=
  fun r hr => hinv r (List.mem_filter.mp hr).1

theorem lifecycle_processMessage (w : Worker) (now : Time) (msg : PendingMessage) {s : Store}
    (hinv : LifecycleInvariant s) : LifecycleInvariant (w.processMessage now msg s).1 := by
  rcases processMessage_cases w now msg s with h | h | h
  · rw [h.2.2]; exact lifecycle_UpdateMessageStatus hinv _ _ _ _ (Or.inl rfl)
  · obtain ⟨_, e, _, h⟩ := h
    rw [h]; exact lifecycle_UpdateMessageStatus hinv _ _ _ _ (Or.inr rfl)
  · rw [h.2.2]; exact lifecycle_DeleteMessage hinv _

theorem webhookHandler_storage (srv : Server) (h : MessageHandler) (s s1 : Store)
    (dbErr idDraw : Option String) (now : Time) (r : Request)
    (hs : (srv.webhookHandler h (some s) dbErr idDraw now r).storage = some s1) :
    s1 = s ∨ ∃ m : WebhookMessage, m.Status = "pending" ∧ m.Retries = 0 ∧
      s1 = SaveMessage s now m := by
  unfold Server.webhookHandler at hs
  cases idDraw with
  | none => left; simpa using hs.symm
  | some msgID =>
    cases hbody : r.Body with
    | none => left; simpa [hbody] using hs.symm
    | some body =>
      cases hroute : srv.routeMap.get? r.Path with
      | none => left; simpa [hbody, hroute] using hs.symm
      | some queue =>
        cases dbErr with
        | some e =>
          left
          simpa [hbody, hroute, MessageHandler.ProcessWebhook] using hs.symm
        | none =>
          right
          refine ⟨{ ID := msgID, Path := r.Path, Queue := queue, Body := body,
                    Headers := extractHeaders r.Header, Timestamp := now, Retries := 0,
                    Status := StatusPending, Error := "", CreatedAt := now, UpdatedAt := now },
            rfl, rfl, ?_⟩
          simpa [hbody, hroute, MessageHandler.ProcessWebhook] using hs.symm

theorem reachable_lifecycle {s : Store} (h : Reachable s) : LifecycleInvariant s := by
  induction h with
  | empty =>
    intro r hr
    exact absurd hr (List.not_mem_nil r)
  | ingest s s1 srv h dbErr idDraw now r _ hs ih =>
    rcases webhookHandler_storage srv h s s1 dbErr idDraw now r hs with h1 | ⟨m, hp, hr, h1⟩
    · rw [h1]; exact ih
    · rw [h1]; exact lifecycle_SaveMessage ih now m hp hr
  | schedule s w now msg _ ih => exact lifecycle_processMessage w now msg ih

/-- In every reachable table every row has a null next_retry_at: an Ingest
step saves a pending row, and the update statement of a Scheduler step stores
NULL. -/
theorem reachable_next_retry_at_null {s : Store} (h : Reachable s) :
    ∀ r ∈ s, r.next_retry_at = none :=
  fun r hr => (reachable_lifecycle h r hr).2.1

/-- C9. In every table reachable from the empty table by Ingest steps
(webhookHandler with ProcessWebhook) and Scheduler steps (processMessage),
every row with status pending has retries = 0 and a null next_retry_at. -/
theorem pending_rows_fresh (s : Store) (h : Reachable s) :
    ∀ r ∈ s, r.Status = "pending" → r.Retries = 0 ∧ r.next_retry_at = none :=
  fun r hr hp => ⟨(reachable_lifecycle h r hr).2.2 hp, (reachable_lifecycle h r hr).2.1⟩

/-- C9, at the table reached by ingesting one request. -/
theorem pending_rows_fresh_witness :
    ((NewServer (sampleConfig 0 none)).webhookHandler sampleHandler (some []) none (some "a") 10
        sampleRequest).storage = some [sampleRow "a" 10] ∧
    (sampleRow "a" 10).Status = "pending" ∧
    (sampleRow "a" 10).Retries = 0 ∧ (sampleRow "a" 10).next_retry_at = none :=
  ⟨by decide, by decide,
    pending_rows_fresh [sampleRow "a" 10]
      (Reachable.ingest [] [sampleRow "a" 10] (NewServer (sampleConfig 0 none)) sampleHandler
        none (some "a") 10 sampleRequest Reachable.empty (by decide))
      (sampleRow "a" 10) (by decide) (by decide)⟩

/-- C10, where the code departs from the claim.  One request is ingested at
time 10 and its first send fails at time 100.  The table reached holds the row
with status retrying, one retry and updated_at 100, and its next_retry_at is
null: it is not set, and the row is due at once. -/
theorem retrying_row_without_next_retry_at :
    Reachable [sampleRowAt sampleID 10 1 "retrying" "HTTP request failed with status 503: " 100
      none] ∧
    (sampleRowAt sampleID 10 1 "retrying" "HTTP request failed with status 503: " 100
      none).Status = "retrying" ∧
    (sampleRowAt sampleID 10 1 "retrying" "HTTP request failed with status 503: " 100
      none).next_retry_at = none ∧
    Due utc 100 (sampleRowAt sampleID 10 1 "retrying" "HTTP request failed with status 503: " 100
      none) := by
  refine ⟨?_, by decide, by decide, by decide⟩
  have h1 : Reachable [sampleRow sampleID 10] :=
    Reachable.ingest [] [sampleRow sampleID 10] (NewServer (sampleConfig 0 none)) sampleHandler
      none (some sampleID) 10 sampleRequest Reachable.empty (by decide)
  have h2 := Reachable.schedule [sampleRow sampleID 10] (sampleWorker 0 (some failingSink)) 100
    (scanRow (sampleRow sampleID 10)) h1
  have h3 : ((sampleWorker 0 (some failingSink)).processMessage 100
      (scanRow (sampleRow sampleID 10)) [sampleRow sampleID 10]).1 =
      [sampleRowAt sampleID 10 1 "retrying" "HTTP request failed with status 503: " 100
        none] := by decide
  rw [h3] at h2
  exact h2

/-! ## C11: retries of an id across a step -/

theorem reachable_uniqueIds {s : Store} (h : Reachable s) : UniqueIds s := by
  induction h with
  | empty => exact List.nodup_nil
  | ingest s s1 srv h dbErr idDraw now r _ hs ih =>
    rcases webhookHandler_storage srv h s s1 dbErr idDraw now r hs with h1 | ⟨m, _, _, h1⟩
    · rw [h1]; exact ih
    · rw [h1]; exact uniqueIds_SaveMessage ih now m
  | schedule s w now msg _ ih => exact uniqueIds_processMessage w now msg ih

theorem webhookHandler_saved (srv : Server) (h : MessageHandler) (s s1 : Store)
    (dbErr idDraw : Option String) (now : Time) (r : Request)
    (hs : (srv.webhookHandler h (some s) dbErr idDraw now r).storage = some s1) :
    s1 = s ∨ ∃ (m : WebhookMessage) (id : String), idDraw = some id ∧ m.ID = id ∧
      m.Status = "pending" ∧ m.Retries = 0 ∧ s1 = SaveMessage s now m := by
  unfold Server.webhookHandler at hs
  cases idDraw with
  | none => left; simpa using hs.symm
  | some msgID =>
    cases hbody : r.Body with
    | none => left; simpa [hbody] using hs.symm
    | some body =>
      cases hroute : srv.routeMap.get? r.Path with
      | none => left; simpa [hbody, hroute] using hs.symm
      | some queue =>
        cases dbErr with
        | some e =>
          left
          simpa [hbody, hroute, MessageHandler.ProcessWebhook] using hs.symm
        | none =>
          right
          refine ⟨{ ID := msgID, Path := r.Path, Queue := queue, Body := body,
                    Headers := extractHeaders r.Header, Timestamp := now, Retries := 0,
                    Status := StatusPending, Error := "", CreatedAt := now, UpdatedAt := now },
            msgID, rfl, rfl, rfl, rfl, ?_⟩
          simpa [hbody, hroute, MessageHandler.ProcessWebhook] using hs.symm

theorem updateRow_ID (now : Time) (status : MessageStatus) (error : String) (r : Row) :
    (updateRow now status error r).ID = r.ID := rfl

theorem retries_le_UpdateMessageStatus {s : Store} (hu : UniqueIds s) (now : Time) (id : String)
    (status : MessageStatus) (error : String) :
    ∀ r ∈ s, ∀ r1 ∈ UpdateMessageStatus s now id status error, r1.ID = r.ID →
      r.Retries ≤ r1.Retries := by
  intro r hr r1 hr1 hid
  obtain ⟨r0, hr0, hrr⟩ := mem_UpdateMessageStatus hr1
  by_cases h0 : r0.ID = id
  · rw [if_pos h0] at hrr
    have hsame : r0 = r := by
      apply uniqueIds_eq hu hr0 hr
      rw [← hid, hrr, updateRow_ID]
    rw [hrr, hsame]
    show r.Retries ≤ r.Retries + 1
    omega
  · rw [if_neg h0] at hrr
    have hsame : r0 = r := by
      apply uniqueIds_eq hu hr0 hr
      rw [← hid, hrr]
    rw [hrr, hsame]

/-- C11. In every reachable table, a Scheduler step (processMessage) and an
Ingest step that saves a newly built message, one whose id generateID has just
drawn and no stored row carries, leave, for each id that has a row before and
after the step, retries after >= retries before. -/
theorem retries_monotone (s : Store) (hreach : Reachable s) :
    (∀ (w : Worker) (now : Time) (msg : PendingMessage),
      ∀ r ∈ s, ∀ r1 ∈ (w.processMessage now msg s).1, r1.ID = r.ID → r.Retries ≤ r1.Retries) ∧
    (∀ (srv : Server) (h : MessageHandler) (dbErr idDraw : Option String) (now : Time)
        (req : Request) (s1 : Store),
      (srv.webhookHandler h (some s) dbErr idDraw now req).storage = some s1 →
      (∀ id, idDraw = some id → ∀ r ∈ s, r.ID ≠ id) →
      ∀ r ∈ s, ∀ r1 ∈ s1, r1.ID = r.ID → r.Retries ≤ r1.Retries) := by
  have hu := reachable_uniqueIds hreach
  constructor
  · intro w now msg r hr r1 hr1 hid
    rcases processMessage_cases w now msg s with h | h | h
    · rw [h.2.2] at hr1
      exact retries_le_UpdateMessageStatus hu _ _ _ _ r hr r1 hr1 hid
    · obtain ⟨_, e, _, h⟩ := h
      rw [h] at hr1
      exact retries_le_UpdateMessageStatus hu _ _ _ _ r hr r1 hr1 hid
    · rw [h.2.2] at hr1
      have hmem : r1 ∈ s := (List.mem_filter.mp hr1).1
      rw [uniqueIds_eq hu hmem hr hid]
  · intro srv h dbErr idDraw now req s1 hs hfresh r hr r1 hr1 hid
    rcases webhookHandler_saved srv h s s1 dbErr idDraw now req hs with
      h1 | ⟨m, id, hdraw, hmid, _, _, h1⟩
    · rw [h1] at hr1
      rw [uniqueIds_eq hu hr1 hr hid]
    · rw [h1] at hr1
      simp only [SaveMessage, List.mem_append, List.mem_singleton] at hr1
      rcases hr1 with hr1 | hr1
      · have hmem : r1 ∈ s := (List.mem_filter.mp hr1).1
        rw [uniqueIds_eq hu hmem hr hid]
      · exfalso
        apply hfresh id hdraw r hr
        rw [← hid, hr1]
        exact hmid

/-- C11, at the table reached by one ingest: a failed send raises the retries
of the stored id from 0 to 1, and an ingest under another id leaves them at
0. -/
theorem retries_monotone_witness :
    Reachable [sampleRow sampleID 10] ∧
    ((sampleWorker 0 (some failingSink)).processMessage 100 (scanRow (sampleRow sampleID 10))
        [sampleRow sampleID 10]).1 =
      [sampleRowAt sampleID 10 1 "retrying" "HTTP request failed with status 503: " 100 none] ∧
    (sampleRow sampleID 10).Retries ≤
      (sampleRowAt sampleID 10 1 "retrying" "HTTP request failed with status 503: " 100
        none).Retries ∧
    ((NewServer (sampleConfig 0 none)).webhookHandler sampleHandler
        (some [sampleRow sampleID 10]) none (some otherID) 20 sampleRequest).storage =
      some [sampleRow sampleID 10, sampleRow otherID 20] ∧
    (sampleRow sampleID 10).Retries ≤ (sampleRow sampleID 10).Retries :=
  ⟨Reachable.ingest [] [sampleRow sampleID 10] (NewServer (sampleConfig 0 none)) sampleHandler
      none (some sampleID) 10 sampleRequest Reachable.empty (by decide),
    by decide,
    (retries_monotone [sampleRow sampleID 10]
      (Reachable.ingest [] [sampleRow sampleID 10] (NewServer (sampleConfig 0 none))
        sampleHandler none (some sampleID) 10 sampleRequest Reachable.empty (by decide))).1
      (sampleWorker 0 (some failingSink)) 100 (scanRow (sampleRow sampleID 10))
      (sampleRow sampleID 10) (by decide)
      (sampleRowAt sampleID 10 1 "retrying" "HTTP request failed with status 503: " 100 none)
      (by decide) (by decide),
    by decide,
    (retries_monotone [sampleRow sampleID 10]
      (Reachable.ingest [] [sampleRow sampleID 10] (NewServer (sampleConfig 0 none))
        sampleHandler none (some sampleID) 10 sampleRequest Reachable.empty (by decide))).2
      (NewServer (sampleConfig 0 none)) sampleHandler none (some otherID) 20 sampleRequest
      [sampleRow sampleID 10, sampleRow otherID 20] (by decide)
      (fun id hid r hr => by
        have h1 : id = otherID := (Option.some.inj hid).symm
        have h2 : r = sampleRow sampleID 10 := by simpa using hr
        rw [h1, h2]
        decide)
      (sampleRow sampleID 10) (by decide) (sampleRow sampleID 10) (by decide) (by decide)⟩

/-! ## C12, C13, C14: what UpdateMessageStatus writes -/

theorem UpdateMessageStatus_row (s : Store) (now : Time) (id : String) (status : MessageStatus)
    (e : String) (r : Row) (hu : UniqueIds s) (hr : r ∈ s) (hid : r.ID = id) :
    updateRow now status e r ∈ UpdateMessageStatus s now id status e ∧
    ∀ r2 ∈ UpdateMessageStatus s now id status e, r2.ID = id → r2 = updateRow now status e r := by
  have hmem := mem_UpdateMessageStatus_of_mem hr now id status e
  rw [if_pos hid] at hmem
  refine ⟨hmem, ?_⟩
  intro r2 hr2 hid2
  apply uniqueIds_eq (uniqueIds_UpdateMessageStatus hu now id status e) hr2 hmem
  rw [hid2, updateRow_ID, hid]

theorem uniqueIds_processBatch (w : Worker) (now : Time) :
    ∀ (msgs : List PendingMessage) (s : Store), UniqueIds s →
      UniqueIds (w.processBatch now msgs s).1 := by
  intro msgs
  induction msgs with
  | nil => intro s hu; exact hu
  | cons m rest ih =>
    intro s hu
    simp only [Worker.processBatch]
    exact ih _ (uniqueIds_processMessage w now m hu)

theorem uniqueIds_processRetries (w : Worker) (zone : Zone) (now : Time) {s : Store}
    (hu : UniqueIds s) : UniqueIds (w.processRetries zone now s).1 :=
  uniqueIds_processBatch w now _ s hu

theorem ticks_keep_terminal (w : Worker) (zone : Zone) (r : Row)
    (hterminal : r.Status = "sent" ∨ r.Status = "failed") :
    ∀ (ts : List Time) (s : Store), UniqueIds s → r ∈ s →
      UniqueIds (w.ticks zone ts s) ∧ r ∈ w.ticks zone ts s := by
  intro ts
  induction ts with
  | nil => intro s hu hr; exact ⟨hu, hr⟩
  | cons t ts ih =>
    intro s hu hr
    simp only [Worker.ticks]
    apply ih _ (uniqueIds_processRetries w zone t hu)
    exact (processRetries_keeps_unclaimed w zone t s r hr
      (terminal_not_claimed hu hr hterminal zone t _)).1

/-- C12. For a stored row, UpdateMessageStatus(id, failed, e) at time now
leaves under that id exactly one row, with status failed, error e, updated_at
now and a null next_retry_at.  In every time zone, that row fails the WHERE
clause of GetPendingMessages at every instant, no GetPendingMessages call
returns its id, and any number of scheduler ticks leave the row in place, still
never returned. -/
theorem UpdateMessageStatus_failed_row (s : Store) (now : Time) (id e : String) (r : Row)
    (hu : UniqueIds s) (hr : r ∈ s) (hid : r.ID = id) :
    ∃ r1 ∈ UpdateMessageStatus s now id StatusFailed e,
      r1.ID = id ∧ r1.Status = "failed" ∧ r1.Error = e ∧ r1.UpdatedAt = now ∧
      r1.next_retry_at = none ∧
      (∀ r2 ∈ UpdateMessageStatus s now id StatusFailed e, r2.ID = id → r2 = r1) ∧
      (∀ zone t, eligible zone t r1 = false) ∧
      (∀ zone t limit,
        ∀ p ∈ GetPendingMessages zone (UpdateMessageStatus s now id StatusFailed e) t limit,
          p.ID ≠ id) ∧
      (∀ (w : Worker) (zone : Zone) (ts : List Time),
        r1 ∈ w.ticks zone ts (UpdateMessageStatus s now id StatusFailed e) ∧
        ∀ t limit,
          ∀ p ∈ GetPendingMessages zone
              (w.ticks zone ts (UpdateMessageStatus s now id StatusFailed e)) t limit,
            p.ID ≠ id) := by
  obtain ⟨hmem, huniq⟩ := UpdateMessageStatus_row s now id StatusFailed e r hu hr hid
  have hu1 := uniqueIds_UpdateMessageStatus hu now id StatusFailed e
  have hid1 : (updateRow now StatusFailed e r).ID = id := by rw [updateRow_ID, hid]
  have hterminal : (updateRow now StatusFailed e r).Status = "sent" ∨
      (updateRow now StatusFailed e r).Status = "failed" := Or.inr rfl
  have hnull : (updateRow now StatusFailed e r).next_retry_at = none :=
    updateRow_next_retry_at _ _ _ _
  refine ⟨updateRow now StatusFailed e r, hmem, hid1, rfl, rfl, rfl, hnull, huniq,
    fun zone t => terminal_not_eligible zone t _ hterminal, ?_, ?_⟩
  · intro zone t limit p hp
    rw [← hid1]
    exact terminal_not_claimed hu1 hmem hterminal zone t limit p hp
  · intro w zone ts
    obtain ⟨hu2, hmem2⟩ := ticks_keep_terminal w zone _ hterminal ts _ hu1 hmem
    refine ⟨hmem2, ?_⟩
    intro t limit p hp
    rw [← hid1]
    exact terminal_not_claimed hu2 hmem2 hterminal zone t limit p hp

/-- C12, at a concrete row: a retrying row with three retries is marked failed
at time 1000; its next_retry_at is null. -/
theorem UpdateMessageStatus_failed_row_witness :
    UpdateMessageStatus [sampleRowAt "a" 10 3 "retrying" "boom" 160 none] 1000 "a" "failed"
        "Exceeded max retries" =
      [sampleRowAt "a" 10 4 "failed" "Exceeded max retries" 1000 none] ∧
    ∃ r1 ∈ UpdateMessageStatus [sampleRowAt "a" 10 3 "retrying" "boom" 160 none] 1000 "a"
        StatusFailed "Exceeded max retries",
      r1.ID = "a" ∧ r1.Status = "failed" ∧ r1.Error = "Exceeded max retries" ∧
      r1.UpdatedAt = 1000 ∧ r1.next_retry_at = none :=
  ⟨by decide,
    (UpdateMessageStatus_failed_row [sampleRowAt "a" 10 3 "retrying" "boom" 160 none] 1000
      "a" "Exceeded max retries" (sampleRowAt "a" 10 3 "retrying" "boom" 160 none)
      (by decide) (by decide) (by decide)).imp
      (fun _ h => ⟨h.1, h.2.1, h.2.2.1, h.2.2.2.1, h.2.2.2.2.1, h.2.2.2.2.2.1⟩)⟩

/-- C13. For every stored row and every status argument, the terminal failed
included, UpdateMessageStatus leaves under that id exactly one row, whose
retries are the retries before plus 1. -/
theorem UpdateMessageStatus_increments (s : Store) (now : Time) (id : String)
    (status : MessageStatus) (e : String) (r : Row)
    (hu : UniqueIds s) (hr : r ∈ s) (hid : r.ID = id) :
    ∃ r1 ∈ UpdateMessageStatus s now id status e,
      r1.ID = id ∧ r1.Retries = r.Retries + 1 ∧
      ∀ r2 ∈ UpdateMessageStatus s now id status e, r2.ID = id → r2 = r1 := by
  obtain ⟨hmem, huniq⟩ := UpdateMessageStatus_row s now id status e r hu hr hid
  exact ⟨updateRow now status e r, hmem, by rw [updateRow_ID, hid], rfl, huniq⟩

/-- C13, at a concrete row: marking a row with three retries failed leaves it
with four. -/
theorem UpdateMessageStatus_increments_witness :
    ∃ r1 ∈ UpdateMessageStatus [sampleRowAt "a" 10 3 "retrying" "boom" 160 none] 1000 "a"
        "failed" "Exceeded max retries",
      r1.ID = "a" ∧
      r1.Retries = (sampleRowAt "a" 10 3 "retrying" "boom" 160 none).Retries + 1 ∧
      ∀ r2 ∈ UpdateMessageStatus [sampleRowAt "a" 10 3 "retrying" "boom" 160 none] 1000
        "a" "failed" "Exceeded max retries", r2.ID = "a" → r2 = r1 :=
  UpdateMessageStatus_increments [sampleRowAt "a" 10 3 "retrying" "boom" 160 none] 1000
    "a" "failed" "Exceeded max retries" (sampleRowAt "a" 10 3 "retrying" "boom" 160 none)
    (by decide) (by decide) (by decide)

/-- C14 (as stated, refuted). A row whose error text is "old" is marked
retrying with error "new": its error field afterwards is "new", not "old" with
"new" appended, and it does not begin with "old". -/
theorem UpdateMessageStatus_error_not_appended :
    UpdateMessageStatus [sampleRowAt "a" 10 1 "retrying" "old" 100 none] 1000 "a"
        "retrying" "new" =
      [sampleRowAt "a" 10 2 "retrying" "new" 1000 none] ∧
    (sampleRowAt "a" 10 2 "retrying" "new" 1000 none).Error ≠ "old" ++ "new" ∧
    ¬ ("old".toList <+: (sampleRowAt "a" 10 2 "retrying" "new" 1000 none).Error.toList) := by
  decide

/-- C14 (amended). For every stored row, whatever its error text was, after
UpdateMessageStatus(id, retrying, e) the error field of the row is exactly e:
the new text replaces the previously recorded one. -/
theorem UpdateMessageStatus_replaces_error (s : Store) (now : Time) (id e : String) (r : Row)
    (hu : UniqueIds s) (hr : r ∈ s) (hid : r.ID = id) :
    ∃ r1 ∈ UpdateMessageStatus s now id StatusRetrying e,
      r1.ID = id ∧ r1.Error = e ∧
      ∀ r2 ∈ UpdateMessageStatus s now id StatusRetrying e, r2.ID = id → r2 = r1 := by
  obtain ⟨hmem, huniq⟩ := UpdateMessageStatus_row s now id StatusRetrying e r hu hr hid
  exact ⟨updateRow now StatusRetrying e r, hmem, by rw [updateRow_ID, hid], rfl, huniq⟩

/-- C14 (amended), at a concrete row whose error text was "old". -/
theorem UpdateMessageStatus_replaces_error_witness :
    ∃ r1 ∈ UpdateMessageStatus [sampleRowAt "a" 10 1 "retrying" "old" 100 none] 1000 "a"
        StatusRetrying "new",
      r1.ID = "a" ∧ r1.Error = "new" ∧
      ∀ r2 ∈ UpdateMessageStatus [sampleRowAt "a" 10 1 "retrying" "old" 100 none] 1000
        "a" StatusRetrying "new", r2.ID = "a" → r2 = r1 :=
  UpdateMessageStatus_replaces_error [sampleRowAt "a" 10 1 "retrying" "old" 100 none] 1000
    "a" "new" (sampleRowAt "a" 10 1 "retrying" "old" 100 none)
    (by decide) (by decide) (by decide)

/-! ## C15, C16: the retention sweep -/

/-- What Cleanup(d) does for a retention window d >= 0 in the time zone of the
process: it keeps, in their order, exactly the rows that are not both of
status sent and of a local date and time of creation that, read as UTC, lies
before now minus d days.  The worker sweep is Cleanup(7). -/
theorem Cleanup_keeps (zone : Zone) (s : Store) (now : Time) (d : Int) (hd : 0 ≤ d) :
    Cleanup zone s now d =
      s.filter (fun r =>
        decide (¬ (r.Status = "sent" ∧ r.CreatedAt + zone r.CreatedAt < now - d * day))) ∧
    (∀ r, r ∈ Cleanup zone s now d ↔
      r ∈ s ∧ ¬ (r.Status = "sent" ∧ r.CreatedAt + zone r.CreatedAt < now - d * day)) ∧
    (Cleanup zone s now d).Sublist s ∧
    (∀ w : Worker, w.Cleanup zone now s = Cleanup zone s now 7) := by
  have heq : Cleanup zone s now d =
      s.filter (fun r =>
        decide (¬ (r.Status = "sent" ∧ r.CreatedAt + zone r.CreatedAt < now - d * day))) := by
    simp only [Cleanup, datetimeMinusDays, if_pos hd]
    apply List.filter_congr
    intro r _
    by_cases h1 : r.Status = "sent" <;>
      by_cases h2 : r.CreatedAt + zone r.CreatedAt < now - d * day <;>
      simp [h1, h2, StatusSent, storedBefore]
  refine ⟨heq, ?_, ?_, fun _ => rfl⟩
  · intro r
    rw [heq, List.mem_filter, decide_eq_true_eq]
  · rw [heq]
    exact List.filter_sublist s

/-- C15, where the code departs from the claim.  The sweep of the worker,
Cleanup(7), runs at 06:00:00 UTC of 2 November 2025.  In the zone of Tokyo a
sent row created 7 days and 1 hour earlier, older than the window, is kept:
its stored text shows a local time 9 hours ahead, inside the window.  In the
zone of New York a sent row created 6 days and 22 hours earlier, inside the
window, is removed.  In UTC the first row is removed and the second kept, as
the claim says, and so are the rows of the retention scenario: a sent row
created 8 days earlier is removed, a failed row of the same age is kept. -/
theorem Cleanup_window_shifts_with_zone :
    (sampleRowAt "a" (1762063200 - 7 * day - 3600) 0 "sent" "" 1761454900 none).CreatedAt <
      1762063200 - 7 * day ∧
    (sampleWorker 0 none).Cleanup tokyo 1762063200
        [sampleRowAt "a" (1762063200 - 7 * day - 3600) 0 "sent" "" 1761454900 none] =
      [sampleRowAt "a" (1762063200 - 7 * day - 3600) 0 "sent" "" 1761454900 none] ∧
    ¬ ((sampleRowAt "b" (1762063200 - 7 * day + 7200) 0 "sent" "" 1761465700 none).CreatedAt <
      1762063200 - 7 * day) ∧
    (sampleWorker 0 none).Cleanup newYork 1762063200
        [sampleRowAt "b" (1762063200 - 7 * day + 7200) 0 "sent" "" 1761465700 none] = [] ∧
    (sampleWorker 0 none).Cleanup utc 1762063200
        [sampleRowAt "a" (1762063200 - 7 * day - 3600) 0 "sent" "" 1761454900 none,
         sampleRowAt "b" (1762063200 - 7 * day + 7200) 0 "sent" "" 1761465700 none] =
      [sampleRowAt "b" (1762063200 - 7 * day + 7200) 0 "sent" "" 1761465700 none] ∧
    Cleanup utc
        [sampleRowAt "c" (1762063200 - 8 * day) 0 "sent" "" 1761372100 none,
         sampleRowAt "d" (1762063200 - 8 * day) 3 "failed" "Exceeded max retries" 1761372100
           none] 1762063200 7 =
      [sampleRowAt "d" (1762063200 - 8 * day) 3 "failed" "Exceeded max retries" 1761372100
        none] := by
  decide

/-- C16. Cleanup is idempotent: for every table, retention window and time, in
every time zone, running Cleanup twice at the same time yields the table that
running it once yields. -/
theorem Cleanup_idempotent (zone : Zone) (s : Store) (now : Time) (d : Int) :
    Cleanup zone (Cleanup zone s now d) now d = Cleanup zone s now d := by
  unfold Cleanup
  cases datetimeMinusDays now d with
  | none => rfl
  | some cutoff =>
    simp only [List.filter_filter, Bool.and_self]

/-! ## C17: the status histogram -/

theorem CountMap.set_of_not_mem (m : CountMap) (k : String) (v : Nat)
    (h : k ∉ m.map Prod.fst) : m.set k v = (k, v) :: m := by
  unfold CountMap.set
  congr 1
  apply List.filter_eq_self.mpr
  intro e he
  have : e.1 ≠ k := by
    intro hk
    exact h (List.mem_map.mpr ⟨e, he, hk⟩)
  simpa using this

theorem foldl_set_of_nodup :
    ∀ (rows : List (String × Nat)) (acc : CountMap),
      (rows.map Prod.fst).Nodup → (∀ k ∈ rows.map Prod.fst, k ∉ acc.map Prod.fst) →
      rows.foldl (fun stats row => CountMap.set stats row.1 row.2) acc = rows.reverse ++ acc := by
  intro rows
  induction rows with
  | nil => intro acc _ _; rfl
  | cons x rows ih =>
    intro acc hnd hdisj
    rw [List.map_cons, List.nodup_cons] at hnd
    have hx : x.1 ∉ acc.map Prod.fst := hdisj x.1 (by simp)
    rw [List.foldl_cons, CountMap.set_of_not_mem acc x.1 x.2 hx]
    rw [ih ((x.1, x.2) :: acc) hnd.2]
    · simp
    · intro k hk
      rw [List.map_cons, List.mem_cons]
      rintro (h | h)
      · exact hnd.1 (h ▸ hk)
      · exact hdisj k (by simp [List.mem_map] at hk ⊢; exact Or.inr hk) h

theorem groupByStatus_keys (s : Store) :
    (groupByStatus s).map Prod.fst = (s.map (fun r => r.Status)).dedup := by
  unfold groupByStatus
  rw [List.map_map]
  exact List.map_id _

theorem GetMessageStats_eq (s : Store) : GetMessageStats s = (groupByStatus s).reverse := by
  unfold GetMessageStats
  rw [foldl_set_of_nodup (groupByStatus s) []]
  · simp
  · rw [groupByStatus_keys]; exact List.nodup_dedup _
  · intro k _; simp

theorem get?_of_nodup :
    ∀ (m : CountMap), (m.map Prod.fst).Nodup → ∀ (k : String) (v : Nat),
      m.get? k = some v ↔ (k, v) ∈ m := by
  intro m
  induction m with
  | nil => intro _ k v; simp [CountMap.get?]
  | cons x m ih =>
    intro hnd k v
    rw [List.map_cons, List.nodup_cons] at hnd
    by_cases hk : x.1 = k
    · have hget : CountMap.get? (x :: m) k = some x.2 := by
        simp [CountMap.get?, List.find?_cons, hk]
      rw [hget]
      constructor
      · intro h
        have hv : x.2 = v := Option.some.inj h
        rw [← hv, ← hk]
        exact List.mem_cons_self _ _
      · intro h
        rcases List.mem_cons.mp h with h | h
        · rw [← h]
        · exfalso
          apply hnd.1
          rw [hk]
          exact List.mem_map.mpr ⟨(k, v), h, rfl⟩
    · have hget : CountMap.get? (x :: m) k = CountMap.get? m k := by
        simp [CountMap.get?, List.find?_cons, hk]
      rw [hget, ih hnd.2 k v]
      constructor
      · intro h; exact List.mem_cons_of_mem _ h
      · intro h
        rcases List.mem_cons.mp h with h | h
        · exact absurd (by rw [← h]) hk
        · exact h

theorem count_status (s : Store) (status : String) :
    (s.map (fun r => r.Status)).count status =
      (s.filter (fun r => r.Status = status)).length := by
  induction s with
  | nil => rfl
  | cons r s ih =>
    by_cases h : r.Status = status
    · simp [List.filter_cons, h, ih]
    · have h2 : ¬ (r.Status == status) = true := by simpa using h
      simp [List.filter_cons, h, ih, List.count_cons, h2]

theorem mem_groupByStatus (s : Store) (status : String) (n : Nat) :
    (status, n) ∈ groupByStatus s ↔
      0 < n ∧ n = (s.filter (fun r => r.Status = status)).length := by
  unfold groupByStatus
  rw [List.mem_map]
  constructor
  · rintro ⟨st, hst, heq⟩
    have h1 : st = status := congrArg Prod.fst heq
    have h2 : (s.map (fun r => r.Status)).count st = n := congrArg Prod.snd heq
    rw [h1] at hst h2
    have hmem : status ∈ s.map (fun r => r.Status) := List.mem_dedup.mp hst
    have hpos : 0 < (s.map (fun r => r.Status)).count status := List.count_pos_iff.mpr hmem
    rw [h2] at hpos
    exact ⟨hpos, by rw [← h2, count_status]⟩
  · rintro ⟨hpos, hn⟩
    rw [← count_status] at hn
    refine ⟨status, ?_, by rw [hn]⟩
    apply List.mem_dedup.mpr
    apply List.count_pos_iff.mp
    rw [← hn]
    exact hpos

/-- C17. GetMessageStats returns the histogram of the rows by status: the map
has at most one entry per status; a status has the entry n exactly when n > 0
rows carry it and n is their number; a status that no row carries has no
entry; and the counts add up to the number of rows. -/
theorem GetMessageStats_histogram (s : Store) :
    ((GetMessageStats s).map Prod.fst).Nodup ∧
    (∀ (status : String) (n : Nat),
      (GetMessageStats s).get? status = some n ↔
        0 < n ∧ n = (s.filter (fun r => r.Status = status)).length) ∧
    (∀ status : String,
      (GetMessageStats s).get? status = none ↔ ∀ r ∈ s, r.Status ≠ status) ∧
    ((GetMessageStats s).map Prod.snd).sum = s.length := by
  have hnd : ((GetMessageStats s).map Prod.fst).Nodup := by
    rw [GetMessageStats_eq, List.map_reverse, List.nodup_reverse, groupByStatus_keys]
    exact List.nodup_dedup _
  have hsome : ∀ (status : String) (n : Nat),
      (GetMessageStats s).get? status = some n ↔
        0 < n ∧ n = (s.filter (fun r => r.Status = status)).length := by
    intro status n
    rw [get?_of_nodup _ hnd, GetMessageStats_eq, List.mem_reverse, mem_groupByStatus]
  refine ⟨hnd, hsome, ?_, ?_⟩
  · intro status
    constructor
    · intro hnone r hr hst
      have hmem : r ∈ s.filter (fun r => r.Status = status) :=
        List.mem_filter.mpr ⟨hr, by simpa using hst⟩
      have hpos : 0 < (s.filter (fun r => r.Status = status)).length :=
        List.length_pos_of_mem hmem
      have := (hsome status _).mpr ⟨hpos, rfl⟩
      rw [hnone] at this
      exact Option.noConfusion this
    · intro hall
      cases hget : (GetMessageStats s).get? status with
      | none => rfl
      | some n =>
        exfalso
        obtain ⟨hpos, hn⟩ := (hsome status n).mp hget
        rw [hn] at hpos
        obtain ⟨r, hr⟩ := List.exists_mem_of_length_pos hpos
        have := List.mem_filter.mp hr
        exact hall r this.1 (by simpa using this.2)
  · rw [GetMessageStats_eq, List.map_reverse, List.sum_reverse]
    have hmap : (groupByStatus s).map Prod.snd =
        ((s.map (fun r => r.Status)).dedup).map
          (fun status => (s.map (fun r => r.Status)).count status) := by
      unfold groupByStatus
      rw [List.map_map]
      rfl
    rw [hmap, List.sum_map_count_dedup_eq_length, List.length_map]

/-- C17, at a concrete table with two pending rows and one failed row. -/
theorem GetMessageStats_histogram_witness :
    (GetMessageStats [sampleRow "a" 10, sampleRowAt "b" 20 3 "failed" "boom" 30 none,
        sampleRow "c" 40]).get? "pending" = some 2 ∧
    (GetMessageStats [sampleRow "a" 10, sampleRowAt "b" 20 3 "failed" "boom" 30 none,
        sampleRow "c" 40]).get? "failed" = some 1 ∧
    (GetMessageStats [sampleRow "a" 10, sampleRowAt "b" 20 3 "failed" "boom" 30 none,
        sampleRow "c" 40]).get? "sent" = none ∧
    ((GetMessageStats [sampleRow "a" 10, sampleRowAt "b" 20 3 "failed" "boom" 30 none,
        sampleRow "c" 40]).map Prod.snd).sum =
      [sampleRow "a" 10, sampleRowAt "b" 20 3 "failed" "boom" 30 none, sampleRow "c" 40].length :=
  ⟨by decide, by decide, by decide,
    (GetMessageStats_histogram [sampleRow "a" 10, sampleRowAt "b" 20 3 "failed" "boom" 30 none,
      sampleRow "c" 40]).2.2.2⟩

/-! ## C18: the delivery target -/

/-- C18 (as stated, refuted). A configuration that has a remote_url block with
an empty url selects the Kafka producer, and a claimed message is sent to Kafka
although an HTTP client is present. -/
theorem getDeliveryTarget_block_without_url :
    (sampleConfig 0 (some { URL := "", Timeout := 30000000000, Retries := 3 })).RemoteURL.isSome
      = true ∧
    (Worker.getDeliveryTarget
      { kafkaProducer := some acceptingSink, httpClient := some acceptingSink,
        config := sampleConfig 0 (some { URL := "", Timeout := 30000000000, Retries := 3 }) }).Type_
      = TargetKafka ∧
    (Worker.processMessage
      { kafkaProducer := some acceptingSink, httpClient := some acceptingSink,
        config := sampleConfig 0 (some { URL := "", Timeout := 30000000000, Retries := 3 }) }
      100 (scanRow (sampleRow "a" 10)) [sampleRow "a" 10]).2 =
      [Call.KafkaSendMessage (sampleMsg "a" 10), Call.DeleteMessage "a"] := by
  decide

/-- C18 (amended). The worker selects the HTTP sink if and only if the
configuration has a remote_url block whose url is not empty, and the Kafka sink
otherwise; every message is dispatched to the sink so selected, and two workers
with the same configuration select the same target. -/
theorem getDeliveryTarget_selects (w : Worker) :
    (w.getDeliveryTarget.Type_ = TargetRemoteURL ↔
      ∃ remote, w.config.RemoteURL = some remote ∧ remote.URL ≠ "") ∧
    (w.getDeliveryTarget.Type_ = TargetKafka ↔
      ¬ ∃ remote, w.config.RemoteURL = some remote ∧ remote.URL ≠ "") ∧
    (∀ msg, (∃ remote, w.config.RemoteURL = some remote ∧ remote.URL ≠ "") →
      w.send msg = w.sendToRemoteURL msg) ∧
    (∀ msg, (¬ ∃ remote, w.config.RemoteURL = some remote ∧ remote.URL ≠ "") →
      w.send msg = w.sendToKafka msg) ∧
    (∀ w2 : Worker, w2.config = w.config → w2.getDeliveryTarget = w.getDeliveryTarget) := by
  have hne : TargetRemoteURL ≠ TargetKafka := by decide
  have hcases : (∃ remote, w.config.RemoteURL = some remote ∧ remote.URL ≠ "") ∧
        w.getDeliveryTarget.Type_ = TargetRemoteURL ∨
      (¬ ∃ remote, w.config.RemoteURL = some remote ∧ remote.URL ≠ "") ∧
        w.getDeliveryTarget.Type_ = TargetKafka := by
    unfold Worker.getDeliveryTarget
    cases hr : w.config.RemoteURL with
    | none => right; simp
    | some remote =>
      by_cases hurl : remote.URL = ""
      · right; simp [hurl]
      · left; simp [hurl]
  refine ⟨?_, ?_, ?_, ?_, ?_⟩
  · rcases hcases with ⟨h1, h2⟩ | ⟨h1, h2⟩
    · exact ⟨fun _ => h1, fun _ => h2⟩
    · exact ⟨fun h => absurd (h2.symm.trans h).symm hne, fun h => absurd h h1⟩
  · rcases hcases with ⟨h1, h2⟩ | ⟨h1, h2⟩
    · exact ⟨fun h => absurd (h2.symm.trans h) hne, fun h => absurd h1 h⟩
    · exact ⟨fun _ => h1, fun _ => h2⟩
  · rintro msg ⟨remote, hr, hurl⟩
    exact send_remote w msg remote hr hurl
  · intro msg h
    exact send_kafka w msg h
  · intro w2 h2
    unfold Worker.getDeliveryTarget
    rw [h2]

/-- C18 (amended), at two configurations: a remote_url block with a url selects
the HTTP sink, no block selects Kafka. -/
theorem getDeliveryTarget_selects_witness :
    (Worker.getDeliveryTarget
      { kafkaProducer := none, httpClient := some acceptingSink,
        config := sampleConfig 0
          (some { URL := "http://remote/hook", Timeout := 30000000000, Retries := 3 }) }).Type_
      = TargetRemoteURL ∧
    (sampleWorker 0 (some acceptingSink)).getDeliveryTarget.Type_ = TargetKafka :=
  ⟨(getDeliveryTarget_selects
      { kafkaProducer := none, httpClient := some acceptingSink,
        config := sampleConfig 0
          (some { URL := "http://remote/hook", Timeout := 30000000000, Retries := 3 }) }).1.mpr
      ⟨{ URL := "http://remote/hook", Timeout := 30000000000, Retries := 3 }, rfl, by decide⟩,
    by decide⟩

/-! ## C19: ProcessWebhook -/

/-- C19. ProcessWebhook returns an error if and only if no storage is
configured or SaveMessage fails.  With storage present it calls SaveMessage
exactly once, with the message whose status is set to pending, and makes no
other call; without storage it makes no call at all.  In no case does it call a
sink.  On success the table is the result of that SaveMessage; on an error the
table is unchanged. -/
theorem ProcessWebhook_contract (h : MessageHandler) (storage : Option Store)
    (dbErr : Option String) (now : Time) (msg : WebhookMessage) :
    ((h.ProcessWebhook storage dbErr now msg).err ≠ none ↔ storage = none ∨ dbErr ≠ none) ∧
    (∀ s, storage = some s →
      (h.ProcessWebhook storage dbErr now msg).calls =
        [Call.SaveMessage { msg with Status := "pending" }]) ∧
    (storage = none → (h.ProcessWebhook storage dbErr now msg).calls = []) ∧
    (∀ c ∈ (h.ProcessWebhook storage dbErr now msg).calls,
      c.isSend = false ∧ ∃ m, c = Call.SaveMessage m ∧ m.Status = "pending") ∧
    (∀ s, storage = some s → dbErr = none →
      (h.ProcessWebhook storage dbErr now msg).storage =
        some (SaveMessage s now { msg with Status := "pending" })) ∧
    ((h.ProcessWebhook storage dbErr now msg).err ≠ none →
      (h.ProcessWebhook storage dbErr now msg).storage = storage) := by
  cases storage with
  | none => simp [MessageHandler.ProcessWebhook]
  | some s =>
    cases dbErr with
    | none => simp [MessageHandler.ProcessWebhook, Call.isSend]
    | some e => simp [MessageHandler.ProcessWebhook, Call.isSend]

/-- C19, the three cases of the handler test: a successful save, a storage
error, and no storage configured. -/
theorem ProcessWebhook_contract_witness :
    (sampleHandler.ProcessWebhook (some []) none 10 (sampleMsg "test-id" 10)).err = none ∧
    (sampleHandler.ProcessWebhook (some []) none 10 (sampleMsg "test-id" 10)).storage =
      some [sampleRow "test-id" 10] ∧
    (sampleHandler.ProcessWebhook (some []) (some "storage error") 10
      (sampleMsg "test-id" 10)).err =
      some "failed to save message to storage: storage error" ∧
    (sampleHandler.ProcessWebhook none none 10 (sampleMsg "test-id" 10)).err =
      some "storage is not configured" ∧
    (sampleHandler.ProcessWebhook (some []) none 10 (sampleMsg "test-id" 10)).calls =
      [Call.SaveMessage { sampleMsg "test-id" 10 with Status := "pending" }] :=
  ⟨by decide, by decide, by decide, by decide,
    (ProcessWebhook_contract sampleHandler (some []) none 10 (sampleMsg "test-id" 10)).2.1 []
      rfl⟩

/-! ## C20: the webhook endpoint acknowledges what was saved -/

/-- C20. webhookHandler invokes ProcessWebhook at most once.  It responds 200
if and only if it invoked ProcessWebhook and that call returned success; in
that case the table is the table before with one message saved into it, and
the message_id of the response is the id of that saved message.  A body read
failure yields 400 and a store failure yields 500; every response other than
200 leaves the table unchanged and carries no message_id. -/
theorem webhookHandler_acknowledges (srv : Server) (h : MessageHandler)
    (storage : Option Store) (dbErr idDraw : Option String) (now : Time) (r : Request) :
    ((srv.webhookHandler h storage dbErr idDraw now r).calls.filter
      Call.isProcessWebhook).length ≤ 1 ∧
    ((srv.webhookHandler h storage dbErr idDraw now r).StatusCode = 200 ↔
      ∃ msg, Call.ProcessWebhook msg ∈ (srv.webhookHandler h storage dbErr idDraw now r).calls ∧
        (h.ProcessWebhook storage dbErr now msg).err = none) ∧
    ((srv.webhookHandler h storage dbErr idDraw now r).StatusCode = 200 →
      ∃ (s : Store) (msg : WebhookMessage), storage = some s ∧
        (srv.webhookHandler h storage dbErr idDraw now r).storage =
          some (SaveMessage s now msg) ∧
        (srv.webhookHandler h storage dbErr idDraw now r).message_id = some msg.ID ∧
        idDraw = some msg.ID ∧
        (srv.webhookHandler h storage dbErr idDraw now r).calls =
          [Call.ProcessWebhook msg, Call.SaveMessage msg]) ∧
    (∀ id, idDraw = some id → r.Body = none →
      (srv.webhookHandler h storage dbErr idDraw now r).StatusCode = 400 ∧
      (srv.webhookHandler h storage dbErr idDraw now r).calls = []) ∧
    (∀ id body queue s e, idDraw = some id → r.Body = some body →
      srv.routeMap.get? r.Path = some queue → storage = some s → dbErr = some e →
      (srv.webhookHandler h storage dbErr idDraw now r).StatusCode = 500) ∧
    ((srv.webhookHandler h storage dbErr idDraw now r).StatusCode ≠ 200 →
      (srv.webhookHandler h storage dbErr idDraw now r).storage = storage ∧
      (srv.webhookHandler h storage dbErr idDraw now r).message_id = none) := by
  unfold Server.webhookHandler
  cases idDraw with
  | none => simp
  | some msgID =>
    cases hbody : r.Body with
    | none => simp
    | some body =>
      cases hroute : srv.routeMap.get? r.Path with
      | none => simp
      | some queue =>
        cases storage with
        | none => simp [MessageHandler.ProcessWebhook, Call.isProcessWebhook]
        | some s =>
          cases dbErr with
          | some e => simp [MessageHandler.ProcessWebhook, Call.isProcessWebhook]
          | none =>
            simp only [MessageHandler.ProcessWebhook]
            refine ⟨by simp [Call.isProcessWebhook], ?_, ?_, by simp, by simp, by simp⟩
            · simp
            · intro _
              exact ⟨s, { ID := msgID, Path := r.Path, Queue := queue, Body := body,
                          Headers := extractHeaders r.Header, Timestamp := now, Retries := 0,
                          Status := StatusPending, Error := "", CreatedAt := now,
                          UpdatedAt := now }, rfl, rfl, rfl, rfl, rfl⟩

/-- C20, at concrete requests: an accepted request answers 200 with the id of
the saved row, a body read failure answers 400, a store failure answers 500,
and neither failure changes the table. -/
theorem webhookHandler_acknowledges_witness :
    ((NewServer (sampleConfig 0 none)).webhookHandler sampleHandler (some []) none
        (some sampleID) 10 sampleRequest).StatusCode = 200 ∧
    ((NewServer (sampleConfig 0 none)).webhookHandler sampleHandler (some []) none
        (some sampleID) 10 sampleRequest).message_id = some sampleID ∧
    ((NewServer (sampleConfig 0 none)).webhookHandler sampleHandler (some []) none
        (some sampleID) 10 sampleRequest).storage = some [sampleRow sampleID 10] ∧
    ((NewServer (sampleConfig 0 none)).webhookHandler sampleHandler (some []) none
        (some sampleID) 10 { sampleRequest with Body := none }).StatusCode = 400 ∧
    ((NewServer (sampleConfig 0 none)).webhookHandler sampleHandler (some [])
        (some "disk I/O error") (some sampleID) 10 sampleRequest).StatusCode = 500 ∧
    ((NewServer (sampleConfig 0 none)).webhookHandler sampleHandler (some [])
        (some "disk I/O error") (some sampleID) 10 sampleRequest).storage = some [] :=
  ⟨by decide, by decide, by decide,
    ((webhookHandler_acknowledges (NewServer (sampleConfig 0 none)) sampleHandler (some []) none
      (some sampleID) 10 { sampleRequest with Body := none }).2.2.2.1 sampleID rfl rfl).1,
    by decide,
    ((webhookHandler_acknowledges (NewServer (sampleConfig 0 none)) sampleHandler (some [])
      (some "disk I/O error") (some sampleID) 10 sampleRequest).2.2.2.2.2 (by decide)).1⟩

/-! ## C30: the frame of UpdateMessageStatus -/

theorem UpdateMessageStatus_of_absent (s : Store) (now : Time) (id : String)
    (status : MessageStatus) (e : String) (h : ∀ r ∈ s, r.ID ≠ id) :
    UpdateMessageStatus s now id status e = s := by
  unfold UpdateMessageStatus
  conv_rhs => rw [← List.map_id s]
  apply List.map_congr_left
  intro r hr
  rw [if_neg (h r hr)]
  rfl

/-- C30. UpdateMessageStatus(id, status, e) rewrites the table row by row, in
place: a row whose id is not id is unchanged, and the row whose id is id keeps
its id, path, queue, body, headers, timestamp and created_at (only status,
error, updated_at, retries and next_retry_at are assigned).  When no row has
that id the table is unchanged, and the call reports success all the same. -/
theorem UpdateMessageStatus_frame (s : Store) (now : Time) (id : String)
    (status : MessageStatus) (e : String) :
    List.Forall₂ (fun r r1 => (r.ID = id → SameFrame r r1) ∧ (r.ID ≠ id → r1 = r))
      s (UpdateMessageStatus s now id status e) ∧
    (∀ r1 ∈ UpdateMessageStatus s now id status e, r1.ID ≠ id → r1 ∈ s) ∧
    ((∀ r ∈ s, r.ID ≠ id) →
      UpdateMessageStatus s now id status e = s ∧
      UpdateMessageStatusExec none s now id status e = (none, s)) := by
  refine ⟨?_, ?_, ?_⟩
  · induction s with
    | nil => exact List.Forall₂.nil
    | cons r s ih =>
      unfold UpdateMessageStatus at ih ⊢
      rw [List.map_cons]
      refine List.Forall₂.cons ⟨fun h => ?_, fun h => ?_⟩ ih
      · rw [if_pos h]
        exact ⟨rfl, rfl, rfl, rfl, rfl, rfl, rfl⟩
      · rw [if_neg h]
  · intro r1 hr1 hne
    obtain ⟨r, hr, hrr⟩ := mem_UpdateMessageStatus hr1
    by_cases h : r.ID = id
    · rw [if_pos h] at hrr
      exact absurd (by rw [hrr, updateRow_ID, h]) hne
    · rw [if_neg h] at hrr
      rw [hrr]; exact hr
  · intro h
    have heq := UpdateMessageStatus_of_absent s now id status e h
    exact ⟨heq, by simp [UpdateMessageStatusExec, heq]⟩

/-- C30, at a concrete table: an update under an id that no row carries leaves
the table as it is and returns no error; an update of row "a" leaves row "b"
alone. -/
theorem UpdateMessageStatus_frame_witness :
    UpdateMessageStatus [sampleRow "a" 10, sampleRow "b" 20] 100 "a" "retrying" "boom" =
      [sampleRowAt "a" 10 1 "retrying" "boom" 100 none, sampleRow "b" 20] ∧
    UpdateMessageStatus [sampleRow "a" 10, sampleRow "b" 20] 100 "zz" "failed" "boom" =
      [sampleRow "a" 10, sampleRow "b" 20] ∧
    UpdateMessageStatusExec none [sampleRow "a" 10, sampleRow "b" 20] 100 "zz" "failed" "boom" =
      (none, [sampleRow "a" 10, sampleRow "b" 20]) :=
  ⟨by decide,
    ((UpdateMessageStatus_frame [sampleRow "a" 10, sampleRow "b" 20] 100 "zz" "failed"
      "boom").2.2 (by decide)).1,
    ((UpdateMessageStatus_frame [sampleRow "a" 10, sampleRow "b" 20] 100 "zz" "failed"
      "boom").2.2 (by decide)).2⟩

/-! ## C23: Validate -/

theorem validateRoutes_none (routes : List RouteConfig) :
    ∀ i, validateRoutes i routes = none ↔ ∀ route ∈ routes, route.Complete := by
  induction routes with
  | nil => intro i; simp [validateRoutes]
  | cons route rest ih =>
    intro i
    unfold validateRoutes
    by_cases hp : route.Path = ""
    · simp [hp, RouteConfig.Complete]
    · by_cases hq : route.Queue = ""
      · simp [hp, hq, RouteConfig.Complete]
      · simp [hp, hq, ih (i + 1), RouteConfig.Complete]

theorem validateRoutes_first (pre : List RouteConfig) (route : RouteConfig)
    (post : List RouteConfig) (hpre : ∀ r ∈ pre, r.Complete) :
    ∀ i, validateRoutes i (pre ++ route :: post) =
      if route.Path = "" then some ("route[" ++ toString (i + pre.length) ++ "].path is required")
      else if route.Queue = "" then
        some ("route[" ++ toString (i + pre.length) ++ "].queue is required")
      else validateRoutes (i + pre.length + 1) post := by
  induction pre with
  | nil => intro i; simp [validateRoutes]
  | cons r pre ih =>
    intro i
    have hr := hpre r (List.mem_cons_self _ _)
    have hrest : ∀ x ∈ pre, x.Complete := fun x hx => hpre x (List.mem_cons_of_mem _ hx)
    rw [List.cons_append, validateRoutes, if_neg hr.1, if_neg hr.2, ih hrest (i + 1)]
    have hidx : i + 1 + pre.length = i + (r :: pre).length := by
      simp [List.length_cons]; omega
    rw [hidx]

/-- C23. Validate returns nil exactly when server.host is not empty,
server.port is not zero, there is at least one route, every route has a path
and a queue, and remote_url is absent or sqlite is present.  Otherwise it
returns the error of the first violated rule in that order: the host, the
port, the absence of routes, the first route (smallest index i) that lacks a
path or, having a path, lacks a queue, and last remote_url without sqlite. -/
theorem Validate_rules (c : Config) :
    (c.Validate = none ↔
      c.Server.Host ≠ "" ∧ c.Server.Port ≠ 0 ∧ c.Routes ≠ [] ∧
      (∀ route ∈ c.Routes, route.Path ≠ "" ∧ route.Queue ≠ "") ∧
      (c.RemoteURL = none ∨ c.SQLite ≠ none)) ∧
    (c.Server.Host = "" → c.Validate = some "server.host is required") ∧
    (c.Server.Host ≠ "" → c.Server.Port = 0 → c.Validate = some "server.port is required") ∧
    (c.Server.Host ≠ "" → c.Server.Port ≠ 0 → c.Routes = [] →
      c.Validate = some "at least one route must be configured") ∧
    (∀ pre route post, c.Server.Host ≠ "" → c.Server.Port ≠ 0 →
      c.Routes = pre ++ route :: post → (∀ r ∈ pre, r.Path ≠ "" ∧ r.Queue ≠ "") →
      (route.Path = "" →
        c.Validate = some ("route[" ++ toString pre.length ++ "].path is required")) ∧
      (route.Path ≠ "" → route.Queue = "" →
        c.Validate = some ("route[" ++ toString pre.length ++ "].queue is required"))) ∧
    (c.Server.Host ≠ "" → c.Server.Port ≠ 0 → c.Routes ≠ [] →
      (∀ route ∈ c.Routes, route.Path ≠ "" ∧ route.Queue ≠ "") →
      c.RemoteURL ≠ none → c.SQLite = none →
      c.Validate = some "sqlite configuration is required when remote_url is specified") := by
  have hlen : c.Routes.length = 0 ↔ c.Routes = [] := List.length_eq_zero
  refine ⟨?_, ?_, ?_, ?_, ?_, ?_⟩
  · unfold Config.Validate
    by_cases hh : c.Server.Host = ""
    · simp [hh]
    · by_cases hp : c.Server.Port = 0
      · simp [hh, hp]
      · by_cases hr : c.Routes = []
        · simp [hh, hp, hr]
        · have hr2 : ¬ c.Routes.length = 0 := fun h => hr (hlen.mp h)
          rw [if_neg hh, if_neg hp, if_neg hr2]
          cases hv : validateRoutes 0 c.Routes with
          | some e =>
            have hnot : ¬ ∀ route ∈ c.Routes, route.Complete := by
              intro hall
              rw [(validateRoutes_none c.Routes 0).mpr hall] at hv
              exact Option.noConfusion hv
            simp only [false_iff, reduceCtorEq]
            intro hcon
            exact hnot hcon.2.2.2.1
          | none =>
            have hall := (validateRoutes_none c.Routes 0).mp hv
            by_cases hs : c.RemoteURL ≠ none ∧ c.SQLite = none
            · simp only [if_pos hs, false_iff, reduceCtorEq]
              rintro ⟨_, _, _, _, h | h⟩
              · exact hs.1 h
              · exact h hs.2
            · simp only [if_neg hs, true_iff]
              refine ⟨hh, hp, hr, hall, ?_⟩
              by_cases h1 : c.RemoteURL = none
              · exact Or.inl h1
              · right
                intro h2
                exact hs ⟨h1, h2⟩
  · intro hh
    simp [Config.Validate, hh]
  · intro hh hp
    simp [Config.Validate, hh, hp]
  · intro hh hp hr
    simp [Config.Validate, hh, hp, hr]
  · intro pre route post hh hp hroutes hpre
    have hr2 : ¬ c.Routes.length = 0 := by
      rw [hroutes]; simp
    have hv := validateRoutes_first pre route post hpre 0
    rw [← hroutes, Nat.zero_add] at hv
    constructor
    · intro hpath
      rw [if_pos hpath] at hv
      simp only [Config.Validate, if_neg hh, if_neg hp, if_neg hr2, hv]
    · intro hpath hqueue
      rw [if_neg hpath, if_pos hqueue] at hv
      simp only [Config.Validate, if_neg hh, if_neg hp, if_neg hr2, hv]
  · intro hh hp hr hall hremote hsqlite
    have hr2 : ¬ c.Routes.length = 0 := fun h => hr (hlen.mp h)
    have hv := (validateRoutes_none c.Routes 0).mpr hall
    simp only [Config.Validate, if_neg hh, if_neg hp, if_neg hr2, hv]
    rw [if_pos ⟨hremote, hsqlite⟩]

/-- C23, the cases of the validation test: the valid configuration, a second
route without a path, and remote_url without sqlite. -/
theorem Validate_rules_witness :
    (testConfig "localhost" 8080 [{ Path := "/webhook/test", Queue := "test-queue" }] none
      none).Validate = none ∧
    (testConfig "localhost" 8080 [{ Path := "/webhook/test", Queue := "test-queue" },
      { Path := "", Queue := "q" }] none none).Validate = some "route[1].path is required" ∧
    (testConfig "localhost" 8080 [{ Path := "/webhook/test", Queue := "test-queue" }] none
      (some { URL := "http://example.com", Timeout := 0, Retries := 0 })).Validate =
      some "sqlite configuration is required when remote_url is specified" :=
  ⟨by decide, by decide,
    (Validate_rules (testConfig "localhost" 8080
      [{ Path := "/webhook/test", Queue := "test-queue" }] none
      (some { URL := "http://example.com", Timeout := 0, Retries := 0 }))).2.2.2.2.2
      (by decide) (by decide) (by decide) (by decide) (by decide) (by decide)⟩

/-! ## C24: setDefaults -/

theorem kafkaDefaults_idem (k : KafkaConfig) :
    k.setDefaults.setDefaults = k.setDefaults := by
  unfold KafkaConfig.setDefaults
  by_cases h1 : k.RetryMax = 0 <;> by_cases h2 : k.RetryBackoff = 0 <;>
    by_cases h3 : k.BatchSize = 0 <;> by_cases h4 : k.Timeout = 0 <;>
    simp [h1, h2, h3, h4, second]

theorem remoteDefaults_idem (r : RemoteURLConfig) :
    r.setDefaults.setDefaults = r.setDefaults := by
  unfold RemoteURLConfig.setDefaults
  by_cases h1 : r.Timeout = 0 <;> by_cases h2 : r.Retries = 0 <;> simp [h1, h2, second]

theorem workerDefaults_idem (w : WorkerConfig) :
    w.setDefaults.setDefaults = w.setDefaults := by
  unfold WorkerConfig.setDefaults
  by_cases h1 : w.RetryInterval = 0 <;> by_cases h2 : w.BatchSize = 0 <;>
    simp [h1, h2, second]

/-- C24. After setDefaults every defaulted field that was zero holds its
default (kafka retry_max 3, retry_backoff 2 s, batch_size 100, timeout 30 s;
remote_url timeout 30 s, retries 3; worker retry_interval 5 min, batch_size
50) and every such field that was not zero is unchanged.  worker.max_retries,
the other kafka and remote_url fields and the server, routes, redis, sqlite and
nginx blocks are unchanged, an absent kafka or remote_url block stays absent,
and applying setDefaults twice gives what applying it once gives. -/
theorem setDefaults_spec (c : Config) :
    (∀ k, c.Kafka = some k → ∃ k1, c.setDefaults.Kafka = some k1 ∧
      (k.RetryMax = 0 → k1.RetryMax = 3) ∧ (k.RetryMax ≠ 0 → k1.RetryMax = k.RetryMax) ∧
      (k.RetryBackoff = 0 → k1.RetryBackoff = 2 * second) ∧
      (k.RetryBackoff ≠ 0 → k1.RetryBackoff = k.RetryBackoff) ∧
      (k.BatchSize = 0 → k1.BatchSize = 100) ∧ (k.BatchSize ≠ 0 → k1.BatchSize = k.BatchSize) ∧
      (k.Timeout = 0 → k1.Timeout = 30 * second) ∧ (k.Timeout ≠ 0 → k1.Timeout = k.Timeout) ∧
      k1.Brokers = k.Brokers ∧ k1.SecurityProtocol = k.SecurityProtocol ∧
      k1.SASLMechanism = k.SASLMechanism ∧ k1.SASLUsername = k.SASLUsername ∧
      k1.SASLPassword = k.SASLPassword ∧ k1.TLSEnabled = k.TLSEnabled) ∧
    (∀ r, c.RemoteURL = some r → ∃ r1, c.setDefaults.RemoteURL = some r1 ∧
      (r.Timeout = 0 → r1.Timeout = 30 * second) ∧ (r.Timeout ≠ 0 → r1.Timeout = r.Timeout) ∧
      (r.Retries = 0 → r1.Retries = 3) ∧ (r.Retries ≠ 0 → r1.Retries = r.Retries) ∧
      r1.URL = r.URL) ∧
    (c.Worker.RetryInterval = 0 → c.setDefaults.Worker.RetryInterval = 5 * 60 * second) ∧
    (c.Worker.RetryInterval ≠ 0 →
      c.setDefaults.Worker.RetryInterval = c.Worker.RetryInterval) ∧
    (c.Worker.BatchSize = 0 → c.setDefaults.Worker.BatchSize = 50) ∧
    (c.Worker.BatchSize ≠ 0 → c.setDefaults.Worker.BatchSize = c.Worker.BatchSize) ∧
    c.setDefaults.Worker.MaxRetries = c.Worker.MaxRetries ∧
    c.setDefaults.Server = c.Server ∧ c.setDefaults.Routes = c.Routes ∧
    c.setDefaults.Redis = c.Redis ∧ c.setDefaults.SQLite = c.SQLite ∧
    c.setDefaults.Nginx = c.Nginx ∧
    (c.Kafka = none → c.setDefaults.Kafka = none) ∧
    (c.RemoteURL = none → c.setDefaults.RemoteURL = none) ∧
    c.setDefaults.setDefaults = c.setDefaults := by
  refine ⟨?_, ?_, ?_, ?_, ?_, ?_, rfl, rfl, rfl, rfl, rfl, rfl, ?_, ?_, ?_⟩
  · intro k hk
    refine ⟨k.setDefaults, by simp [Config.setDefaults, hk], ?_⟩
    unfold KafkaConfig.setDefaults
    refine ⟨?_, ?_, ?_, ?_, ?_, ?_, ?_, ?_, rfl, rfl, rfl, rfl, rfl, rfl⟩ <;> intro h <;>
      simp [h, second]
  · intro r hr
    refine ⟨r.setDefaults, by simp [Config.setDefaults, hr], ?_⟩
    unfold RemoteURLConfig.setDefaults
    refine ⟨?_, ?_, ?_, ?_, rfl⟩ <;> intro h <;> simp [h, second]
  · intro h
    simp [Config.setDefaults, WorkerConfig.setDefaults, h, second]
  · intro h
    simp [Config.setDefaults, WorkerConfig.setDefaults, h]
  · intro h
    simp [Config.setDefaults, WorkerConfig.setDefaults, h]
  · intro h
    simp [Config.setDefaults, WorkerConfig.setDefaults, h]
  · intro h
    simp [Config.setDefaults, h]
  · intro h
    simp [Config.setDefaults, h]
  · unfold Config.setDefaults
    simp only [Option.map_map]
    congr 1
    · cases c.Kafka with
      | none => rfl
      | some k => simp [kafkaDefaults_idem]
    · cases c.RemoteURL with
      | none => rfl
      | some r => simp [remoteDefaults_idem]
    · exact workerDefaults_idem c.Worker

/-- C24, the configuration of the defaults test: empty kafka and remote_url
blocks and an empty worker block receive every default. -/
theorem setDefaults_spec_witness :
    (Config.setDefaults
      { testConfig "localhost" 8080 [] none
          (some { URL := "", Timeout := 0, Retries := 0 }) with
        Kafka := some { Brokers := [], SecurityProtocol := "", SASLMechanism := "",
                        SASLUsername := "", SASLPassword := "", TLSEnabled := false,
                        RetryMax := 0, RetryBackoff := 0, BatchSize := 0, Timeout := 0 } }) =
      { testConfig "localhost" 8080 [] none
          (some { URL := "", Timeout := 30000000000, Retries := 3 }) with
        Kafka := some { Brokers := [], SecurityProtocol := "", SASLMechanism := "",
                        SASLUsername := "", SASLPassword := "", TLSEnabled := false,
                        RetryMax := 3, RetryBackoff := 2000000000, BatchSize := 100,
                        Timeout := 30000000000 },
        Worker := { RetryInterval := 300000000000, BatchSize := 50, MaxRetries := 0 } } ∧
    (testConfig "localhost" 8080 [] none none).setDefaults.Worker.BatchSize = 50 :=
  ⟨by decide,
    (setDefaults_spec (testConfig "localhost" 8080 [] none none)).2.2.2.2.1 (by decide)⟩

/-! ## Go maps of strings -/

theorem find?_filter_ne (m : List (String × String)) (k k1 : String) (h : k ≠ k1) :
    (m.filter (fun e => e.1 ≠ k)).find? (fun e => e.1 = k1) =
      m.find? (fun e => e.1 = k1) := by
  induction m with
  | nil => rfl
  | cons e m ih =>
    by_cases hk : e.1 = k
    · have he : ¬ e.1 = k1 := fun he => h (hk.symm.trans he)
      rw [List.filter_cons_of_neg (by simpa using hk),
        List.find?_cons_of_neg _ (by simpa using he), ih]
    · rw [List.filter_cons_of_pos (by simpa using hk)]
      by_cases he : e.1 = k1
      · rw [List.find?_cons_of_pos _ (by simpa using he),
          List.find?_cons_of_pos _ (by simpa using he)]
      · rw [List.find?_cons_of_neg _ (by simpa using he),
          List.find?_cons_of_neg _ (by simpa using he), ih]

theorem StringMap.get?_set (m : StringMap) (k v k1 : String) :
    (m.set k v).get? k1 = if k = k1 then some v else m.get? k1 := by
  unfold StringMap.set StringMap.get?
  by_cases h : k = k1
  · simp [List.find?_cons, h]
  · rw [if_neg h, List.find?_cons]
    have h1 : decide ((k, v).1 = k1) = false := by simpa using h
    simp only [h1]
    rw [find?_filter_ne m k k1 h]

theorem get?_buildRouteMap_aux (routes : List RouteConfig) (path : String) :
    ∀ m : StringMap,
      (routes.foldl (fun m route => m.set route.Path route.Queue) m).get? path =
        match routes.reverse.find? (fun route => route.Path = path) with
        | some route => some route.Queue
        | none => m.get? path := by
  induction routes with
  | nil => intro m; rfl
  | cons route rest ih =>
    intro m
    rw [List.foldl_cons, ih, List.reverse_cons, List.find?_append]
    cases hfind : rest.reverse.find? (fun route => route.Path = path) with
    | some r => rfl
    | none =>
      rw [StringMap.get?_set]
      by_cases hp : route.Path = path
      · simp [List.find?_cons, hp]
      · simp [List.find?_cons, hp]

/-- The route map sends a path to the queue of the last route with that path. -/
theorem get?_buildRouteMap (routes : List RouteConfig) (path : String) :
    (buildRouteMap routes).get? path =
      (routes.reverse.find? (fun route => route.Path = path)).map (fun route => route.Queue) := by
  unfold buildRouteMap
  rw [get?_buildRouteMap_aux]
  cases routes.reverse.find? (fun route => route.Path = path) <;> rfl

theorem get?_buildRouteMap_none (routes : List RouteConfig) (path : String) :
    (buildRouteMap routes).get? path = none ↔ ∀ route ∈ routes, route.Path ≠ path := by
  rw [get?_buildRouteMap, Option.map_eq_none', List.find?_eq_none]
  simp

/-! ## C21: an unknown path -/

theorem webhookHandler_no_route (cfg : Config) (h : MessageHandler)
    (storage : Option Store) (dbErr idDraw : Option String) (now : Time) (r : Request)
    (hpath : ∀ route ∈ cfg.Routes, route.Path ≠ r.Path) :
    ((NewServer cfg).webhookHandler h storage dbErr idDraw now r).calls = [] ∧
    ((NewServer cfg).webhookHandler h storage dbErr idDraw now r).storage = storage ∧
    ((NewServer cfg).webhookHandler h storage dbErr idDraw now r).message_id = none ∧
    (∀ id body, idDraw = some id → r.Body = some body →
      ((NewServer cfg).webhookHandler h storage dbErr idDraw now r).StatusCode = 404) ∧
    (idDraw = none →
      ((NewServer cfg).webhookHandler h storage dbErr idDraw now r).StatusCode = 500) ∧
    (∀ id, idDraw = some id → r.Body = none →
      ((NewServer cfg).webhookHandler h storage dbErr idDraw now r).StatusCode = 400) := by
  have hroute : (NewServer cfg).routeMap.get? r.Path = none :=
    (get?_buildRouteMap_none cfg.Routes r.Path).mpr hpath
  unfold Server.webhookHandler
  cases idDraw with
  | none => simp
  | some msgID =>
    cases hbody : r.Body with
    | none => simp
    | some body => simp [hroute]

theorem serve_eq_some (srv : Server) (matcher : String → String → Bool) (h : MessageHandler)
    (storage : Option Store) (dbErr idDraw : Option String) (now : Time) (method : String)
    (r : Request) (res : HandlerResult)
    (hs : srv.serve matcher h storage dbErr idDraw now method r = some res) :
    res = srv.webhookHandler h storage dbErr idDraw now r := by
  unfold Server.serve at hs
  split at hs
  · exact (Option.some.inj hs).symm
  · exact absurd hs (by simp)

/-- C21 (as stated, refuted). The one configured route is the template /hook/
followed by a variable.  A POST on /hook/x matches the template, so the router
hands it to webhookHandler; /hook/x is not a key of the route map; the body
cannot be read; and the answer is 400, not 404. -/
theorem webhookHandler_template_path_unread_body :
    (∀ route ∈ templateConfig.Routes, route.Path ≠ "/hook/x") ∧
    (NewServer templateConfig).routeMap.get? "/hook/x" = none ∧
    (NewServer templateConfig).setupRoutes = [("/hook/\x7bname\x7d", "POST")] ∧
    muxMatch "/hook/\x7bname\x7d" "/hook/x" = true ∧
    ((NewServer templateConfig).serve muxMatch sampleHandler (some []) none (some sampleID) 10
        "POST" { Path := "/hook/x", Header := [], Body := none }).map
      (fun res => res.StatusCode) = some 400 := by
  decide

/-- C21 (amended). For every request that the router hands to webhookHandler
and whose URL path is not the path of a configured route, webhookHandler does
not call ProcessWebhook and makes no other call, so no row is written and the
table is unchanged, and the response carries no message_id.  It responds 404
when the id was generated and the body was read; it responds 500 when the id
generation fails and 400 when the body read fails, both of which it checks
before the path.  This holds whatever the path matching of the router is. -/
theorem webhookHandler_unknown_path (matcher : String → String → Bool) (cfg : Config)
    (h : MessageHandler) (storage : Option Store) (dbErr idDraw : Option String) (now : Time)
    (method : String) (r : Request) (res : HandlerResult)
    (hserve : (NewServer cfg).serve matcher h storage dbErr idDraw now method r = some res)
    (hpath : ∀ route ∈ cfg.Routes, route.Path ≠ r.Path) :
    res.calls = [] ∧ res.storage = storage ∧ res.message_id = none ∧
    (∀ id body, idDraw = some id → r.Body = some body → res.StatusCode = 404) ∧
    (idDraw = none → res.StatusCode = 500) ∧
    (∀ id, idDraw = some id → r.Body = none → res.StatusCode = 400) := by
  rw [serve_eq_some _ _ _ _ _ _ _ _ _ _ hserve]
  exact webhookHandler_no_route cfg h storage dbErr idDraw now r hpath

/-- C21 (amended), the scenario of a POST on /hook/x under the template route,
with a readable body: 404 and the table as before. -/
theorem webhookHandler_unknown_path_witness :
    ((NewServer templateConfig).serve muxMatch sampleHandler (some [sampleRow "a" 10]) none
        (some sampleID) 10 "POST" { Path := "/hook/x", Header := [], Body := some [] }).map
      (fun res => (res.StatusCode, res.storage)) = some (404, some [sampleRow "a" 10]) ∧
    ((NewServer templateConfig).webhookHandler sampleHandler (some [sampleRow "a" 10]) none
        (some sampleID) 10 { Path := "/hook/x", Header := [], Body := some [] }).StatusCode
      = 404 ∧
    ((NewServer templateConfig).webhookHandler sampleHandler (some [sampleRow "a" 10]) none
        (some sampleID) 10 { Path := "/hook/x", Header := [], Body := some [] }).storage
      = some [sampleRow "a" 10] :=
  ⟨by decide,
    (webhookHandler_unknown_path muxMatch templateConfig sampleHandler
      (some [sampleRow "a" 10]) none (some sampleID) 10 "POST"
      { Path := "/hook/x", Header := [], Body := some [] } _ rfl
      (by decide)).2.2.2.1 sampleID [] rfl rfl,
    (webhookHandler_unknown_path muxMatch templateConfig sampleHandler
      (some [sampleRow "a" 10]) none (some sampleID) 10 "POST"
      { Path := "/hook/x", Header := [], Body := some [] } _ rfl (by decide)).2.1⟩

/-! ## C22: the message built by webhookHandler -/

theorem get?_extractHeaders_aux (header : List (String × List String)) (k : String) :
    ∀ m : StringMap,
      (header.foldl
        (fun m kv => match kv.2 with
          | [] => m
          | v :: _ => m.set kv.1 v) m).get? k =
        match header.reverse.find? (fun kv => decide (kv.1 = k) && !kv.2.isEmpty) with
        | some kv => kv.2.head?
        | none => m.get? k := by
  induction header with
  | nil => intro m; rfl
  | cons kv rest ih =>
    intro m
    rw [List.foldl_cons, ih, List.reverse_cons, List.find?_append]
    cases hfind : rest.reverse.find? (fun kv => decide (kv.1 = k) && !kv.2.isEmpty) with
    | some x => rfl
    | none =>
      obtain ⟨name, values⟩ := kv
      cases values with
      | nil => simp [List.find?_cons]
      | cons v vs =>
        by_cases hk : name = k
        · simp [List.find?_cons, hk, StringMap.get?_set]
        · simp [List.find?_cons, hk, StringMap.get?_set]

/-- With one entry per header name, the extracted map sends a name to the first
of its values, and has no entry for a name without values. -/
theorem get?_extractHeaders (header : List (String × List String))
    (hnodup : (header.map Prod.fst).Nodup) (k v : String) :
    (extractHeaders header).get? k = some v ↔ ∃ vs, (k, v :: vs) ∈ header := by
  unfold extractHeaders
  rw [get?_extractHeaders_aux]
  constructor
  · intro h
    cases hfind : header.reverse.find? (fun kv => decide (kv.1 = k) && !kv.2.isEmpty) with
    | none =>
      rw [hfind] at h
      simp [StringMap.get?] at h
    | some kv =>
      rw [hfind] at h
      have hmem : kv ∈ header := List.mem_reverse.mp (List.mem_of_find?_eq_some hfind)
      have hp := List.find?_some hfind
      simp only [Bool.and_eq_true, decide_eq_true_eq] at hp
      obtain ⟨name, values⟩ := kv
      cases values with
      | nil => simp at h
      | cons v1 vs =>
        have hv : v1 = v := by simpa using h
        have hn : name = k := hp.1
        exact ⟨vs, by rw [← hv, ← hn]; exact hmem⟩
  · rintro ⟨vs, hmem⟩
    cases hfind : header.reverse.find? (fun kv => decide (kv.1 = k) && !kv.2.isEmpty) with
    | none =>
      exfalso
      have := List.find?_eq_none.mp hfind (k, v :: vs) (List.mem_reverse.mpr hmem)
      simp at this
    | some kv =>
      have hmem2 : kv ∈ header := List.mem_reverse.mp (List.mem_of_find?_eq_some hfind)
      have hp := List.find?_some hfind
      simp only [Bool.and_eq_true, decide_eq_true_eq] at hp
      have hsame : kv = (k, v :: vs) := List.inj_on_of_nodup_map hnodup hmem2 hmem hp.1
      rw [hsame]
      rfl

/-- C22. Every message that webhookHandler passes to ProcessWebhook has the
generated id, path = the request path, queue = the queue the route map gives
for that path, body = the request body as read, status pending, retries 0, an
empty error and the three timestamps of the request; its headers send each
request header name that has at least one value to the first of its values and
have no entry for any other name.  A request with a generated id, a readable
body and a configured path does pass such a message. -/
theorem webhookHandler_message (srv : Server) (h : MessageHandler) (storage : Option Store)
    (dbErr idDraw : Option String) (now : Time) (r : Request) :
    (∀ msg, Call.ProcessWebhook msg ∈ (srv.webhookHandler h storage dbErr idDraw now r).calls →
      idDraw = some msg.ID ∧ msg.Path = r.Path ∧
      srv.routeMap.get? r.Path = some msg.Queue ∧ r.Body = some msg.Body ∧
      msg.Status = "pending" ∧ msg.Retries = 0 ∧ msg.Error = "" ∧
      msg.Timestamp = now ∧ msg.CreatedAt = now ∧ msg.UpdatedAt = now ∧
      msg.Headers = extractHeaders r.Header ∧
      ((r.Header.map Prod.fst).Nodup →
        ∀ k v, msg.Headers.get? k = some v ↔ ∃ vs, (k, v :: vs) ∈ r.Header)) ∧
    (∀ id body queue, idDraw = some id → r.Body = some body →
      srv.routeMap.get? r.Path = some queue →
      ∃ msg, Call.ProcessWebhook msg ∈ (srv.webhookHandler h storage dbErr idDraw now r).calls ∧
        msg.ID = id ∧ msg.Body = body ∧ msg.Queue = queue) := by
  have hsave : ∀ (s : Option Store) (e : Option String) (m msg : WebhookMessage),
      Call.ProcessWebhook msg ∈ Call.ProcessWebhook m :: (h.ProcessWebhook s e now m).calls →
      msg = m := by
    intro s e m msg hmem
    rcases List.mem_cons.mp hmem with h1 | h1
    · exact Call.ProcessWebhook.inj h1
    · exfalso
      cases s with
      | none => simp [MessageHandler.ProcessWebhook] at h1
      | some s =>
        cases e with
        | none => simp [MessageHandler.ProcessWebhook] at h1
        | some e => simp [MessageHandler.ProcessWebhook] at h1
  unfold Server.webhookHandler
  cases idDraw with
  | none => simp
  | some msgID =>
    cases hbody : r.Body with
    | none => simp
    | some body =>
      cases hroute : srv.routeMap.get? r.Path with
      | none => simp
      | some queue =>
        constructor
        · intro msg hmem
          have hmsg : msg = ⟨msgID, r.Path, queue, body, extractHeaders r.Header, now, 0,
              StatusPending, "", now, now⟩ := by
            simp only [] at hmem
            split at hmem <;> exact hsave storage dbErr _ msg hmem
          subst hmsg
          exact ⟨rfl, rfl, rfl, rfl, rfl, rfl, rfl, rfl, rfl, rfl, rfl,
            fun hnodup k v => get?_extractHeaders r.Header hnodup k v⟩
        · intro id body1 queue1 hid hb hq
          refine ⟨⟨msgID, r.Path, queue, body, extractHeaders r.Header, now, 0,
              StatusPending, "", now, now⟩, ?_, Option.some.inj hid, Option.some.inj hb,
            Option.some.inj hq⟩
          simp only []
          split <;> exact List.mem_cons_self _ _

/-- C22, at a request with a two-valued header and a header without values:
the message carries the first value of the former and nothing for the latter. -/
theorem webhookHandler_message_witness :
    ((NewServer (sampleConfig 0 none)).webhookHandler sampleHandler (some []) none
        (some sampleID) 10
        { Path := "/hook/a", Header := [("Accept", ["a/b", "c/d"]), ("X-Empty", [])],
          Body := some [1, 2] }).calls =
      [Call.ProcessWebhook
        { ID := sampleID, Path := "/hook/a", Queue := "q1", Body := [1, 2],
          Headers := [("Accept", "a/b")], Timestamp := 10, Retries := 0, Status := "pending",
          Error := "", CreatedAt := 10, UpdatedAt := 10 },
       Call.SaveMessage
        { ID := sampleID, Path := "/hook/a", Queue := "q1", Body := [1, 2],
          Headers := [("Accept", "a/b")], Timestamp := 10, Retries := 0, Status := "pending",
          Error := "", CreatedAt := 10, UpdatedAt := 10 }] ∧
    ∃ msg, Call.ProcessWebhook msg ∈
        ((NewServer (sampleConfig 0 none)).webhookHandler sampleHandler (some []) none
          (some sampleID) 10
          { Path := "/hook/a", Header := [("Accept", ["a/b", "c/d"]), ("X-Empty", [])],
            Body := some [1, 2] }).calls ∧
      msg.ID = sampleID ∧ msg.Body = [1, 2] ∧ msg.Queue = "q1" :=
  ⟨by decide,
    (webhookHandler_message (NewServer (sampleConfig 0 none)) sampleHandler (some []) none
      (some sampleID) 10
      { Path := "/hook/a", Header := [("Accept", ["a/b", "c/d"]), ("X-Empty", [])],
        Body := some [1, 2] }).2 sampleID [1, 2] "q1" rfl rfl (by decide)⟩

/-! ## C25: the outcome of the HTTP sink -/

/-- C25. When the request is created and the transport returns a response with
status code s and body b, SendMessage returns success if and only if
200 <= s < 300, and for any other s it returns the failure whose text is
"HTTP request failed with status s: b". -/
theorem Client_SendMessage_status (c : Client) (lib : HTTPLibrary)
    (transport : HTTPRequest → Except String HTTPResponse) (msg : WebhookMessage)
    (resp : HTTPResponse) (hresp : transport (c.buildRequest lib msg) = Except.ok resp) :
    (c.SendMessage lib none transport msg = none ↔
      200 ≤ resp.StatusCode ∧ resp.StatusCode < 300) ∧
    (¬ (200 ≤ resp.StatusCode ∧ resp.StatusCode < 300) →
      c.SendMessage lib none transport msg =
        some ("HTTP request failed with status " ++ toString resp.StatusCode ++ ": " ++
          resp.Body)) := by
  unfold Client.SendMessage
  simp only [hresp]
  by_cases h : resp.StatusCode < 200 ∨ resp.StatusCode ≥ 300
  · rw [if_pos h]
    refine ⟨⟨fun hnone => Option.noConfusion hnone, fun hin => ?_⟩, fun _ => rfl⟩
    rcases h with h | h <;> omega
  · rw [if_neg h]
    refine ⟨⟨fun _ => by omega, fun _ => rfl⟩, fun hout => ?_⟩
    exfalso
    apply hout
    omega

/-- C25, a remote that answers 503 with body "down" and one that answers 204. -/
theorem Client_SendMessage_status_witness :
    sampleClient.SendMessage sampleLibrary none
        (fun _ => Except.ok { StatusCode := 503, Body := "down" }) (sampleMsg sampleID 10) =
      some "HTTP request failed with status 503: down" ∧
    sampleClient.SendMessage sampleLibrary none
        (fun _ => Except.ok { StatusCode := 204, Body := "" }) (sampleMsg sampleID 10) = none :=
  ⟨((Client_SendMessage_status sampleClient sampleLibrary
      (fun _ => Except.ok { StatusCode := 503, Body := "down" }) (sampleMsg sampleID 10)
      { StatusCode := 503, Body := "down" } rfl).2 (by decide)).trans (by decide),
    by decide⟩

/-! ## C26: the request of the HTTP sink -/

theorem get?_foldl_headerSet (lib : HTTPLibrary) (headers : StringMap) (k : String) :
    ∀ m : StringMap,
      (headers.foldl (fun h kv => lib.headerSet h kv.1 kv.2) m).get? k =
        match headers.reverse.find? (fun kv => lib.canonicalKey kv.1 = k) with
        | some kv => some kv.2
        | none => m.get? k := by
  induction headers with
  | nil => intro m; rfl
  | cons kv rest ih =>
    intro m
    rw [List.foldl_cons, ih, List.reverse_cons, List.find?_append]
    cases hfind : rest.reverse.find? (fun kv => lib.canonicalKey kv.1 = k) with
    | some x => rfl
    | none =>
      unfold HTTPLibrary.headerSet
      rw [StringMap.get?_set]
      by_cases hk : lib.canonicalKey kv.1 = k
      · simp [List.find?_cons, hk]
      · simp [List.find?_cons, hk]

/-- The original header map: a canonical name carried by original headers that
agree on their value maps to that value. -/
theorem get?_original_headers (lib : HTTPLibrary) (headers : StringMap) (name v : String)
    (hmem : (name, v) ∈ headers)
    (hagree : ∀ kv ∈ headers, lib.canonicalKey kv.1 = lib.canonicalKey name → kv.2 = v) :
    (headers.foldl (fun h kv => lib.headerSet h kv.1 kv.2) []).get? (lib.canonicalKey name) =
      some v := by
  rw [get?_foldl_headerSet]
  cases hfind : headers.reverse.find?
      (fun kv => lib.canonicalKey kv.1 = lib.canonicalKey name) with
  | none =>
    exfalso
    have := List.find?_eq_none.mp hfind (name, v) (List.mem_reverse.mpr hmem)
    simp at this
  | some kv =>
    have hmem2 : kv ∈ headers := List.mem_reverse.mp (List.mem_of_find?_eq_some hfind)
    have hp := List.find?_some hfind
    simp only [decide_eq_true_eq] at hp
    show some kv.2 = some v
    rw [hagree kv hmem2 hp]

theorem get?_original_headers_none (lib : HTTPLibrary) (headers : StringMap) (k : String)
    (hnone : ∀ kv ∈ headers, lib.canonicalKey kv.1 ≠ k) :
    (headers.foldl (fun h kv => lib.headerSet h kv.1 kv.2) []).get? k = none := by
  rw [get?_foldl_headerSet]
  have hfind : headers.reverse.find? (fun kv => lib.canonicalKey kv.1 = k) = none := by
    rw [List.find?_eq_none]
    intro kv hkv
    simpa using hnone kv (List.mem_reverse.mp hkv)
  rw [hfind]
  rfl

theorem get?_original_headers_some (lib : HTTPLibrary) (headers : StringMap) (k v : String)
    (h : (headers.foldl (fun h kv => lib.headerSet h kv.1 kv.2) []).get? k = some v) :
    ∃ name, (name, v) ∈ headers ∧ lib.canonicalKey name = k := by
  rw [get?_foldl_headerSet] at h
  cases hfind : headers.reverse.find? (fun kv => lib.canonicalKey kv.1 = k) with
  | none =>
    rw [hfind] at h
    simp [StringMap.get?] at h
  | some kv =>
    rw [hfind] at h
    have hmem : kv ∈ headers := List.mem_reverse.mp (List.mem_of_find?_eq_some hfind)
    have hp := List.find?_some hfind
    simp only [decide_eq_true_eq] at hp
    have hv : kv.2 = v := Option.some.inj h
    exact ⟨kv.1, by rw [← hv]; exact hmem, hp⟩

theorem canonical_names_distinct (lib : HTTPLibrary)
    (hcanon : [lib.canonicalKey "X-Webhook-ID", lib.canonicalKey "X-Webhook-Path",
      lib.canonicalKey "X-Webhook-Queue", lib.canonicalKey "X-Webhook-Timestamp",
      lib.canonicalKey "Content-Type"].Nodup) :
    lib.canonicalKey "X-Webhook-ID" ≠ lib.canonicalKey "X-Webhook-Path" ∧
    lib.canonicalKey "X-Webhook-ID" ≠ lib.canonicalKey "X-Webhook-Queue" ∧
    lib.canonicalKey "X-Webhook-ID" ≠ lib.canonicalKey "X-Webhook-Timestamp" ∧
    lib.canonicalKey "X-Webhook-ID" ≠ lib.canonicalKey "Content-Type" ∧
    lib.canonicalKey "X-Webhook-Path" ≠ lib.canonicalKey "X-Webhook-Queue" ∧
    lib.canonicalKey "X-Webhook-Path" ≠ lib.canonicalKey "X-Webhook-Timestamp" ∧
    lib.canonicalKey "X-Webhook-Path" ≠ lib.canonicalKey "Content-Type" ∧
    lib.canonicalKey "X-Webhook-Queue" ≠ lib.canonicalKey "X-Webhook-Timestamp" ∧
    lib.canonicalKey "X-Webhook-Queue" ≠ lib.canonicalKey "Content-Type" ∧
    lib.canonicalKey "X-Webhook-Timestamp" ≠ lib.canonicalKey "Content-Type" := by
  simp only [List.nodup_cons, List.mem_cons, List.mem_singleton, List.not_mem_nil, not_or,
    or_false, List.nodup_nil, and_true, not_false_eq_true] at hcanon
  obtain ⟨⟨a1, a2, a3, a4⟩, ⟨b1, b2, b3⟩, ⟨c1, c2⟩, d1⟩ := hcanon
  exact ⟨a1, a2, a3, a4, b1, b2, b3, c1, c2, d1⟩

/-- The header map of the request, name by name. -/
theorem buildRequest_get? (c : Client) (lib : HTTPLibrary) (msg : WebhookMessage)
    (hcanon : [lib.canonicalKey "X-Webhook-ID", lib.canonicalKey "X-Webhook-Path",
      lib.canonicalKey "X-Webhook-Queue", lib.canonicalKey "X-Webhook-Timestamp",
      lib.canonicalKey "Content-Type"].Nodup) (k : String) :
    (c.buildRequest lib msg).Header.get? k =
      if k = lib.canonicalKey "X-Webhook-ID" then some msg.ID
      else if k = lib.canonicalKey "X-Webhook-Path" then some msg.Path
      else if k = lib.canonicalKey "X-Webhook-Queue" then some msg.Queue
      else if k = lib.canonicalKey "X-Webhook-Timestamp" then
        some (lib.formatRFC3339 msg.Timestamp)
      else if k = lib.canonicalKey "Content-Type" then
        match (msg.Headers.foldl (fun h kv => lib.headerSet h kv.1 kv.2) []).get?
          (lib.canonicalKey "Content-Type") with
        | some v => if v = "" then some "application/json" else some v
        | none => some "application/json"
      else (msg.Headers.foldl (fun h kv => lib.headerSet h kv.1 kv.2) []).get? k := by
  obtain ⟨a1, a2, a3, a4, b1, b2, b3, c1, c2, d1⟩ := canonical_names_distinct lib hcanon
  have hct : (lib.headerSet (lib.headerSet (lib.headerSet (lib.headerSet
      (msg.Headers.foldl (fun h kv => lib.headerSet h kv.1 kv.2) [])
      "X-Webhook-ID" msg.ID) "X-Webhook-Path" msg.Path) "X-Webhook-Queue" msg.Queue)
      "X-Webhook-Timestamp" (lib.formatRFC3339 msg.Timestamp)).get?
        (lib.canonicalKey "Content-Type") =
      (msg.Headers.foldl (fun h kv => lib.headerSet h kv.1 kv.2) []).get?
        (lib.canonicalKey "Content-Type") := by
    simp only [HTTPLibrary.headerSet, StringMap.get?_set, if_neg a4, if_neg b3, if_neg c2,
      if_neg d1]
  unfold Client.buildRequest
  simp only [HTTPLibrary.headerGet, hct]
  by_cases k1 : k = lib.canonicalKey "X-Webhook-ID"
  · subst k1
    split <;>
      simp [HTTPLibrary.headerSet, StringMap.get?_set, a1, a2, a3, a4, a1.symm, a2.symm,
        a3.symm, a4.symm]
  · by_cases k2 : k = lib.canonicalKey "X-Webhook-Path"
    · subst k2
      split <;>
        simp [HTTPLibrary.headerSet, StringMap.get?_set, a1, b1, b2, b3, a1.symm, b1.symm,
          b2.symm, b3.symm]
    · by_cases k3 : k = lib.canonicalKey "X-Webhook-Queue"
      · subst k3
        split <;>
          simp [HTTPLibrary.headerSet, StringMap.get?_set, a2, b1, c1, c2, a2.symm, b1.symm,
            c1.symm, c2.symm]
      · by_cases k4 : k = lib.canonicalKey "X-Webhook-Timestamp"
        · subst k4
          split <;>
            simp [HTTPLibrary.headerSet, StringMap.get?_set, a3, b2, c1, d1, a3.symm, b2.symm,
              c1.symm, d1.symm]
        · have n1 : ¬ lib.canonicalKey "X-Webhook-ID" = k := fun h => k1 h.symm
          have n2 : ¬ lib.canonicalKey "X-Webhook-Path" = k := fun h => k2 h.symm
          have n3 : ¬ lib.canonicalKey "X-Webhook-Queue" = k := fun h => k3 h.symm
          have n4 : ¬ lib.canonicalKey "X-Webhook-Timestamp" = k := fun h => k4 h.symm
          rw [if_neg k1, if_neg k2, if_neg k3, if_neg k4]
          by_cases k5 : k = lib.canonicalKey "Content-Type"
          · subst k5
            rw [if_pos rfl]
            cases hget : (msg.Headers.foldl (fun h kv => lib.headerSet h kv.1 kv.2) []).get?
                (lib.canonicalKey "Content-Type") with
            | none =>
              simp [HTTPLibrary.headerSet, StringMap.get?_set]
            | some v =>
              by_cases hv : v = ""
              · simp [hv, HTTPLibrary.headerSet, StringMap.get?_set]
              · simp only [hv, if_false]
                simp only [HTTPLibrary.headerSet, StringMap.get?_set, if_neg n1, if_neg n2,
                  if_neg n3, if_neg n4]
                exact hget
          · have n5 : ¬ lib.canonicalKey "Content-Type" = k := fun h => k5 h.symm
            rw [if_neg k5]
            split <;>
              simp only [HTTPLibrary.headerSet, StringMap.get?_set, if_neg n1, if_neg n2,
                if_neg n3, if_neg n4, if_neg n5]

/-- C26. The request the HTTP sink builds is a POST to the configured URL with
the message body as it is.  Header names are taken in their canonical form (the
form Header.Set stores them under), the five names below being distinct in that
form.  The request carries X-Webhook-ID = id, X-Webhook-Path = path,
X-Webhook-Queue = queue and X-Webhook-Timestamp = the timestamp in RFC3339,
whatever the original headers hold under those names.  Every other original
header is carried with its value (when the originals sharing its canonical name
agree on the value), except an original Content-Type with an empty value;
Content-Type is application/json when no original header gives it a value that
is not empty.  The request carries no other header. -/
theorem buildRequest_spec (c : Client) (lib : HTTPLibrary) (msg : WebhookMessage)
    (hcanon : [lib.canonicalKey "X-Webhook-ID", lib.canonicalKey "X-Webhook-Path",
      lib.canonicalKey "X-Webhook-Queue", lib.canonicalKey "X-Webhook-Timestamp",
      lib.canonicalKey "Content-Type"].Nodup) :
    (c.buildRequest lib msg).Method = "POST" ∧
    (c.buildRequest lib msg).URL = c.config.URL ∧
    (c.buildRequest lib msg).Body = msg.Body ∧
    (c.buildRequest lib msg).Header.get? (lib.canonicalKey "X-Webhook-ID") = some msg.ID ∧
    (c.buildRequest lib msg).Header.get? (lib.canonicalKey "X-Webhook-Path") = some msg.Path ∧
    (c.buildRequest lib msg).Header.get? (lib.canonicalKey "X-Webhook-Queue") = some msg.Queue ∧
    (c.buildRequest lib msg).Header.get? (lib.canonicalKey "X-Webhook-Timestamp") =
      some (lib.formatRFC3339 msg.Timestamp) ∧
    (∀ name v, (name, v) ∈ msg.Headers →
      lib.canonicalKey name ∉ [lib.canonicalKey "X-Webhook-ID", lib.canonicalKey "X-Webhook-Path",
        lib.canonicalKey "X-Webhook-Queue", lib.canonicalKey "X-Webhook-Timestamp"] →
      (lib.canonicalKey name = lib.canonicalKey "Content-Type" → v ≠ "") →
      (∀ kv ∈ msg.Headers, lib.canonicalKey kv.1 = lib.canonicalKey name → kv.2 = v) →
      (c.buildRequest lib msg).Header.get? (lib.canonicalKey name) = some v) ∧
    ((∀ kv ∈ msg.Headers, lib.canonicalKey kv.1 = lib.canonicalKey "Content-Type" → kv.2 = "") →
      (c.buildRequest lib msg).Header.get? (lib.canonicalKey "Content-Type") =
        some "application/json") ∧
    (∀ k v, (c.buildRequest lib msg).Header.get? k = some v →
      k ∈ [lib.canonicalKey "X-Webhook-ID", lib.canonicalKey "X-Webhook-Path",
        lib.canonicalKey "X-Webhook-Queue", lib.canonicalKey "X-Webhook-Timestamp",
        lib.canonicalKey "Content-Type"] ∨
      ∃ name, (name, v) ∈ msg.Headers ∧ lib.canonicalKey name = k) := by
  obtain ⟨a1, a2, a3, a4, b1, b2, b3, c1, c2, d1⟩ := canonical_names_distinct lib hcanon
  have hget := buildRequest_get? c lib msg hcanon
  refine ⟨rfl, rfl, rfl, ?_, ?_, ?_, ?_, ?_, ?_, ?_⟩
  · rw [hget, if_pos rfl]
  · rw [hget, if_neg a1.symm, if_pos rfl]
  · rw [hget, if_neg a2.symm, if_neg b1.symm, if_pos rfl]
  · rw [hget, if_neg a3.symm, if_neg b2.symm, if_neg c1.symm, if_pos rfl]
  · intro name v hmem hmeta hct hagree
    simp only [List.mem_cons, List.mem_singleton, List.not_mem_nil, or_false, not_or] at hmeta
    obtain ⟨m1, m2, m3, m4⟩ := hmeta
    have horig := get?_original_headers lib msg.Headers name v hmem hagree
    rw [hget, if_neg m1, if_neg m2, if_neg m3, if_neg m4]
    by_cases h5 : lib.canonicalKey name = lib.canonicalKey "Content-Type"
    · rw [if_pos h5, ← h5, horig]
      simp only [if_neg (hct h5)]
    · rw [if_neg h5, horig]
  · intro hempty
    rw [hget, if_neg a4.symm, if_neg b3.symm, if_neg c2.symm, if_neg d1.symm, if_pos rfl]
    cases horig : (msg.Headers.foldl (fun h kv => lib.headerSet h kv.1 kv.2) []).get?
        (lib.canonicalKey "Content-Type") with
    | none => rfl
    | some v =>
      obtain ⟨name, hmem, hname⟩ := get?_original_headers_some lib msg.Headers _ v horig
      have hv : v = "" := hempty (name, v) hmem hname
      simp only [hv, if_true]
  · intro k v hk
    rw [hget] at hk
    by_cases k1 : k = lib.canonicalKey "X-Webhook-ID"
    · left; rw [k1]; simp
    · by_cases k2 : k = lib.canonicalKey "X-Webhook-Path"
      · left; rw [k2]; simp
      · by_cases k3 : k = lib.canonicalKey "X-Webhook-Queue"
        · left; rw [k3]; simp
        · by_cases k4 : k = lib.canonicalKey "X-Webhook-Timestamp"
          · left; rw [k4]; simp
          · by_cases k5 : k = lib.canonicalKey "Content-Type"
            · left; rw [k5]; simp
            · right
              rw [if_neg k1, if_neg k2, if_neg k3, if_neg k4, if_neg k5] at hk
              exact get?_original_headers_some lib msg.Headers k v hk

/-- C26, at a message whose original headers carry a Content-Type and a
spoofed X-Webhook-ID: the request keeps the Content-Type and carries the id of
the message. -/
theorem buildRequest_spec_witness :
    (sampleClient.buildRequest sampleLibrary
        { sampleMsg sampleID 10 with
          Headers := [("Content-Type", "text/plain"), ("X-Webhook-ID", "spoofed")],
          Body := [1, 2] }) =
      { Method := "POST", URL := "http://remote/hook", Body := [1, 2],
        Header := [("X-Webhook-Timestamp", "10"), ("X-Webhook-Queue", "q1"),
          ("X-Webhook-Path", "/hook/a"), ("X-Webhook-ID", sampleID),
          ("Content-Type", "text/plain")] } ∧
    (sampleClient.buildRequest sampleLibrary (sampleMsg sampleID 10)).Header.get?
        (sampleLibrary.canonicalKey "Content-Type") = some "application/json" ∧
    (sampleClient.buildRequest sampleLibrary (sampleMsg sampleID 10)).Header.get?
        (sampleLibrary.canonicalKey "X-Webhook-ID") = some (sampleMsg sampleID 10).ID :=
  ⟨by decide, by decide,
    (buildRequest_spec sampleClient sampleLibrary (sampleMsg sampleID 10)
      (by decide)).2.2.2.1⟩

/-! ## C27: the record of the broker sink -/

theorem foldl_append_singleton (headers : StringMap) :
    ∀ acc : List (String × String),
      headers.foldl (fun hs kv => hs ++ [(kv.1, kv.2)]) acc = acc ++ headers := by
  induction headers with
  | nil => intro acc; simp
  | cons kv rest ih =>
    intro acc
    rw [List.foldl_cons, ih]
    simp

theorem buildProducerMessage_headers (msg : WebhookMessage) :
    (buildProducerMessage msg).Headers =
      msg.Headers ++ [("X-Webhook-ID", msg.ID), ("X-Webhook-Path", msg.Path)] := by
  unfold buildProducerMessage
  simp only [foldl_append_singleton, List.nil_append]

theorem occurrences_of_nodup (l : List (String × String)) (p : String × String)
    (hnodup : l.Nodup) (hp : p ∈ l) : (l.filter (fun q => q = p)).length = 1 := by
  induction l with
  | nil => exact absurd hp (List.not_mem_nil p)
  | cons a l ih =>
    rw [List.nodup_cons] at hnodup
    by_cases ha : a = p
    · have hnil : l.filter (fun q => q = p) = [] := by
        rw [List.filter_eq_nil_iff]
        intro q hq
        have : q ≠ p := fun h => hnodup.1 (ha ▸ h ▸ hq)
        simpa using this
      rw [List.filter_cons_of_pos (by simpa using ha), hnil]
      rfl
    · rw [List.filter_cons_of_neg (by simpa using ha)]
      rcases List.mem_cons.mp hp with h | h
      · exact absurd h.symm ha
      · exact ih hnodup.2 h

/-- C27 (as stated, refuted). A message received on /hook/a whose original
headers already carry X-Webhook-Path = /hook/a yields a record in which that
original pair appears twice, not exactly once. -/
theorem buildProducerMessage_repeats_pair :
    ("X-Webhook-Path", "/hook/a") ∈
      ({ sampleMsg sampleID 10 with Headers := [("X-Webhook-Path", "/hook/a")] }
        : WebhookMessage).Headers ∧
    (buildProducerMessage
      { sampleMsg sampleID 10 with Headers := [("X-Webhook-Path", "/hook/a")] }).Headers =
      [("X-Webhook-Path", "/hook/a"), ("X-Webhook-ID", sampleID),
        ("X-Webhook-Path", "/hook/a")] ∧
    ((buildProducerMessage
      { sampleMsg sampleID 10 with Headers := [("X-Webhook-Path", "/hook/a")] }).Headers.filter
      (fun q => q = ("X-Webhook-Path", "/hook/a"))).length = 2 := by
  decide

/-- C27 (amended). The record the broker sink builds has topic = msg.queue,
key = the message id and value = the body bytes.  Its header collection is the
original headers followed by X-Webhook-ID = id and X-Webhook-Path = path: it
has len(msg.headers) + 2 entries, each pair occurs in it as often as among the
original headers plus as often as among the two metadata headers, and so an
original pair (original headers being distinct) that is neither of the two
metadata headers appears exactly once. -/
theorem buildProducerMessage_spec (msg : WebhookMessage) :
    (buildProducerMessage msg).Topic = msg.Queue ∧
    (buildProducerMessage msg).Key = msg.ID ∧
    (buildProducerMessage msg).Value = msg.Body ∧
    (buildProducerMessage msg).Headers.length = msg.Headers.length + 2 ∧
    (buildProducerMessage msg).Headers.take msg.Headers.length = msg.Headers ∧
    (buildProducerMessage msg).Headers.drop msg.Headers.length =
      [("X-Webhook-ID", msg.ID), ("X-Webhook-Path", msg.Path)] ∧
    (∀ p, ((buildProducerMessage msg).Headers.filter (fun q => q = p)).length =
      (msg.Headers.filter (fun q => q = p)).length +
        ([("X-Webhook-ID", msg.ID), ("X-Webhook-Path", msg.Path)].filter
          (fun q => q = p)).length) ∧
    (msg.Headers.Nodup → ∀ p ∈ msg.Headers,
      p ≠ ("X-Webhook-ID", msg.ID) → p ≠ ("X-Webhook-Path", msg.Path) →
      ((buildProducerMessage msg).Headers.filter (fun q => q = p)).length = 1) := by
  have hh := buildProducerMessage_headers msg
  refine ⟨rfl, rfl, rfl, ?_, ?_, ?_, ?_, ?_⟩
  · rw [hh]; simp
  · rw [hh]; simp
  · rw [hh]; simp
  · intro p
    rw [hh, List.filter_append, List.length_append]
  · intro hnodup p hp h1 h2
    rw [hh, List.filter_append, List.length_append, occurrences_of_nodup _ p hnodup hp]
    have hnil : [("X-Webhook-ID", msg.ID), ("X-Webhook-Path", msg.Path)].filter
        (fun q => q = p) = [] := by
      rw [List.filter_eq_nil_iff]
      intro q hq
      simp only [List.mem_cons, List.mem_singleton, List.not_mem_nil, or_false] at hq
      rcases hq with h | h
      · have : q ≠ p := fun hqp => h1 (hqp ▸ h)
        simpa using this
      · have : q ≠ p := fun hqp => h2 (hqp ▸ h)
        simpa using this
    rw [hnil]
    rfl

/-- C27 (amended), at a message with one original header. -/
theorem buildProducerMessage_spec_witness :
    buildProducerMessage
        { sampleMsg sampleID 10 with Headers := [("Accept", "a/b")], Body := [1, 2] } =
      { Topic := "q1", Key := sampleID, Value := [1, 2],
        Headers := [("Accept", "a/b"), ("X-Webhook-ID", sampleID),
          ("X-Webhook-Path", "/hook/a")],
        Timestamp := 10 } ∧
    ((buildProducerMessage
      { sampleMsg sampleID 10 with Headers := [("Accept", "a/b")], Body := [1, 2] }).Headers.filter
      (fun q => q = ("Accept", "a/b"))).length = 1 :=
  ⟨by decide,
    (buildProducerMessage_spec
      { sampleMsg sampleID 10 with Headers := [("Accept", "a/b")], Body := [1, 2] }).2.2.2.2.2.2.2
      (by decide) ("Accept", "a/b") (by decide) (by decide) (by decide)⟩

/-! ## C28: the health report -/

/-- C28. HealthCheck returns a map whose keys are exactly kafka, remote_url and
storage.  The status of a component is "not_configured" if and only if the
component is absent, "unhealthy" if and only if it is present and its probe
(HealthCheck of the client, GetMessageStats of the storage) returns an error,
in which case the report carries the error text, and "healthy" if and only if
it is present and the probe succeeds; a healthy storage also carries the
statistics. -/
theorem HealthCheck_report (h : MessageHandler) (storage : Option Store)
    (kafkaProbe httpProbe statsErr : Option String) :
    (h.HealthCheck storage kafkaProbe httpProbe statsErr).map Prod.fst =
      ["storage", "remote_url", "kafka"] ∧
    (∃ k, (h.HealthCheck storage kafkaProbe httpProbe statsErr).get? "kafka" = some k ∧
      (k.status = "not_configured" ↔ h.kafkaProducer = none) ∧
      (k.status = "unhealthy" ↔ h.kafkaProducer ≠ none ∧ kafkaProbe ≠ none) ∧
      (k.status = "healthy" ↔ h.kafkaProducer ≠ none ∧ kafkaProbe = none) ∧
      (k.status = "unhealthy" → k.error = kafkaProbe)) ∧
    (∃ u, (h.HealthCheck storage kafkaProbe httpProbe statsErr).get? "remote_url" = some u ∧
      (u.status = "not_configured" ↔ h.httpClient = none) ∧
      (u.status = "unhealthy" ↔ h.httpClient ≠ none ∧ httpProbe ≠ none) ∧
      (u.status = "healthy" ↔ h.httpClient ≠ none ∧ httpProbe = none) ∧
      (u.status = "unhealthy" → u.error = httpProbe)) ∧
    (∃ d, (h.HealthCheck storage kafkaProbe httpProbe statsErr).get? "storage" = some d ∧
      (d.status = "not_configured" ↔ storage = none) ∧
      (d.status = "unhealthy" ↔ storage ≠ none ∧ statsErr ≠ none) ∧
      (d.status = "healthy" ↔ storage ≠ none ∧ statsErr = none) ∧
      (d.status = "unhealthy" → d.error = statsErr) ∧
      (∀ s, storage = some s → statsErr = none → d.stats = some (GetMessageStats s))) := by
  unfold MessageHandler.HealthCheck
  cases h.kafkaProducer <;> cases h.httpClient <;> cases storage <;> cases kafkaProbe <;>
    cases httpProbe <;> cases statsErr <;>
    simp [HealthMap.set, HealthMap.get?, probeHealth, notConfigured, List.find?_cons]

/-- C28, the handler of the health test: a Kafka producer whose health check
fails with "kafka down" is reported unhealthy with that text. -/
theorem HealthCheck_report_witness :
    (MessageHandler.HealthCheck
      { config := sampleConfig 0 none, kafkaProducer := some acceptingSink,
        httpClient := some acceptingSink }
      (some [sampleRow "a" 10]) (some "kafka down") none none).get? "kafka" =
      some { status := "unhealthy", error := some "kafka down", stats := none } ∧
    (MessageHandler.HealthCheck
      { config := sampleConfig 0 none, kafkaProducer := some acceptingSink,
        httpClient := some acceptingSink }
      (some [sampleRow "a" 10]) (some "kafka down") none none).map Prod.fst =
      ["storage", "remote_url", "kafka"] :=
  ⟨by decide,
    (HealthCheck_report
      { config := sampleConfig 0 none, kafkaProducer := some acceptingSink,
        httpClient := some acceptingSink }
      (some [sampleRow "a" 10]) (some "kafka down") none none).1⟩

/-! ## C29: As and errors.As -/

/-- On an error that is nil or is itself an ApplicationError, As returns what
errors.As returns. -/
theorem As_eq_errorsAs_of_direct (err : GoError)
    (h : ∀ text cause, err ≠ GoError.other text cause) : As err = errorsAs err := by
  cases err with
  | nil => rfl
  | application type message details cause => rfl
  | other text cause => exact absurd rfl (h text cause)

/-- C29. The code at an error that wraps an ApplicationError of type STORAGE:
errors.As finds the wrapped ApplicationError in the Unwrap chain, while As
returns false and IsType(err, STORAGE) is false, because As only tests the
error itself and never follows Unwrap. -/
theorem As_misses_wrapped_error :
    errorsAs wrappedStorageError =
      some { Type_ := "STORAGE", Message := "disk full", Details := "",
             Cause := GoError.nil } ∧
    As wrappedStorageError = none ∧
    IsType wrappedStorageError "STORAGE" = false ∧
    As wrappedStorageError ≠ errorsAs wrappedStorageError := by
  decide

end MessageBridge
